import Mathlib

/-!
# PFQ receive engine and group table

A shallow embedding of the group subsystem (`kernel/pf_q-group.c`) and of the
routing part of the receive path (`kernel/pf_q.c`), with the properties of the
specification stated and proved over it.

Machine integers are natural numbers; `unsigned int` arithmetic is reduced
modulo `2 ^ 32` and `unsigned long` arithmetic modulo `2 ^ 64` wherever the
C code can wrap.
-/

namespace PFQ

/-! ## Integer folding (`pf_q.c`) -/

/-- Number of values of an `unsigned int`. -/
def U32 : Nat := 2 ^ 32

/-- Number of values of an `unsigned long`. -/
def U64 : Nat := 2 ^ 64

/-- The `unsigned int` subtraction `x - 1`, which wraps at zero. -/
def dec32 (x : Nat) : Nat := (x + U32 - 1) % U32

/-- Next power of two of an `unsigned int` (`clp2` in `pf_q.c`); the final
`x + 1` wraps to zero when the smeared value is `2 ^ 32 - 1`. -/
def clp2 (x : Nat) : Nat :=
  let x := dec32 x
  let x := x ||| (x >>> 1)
  let x := x ||| (x >>> 2)
  let x := x ||| (x >>> 4)
  let x := x ||| (x >>> 8)
  let x := x ||| (x >>> 16)
  (x + 1) % U32

/-- The folding operation `pfq_fold(a, b)` of `pf_q.c` on `unsigned int`
arguments. -/
def pfq_fold (a b : Nat) : Nat :=
  if b = 1 then 0
  else
    let c := dec32 b
    if b &&& c = 0 then a &&& c
    else if b = 3 then a % 3
    else if b = 5 then a % 5
    else if b = 6 then a % 6
    else if b = 7 then a % 7
    else
      let p := clp2 b
      let r := a &&& dec32 p
      if r < b then r else a % b

/-! ## Build-time constants and bit operations -/

/-- Build-time constants of `linux/pf_q.h` and `pf_q-macro.h`. These headers are
not among the sources, so the constants are parameters of the development. -/
structure Config where
  /-- Number of groups in the table. -/
  Q_MAX_GROUP : Nat
  /-- Number of socket ids. -/
  Q_MAX_ID : Nat
  /-- Number of traffic classes of a group. -/
  Q_CLASS_MAX : Nat
  /-- Number of per-group counters. -/
  Q_MAX_COUNTERS : Nat
  /-- Number of persistent slots of a group. -/
  Q_MAX_PERSISTENT : Nat
  /-- Number of entries of the per-call `sock_queue` array. -/
  Q_SKBUFF_SHORT_BATCH : Nat
  /-- Class mask a monad starts with. -/
  Q_CLASS_DEFAULT : Nat
  /-- Grace period, in milliseconds. -/
  Q_GRACE_PERIOD : Nat
  Q_POLICY_GROUP_UNDEFINED : Int
  Q_POLICY_GROUP_PRIVATE : Int
  Q_POLICY_GROUP_RESTRICTED : Int
  Q_POLICY_GROUP_SHARED : Int

/-- The four policy constants are the labels of one `switch` statement, hence
pairwise different. -/
def Config.policies_distinct (cfg : Config) : Prop :=
  cfg.Q_POLICY_GROUP_UNDEFINED ≠ cfg.Q_POLICY_GROUP_PRIVATE ∧
  cfg.Q_POLICY_GROUP_UNDEFINED ≠ cfg.Q_POLICY_GROUP_RESTRICTED ∧
  cfg.Q_POLICY_GROUP_UNDEFINED ≠ cfg.Q_POLICY_GROUP_SHARED ∧
  cfg.Q_POLICY_GROUP_PRIVATE ≠ cfg.Q_POLICY_GROUP_RESTRICTED ∧
  cfg.Q_POLICY_GROUP_PRIVATE ≠ cfg.Q_POLICY_GROUP_SHARED ∧
  cfg.Q_POLICY_GROUP_RESTRICTED ≠ cfg.Q_POLICY_GROUP_SHARED

instance (cfg : Config) : Decidable cfg.policies_distinct := by
  unfold Config.policies_distinct
  infer_instance

/-- The limits the specification lists (`G = 64`, `S = 64`, `C = 8`, `K = 8`,
`M = 8`, `B = 16`), used for concrete evaluation. -/
def specConfig : Config where
  Q_MAX_GROUP := 64
  Q_MAX_ID := 64
  Q_CLASS_MAX := 8
  Q_MAX_COUNTERS := 8
  Q_MAX_PERSISTENT := 8
  Q_SKBUFF_SHORT_BATCH := 16
  Q_CLASS_DEFAULT := 1
  Q_GRACE_PERIOD := 100
  Q_POLICY_GROUP_UNDEFINED := 0
  Q_POLICY_GROUP_PRIVATE := 1
  Q_POLICY_GROUP_RESTRICTED := 2
  Q_POLICY_GROUP_SHARED := 3

def EPERM : Int := 1
def EACCES : Int := 13
def EINVAL : Int := 22

/-- The `unsigned long` value `1L << i`. -/
def bit64 (i : Nat) : Nat := (1 <<< i) % U64

/-- Bitwise complement of an `unsigned long`. -/
def not64 (x : Nat) : Nat := (U64 - 1) ^^^ (x % U64)

/-- Modelled from the spec: the macro `pfq_bitwise_foreach(mask, bit, body)` of
`pf_q-bitops.h`, which is not among the sources. It runs `body` once for each
bit set in the `unsigned long` `mask`, in ascending order, with `bit` bound to
the single-bit value. -/
def pfq_bitwise_foreach {σ : Type} (mask : Nat) (body : σ → Nat → σ) (init : σ) : σ :=
  (List.range 64).foldl (fun s i => if mask.testBit i then body s (1 <<< i) else s) init

/-- Modelled from the spec: `pfq_ctz` of `pf_q-bitops.h`, which is not among the
sources: the index of the lowest bit set in an `unsigned long`. -/
def pfq_ctz (x : Nat) : Nat :=
  ((List.range 64).find? (fun i => x.testBit i)).getD 64

/-! ## Group table (`pf_q-group.c`) -/

/-- Modelled from the spec: a per-CPU counter (`sparse_counter_t` of
`pf_q-sparse.h`, not among the sources), as the value of each CPU cell. -/
abbrev sparse_counter := Nat → Nat

/-- Modelled from the spec: `sparse_set(sc, n)` stores `n` as the value of the
counter: cell 0 holds `n`, every other cell is cleared. -/
def sparse_set (n : Nat) : sparse_counter := fun cpu => if cpu = 0 then n else 0

/-- Modelled from the spec: `__sparse_add(sc, n, cpu)` adds `n` to the cell of
`cpu`. -/
def __sparse_add (sc : sparse_counter) (n : Nat) (cpu : Nat) : sparse_counter :=
  Function.update sc cpu (sc cpu + n)

/-- Modelled from the spec: `__sparse_inc(sc, cpu)` adds one to the cell of
`cpu`. -/
def __sparse_inc (sc : sparse_counter) (cpu : Nat) : sparse_counter :=
  __sparse_add sc 1 cpu

/-- Per-group statistics `{recv, drop, frwd, kern}`. -/
structure pfq_group_stats where
  recv : sparse_counter
  drop : sparse_counter
  frwd : sparse_counter
  kern : sparse_counter

/-- Modelled from the spec: `pfq_group_stats_reset` (`pf_q-stats.h`, not among
the sources) sets the four counters to zero. -/
def pfq_group_stats_reset (_st : pfq_group_stats) : pfq_group_stats :=
  { recv := sparse_set 0, drop := sparse_set 0, frwd := sparse_set 0, kern := sparse_set 0 }

/-- One persistent slot: a lock and its scratch memory. -/
structure pfq_persistent where
  locked : Bool
  memory : Nat → Nat

/-- The `context` member of a group: counters and persistent slots. -/
structure pfq_group_context where
  counter : Nat → sparse_counter
  persistent : Nat → pfq_persistent

/-- A group (`struct pfq_group`). Pointers are natural numbers with `0` for
`NULL`; arrays are maps from the index. -/
structure pfq_group where
  /-- Thread-group id of the creator; `0` when the group is free. -/
  pid : Int
  /-- Socket id of the owner; `-1` when there is none. -/
  owner : Int
  policy : Int
  /-- Members of each class, an `unsigned long` bitmask over socket ids. -/
  sock_mask : Nat → Nat
  bp_filter : Nat
  comp : Nat
  comp_ctx : Nat
  vlan_filt : Bool
  vid_filters : Nat → Bool
  stats : pfq_group_stats
  context : pfq_group_context

/-- Calls into the kernel and atomic exchanges, in the order they are made. -/
inductive Event where
  | xchg_bp_filter (gid : Int) (new old : Nat)
  | xchg_comp (gid : Int) (new old : Nat)
  | xchg_comp_ctx (gid : Int) (new old : Nat)
  | msleep (ms : Nat)
  | pfq_computation_fini (comp : Nat)
  | kfree (p : Nat)
  | pfq_free_sk_filter (filter : Nat)
  deriving DecidableEq, Repr

/-- The object an event releases: the argument of `kfree` or of
`pfq_free_sk_filter` when it is not null. -/
def Event.released : Event → Option Nat
  | Event.kfree p => if p = 0 then none else some p
  | Event.pfq_free_sk_filter filter => if filter = 0 then none else some filter
  | _ => none

/-- Control-plane state: the group table `pfq_groups`, the device map and the
record of kernel calls made so far. -/
structure State where
  pfq_groups : Nat → pfq_group
  /-- Group mask of each `(device, queue)` pair. -/
  pfq_devmap : Nat → Nat → Nat
  trace : List Event

/-- Store `g` as group `gid` of the table. -/
def State.set_group (s : State) (gid : Nat) (g : pfq_group) : State :=
  { s with pfq_groups := Function.update s.pfq_groups gid g }

/-- The function `pfq_get_group`: the group of index `gid`, or `NULL` for an
index outside the table. -/
def pfq_get_group (cfg : Config) (s : State) (gid : Int) : Option pfq_group :=
  if gid < 0 ∨ gid ≥ cfg.Q_MAX_GROUP then none
  else some (s.pfq_groups gid.toNat)

/-- Modelled from the spec: `pfq_devmap_update(map_reset, Q_ANY_DEVICE,
Q_ANY_QUEUE, gid)` of `pf_q-devmap.c`, which is not among the sources: it
clears `gid` from every entry of the device map. -/
def pfq_devmap_reset (s : State) (gid : Int) : State :=
  { s with pfq_devmap := fun dev queue => s.pfq_devmap dev queue &&& not64 (bit64 gid.toNat) }

/-- The function `__pfq_get_all_groups_mask`: union of the class masks of a
group. -/
def __pfq_get_all_groups_mask (cfg : Config) (s : State) (gid : Int) : Nat :=
  match pfq_get_group cfg s gid with
  | none => 0
  | some g => (List.range cfg.Q_CLASS_MAX).foldl (fun mask i => mask ||| g.sock_mask i) 0

/-- Modelled from the spec: `__pfq_has_joined_group` of `pf_q-group.h`, which is
not among the sources: whether socket `id` is a member of some class of the
group. -/
def __pfq_has_joined_group (cfg : Config) (s : State) (gid : Int) (id : Nat) : Bool :=
  __pfq_get_all_groups_mask cfg s gid &&& bit64 id != 0

/-- Modelled from the spec: `__pfq_group_is_empty` of `pf_q-group.h`, which is
not among the sources: whether all class masks of the group are zero. -/
def __pfq_group_is_empty (cfg : Config) (s : State) (gid : Int) : Bool :=
  __pfq_get_all_groups_mask cfg s gid == 0

/-- The function `__pfq_group_access`; `tgid` is `current->tgid`. -/
def __pfq_group_access (cfg : Config) (tgid : Int) (s : State) (gid : Int) (id : Nat)
    (policy : Int) (create : Bool) : Bool :=
  match pfq_get_group cfg s gid with
  | none => false
  | some g =>
    if g.policy = cfg.Q_POLICY_GROUP_PRIVATE then
      __pfq_has_joined_group cfg s gid id
    else if g.policy = cfg.Q_POLICY_GROUP_RESTRICTED then
      (create == false || policy == cfg.Q_POLICY_GROUP_RESTRICTED) && g.pid == tgid
    else if g.policy = cfg.Q_POLICY_GROUP_SHARED then
      create == false || policy == cfg.Q_POLICY_GROUP_SHARED
    else if g.policy = cfg.Q_POLICY_GROUP_UNDEFINED then
      true
    else
      false

/-- The function `__pfq_group_init`; `tgid` is `current->tgid`. -/
def __pfq_group_init (cfg : Config) (tgid : Int) (gid : Int) (s : State) : State :=
  match pfq_get_group cfg s gid with
  | none => s
  | some g =>
    let sock_mask := (List.range cfg.Q_CLASS_MAX).foldl
      (fun m i => Function.update m i 0) g.sock_mask
    let counter := (List.range cfg.Q_MAX_COUNTERS).foldl
      (fun c i => Function.update c i (sparse_set 0)) g.context.counter
    let persistent := (List.range cfg.Q_MAX_PERSISTENT).foldl
      (fun p i => Function.update p i { locked := false, memory := fun _ => 0 })
      g.context.persistent
    s.set_group gid.toNat
      { g with
        pid := tgid
        owner := -1
        policy := cfg.Q_POLICY_GROUP_UNDEFINED
        sock_mask := sock_mask
        bp_filter := 0
        comp := 0
        comp_ctx := 0
        stats := pfq_group_stats_reset g.stats
        context := { counter := counter, persistent := persistent } }

/-- The function `__pfq_group_free`. -/
def __pfq_group_free (cfg : Config) (gid : Int) (s : State) : State :=
  match pfq_get_group cfg s gid with
  | none => s
  | some g =>
    let s := pfq_devmap_reset s gid
    let filter := g.bp_filter
    let old_comp := g.comp
    let old_ctx := g.comp_ctx
    let s := s.set_group gid.toNat
      { g with
        pid := 0
        owner := -1
        policy := cfg.Q_POLICY_GROUP_UNDEFINED
        bp_filter := 0
        comp := 0
        comp_ctx := 0
        vlan_filt := false }
    { s with
      trace := s.trace ++
        [Event.xchg_bp_filter gid 0 filter, Event.xchg_comp gid 0 old_comp,
          Event.xchg_comp_ctx gid 0 old_ctx, Event.msleep cfg.Q_GRACE_PERIOD] ++
        (if old_comp ≠ 0 then [Event.pfq_computation_fini old_comp] else []) ++
        [Event.kfree old_comp, Event.kfree old_ctx] ++
        (if filter ≠ 0 then [Event.pfq_free_sk_filter filter] else []) }

/-- The function `__pfq_join_group`; `tgid` is `current->tgid`. The result is
the return value and the state on return. -/
def __pfq_join_group (cfg : Config) (tgid : Int) (gid : Int) (id : Nat) (class_mask : Nat)
    (policy : Int) (s : State) : Int × State :=
  match pfq_get_group cfg s gid with
  | none => (-EINVAL, s)
  | some g0 =>
    let s := if g0.pid = 0 then __pfq_group_init cfg tgid gid s else s
    if ¬ __pfq_group_access cfg tgid s gid id policy true then (-EPERM, s)
    else
      let g := s.pfq_groups gid.toNat
      let sock_mask := pfq_bitwise_foreach class_mask
        (fun m bit =>
          let cls := pfq_ctz bit
          let tmp := m cls
          let tmp := tmp ||| bit64 id
          Function.update m cls tmp)
        g.sock_mask
      let g1 : pfq_group := { g with sock_mask := sock_mask }
      let g2 : pfq_group := if g1.owner = -1 then { g1 with owner := (id : Int) } else g1
      let g3 : pfq_group :=
        if g2.policy = cfg.Q_POLICY_GROUP_UNDEFINED then { g2 with policy := policy } else g2
      (0, s.set_group gid.toNat g3)

/-- The function `__pfq_leave_group`. -/
def __pfq_leave_group (cfg : Config) (gid : Int) (id : Nat) (s : State) : Int × State :=
  match pfq_get_group cfg s gid with
  | none => (-EINVAL, s)
  | some g =>
    if g.pid = 0 then (-EPERM, s)
    else
      let sock_mask := (List.range cfg.Q_CLASS_MAX).foldl
        (fun m i =>
          let tmp := m i
          let tmp := tmp &&& not64 (bit64 id)
          Function.update m i tmp)
        g.sock_mask
      let s := s.set_group gid.toNat { g with sock_mask := sock_mask }
      let s := if __pfq_group_is_empty cfg s gid then __pfq_group_free cfg gid s else s
      (0, s)

/-- The function `pfq_join_group` (the semaphore serialises callers and has no
effect on a single call). -/
def pfq_join_group (cfg : Config) (tgid : Int) (gid : Int) (id : Nat) (class_mask : Nat)
    (policy : Int) (s : State) : Int × State :=
  match pfq_get_group cfg s gid with
  | none => (-EINVAL, s)
  | some _ => __pfq_join_group cfg tgid gid id class_mask policy s

/-- The scan of `pfq_join_free_group` from index `n` with `k` indices left. The
result is `none` when `pfq_get_group(n)` is `NULL` and is dereferenced. -/
def pfq_join_free_group_loop (cfg : Config) (tgid : Int) (id : Nat) (class_mask : Nat)
    (policy : Int) : Nat → Nat → State → Option (Int × State)
  | 0, _, s => some (-EPERM, s)
  | k + 1, n, s =>
    match pfq_get_group cfg s n with
    | none => none
    | some g =>
      if g.pid = 0 then
        some ((n : Int), (__pfq_join_group cfg tgid n id class_mask policy s).2)
      else pfq_join_free_group_loop cfg tgid id class_mask policy k (n + 1) s

/-- The function `pfq_join_free_group`: the scan runs over `n < Q_MAX_ID`. -/
def pfq_join_free_group (cfg : Config) (tgid : Int) (id : Nat) (class_mask : Nat)
    (policy : Int) (s : State) : Option (Int × State) :=
  pfq_join_free_group_loop cfg tgid id class_mask policy cfg.Q_MAX_ID 0 s

/-- The function `pfq_leave_group`. -/
def pfq_leave_group (cfg : Config) (gid : Int) (id : Nat) (s : State) : Int × State :=
  match pfq_get_group cfg s gid with
  | none => (-EINVAL, s)
  | some _ => __pfq_leave_group cfg gid id s

/-- The function `pfq_leave_all_groups`: leave groups `0 .. Q_MAX_ID - 1`. -/
def pfq_leave_all_groups (cfg : Config) (id : Nat) (s : State) : State :=
  (List.range cfg.Q_MAX_ID).foldl (fun s (n : Nat) => (__pfq_leave_group cfg n id s).2) s

/-- The function `__pfq_vlan_filters_enabled`. -/
def __pfq_vlan_filters_enabled (cfg : Config) (s : State) (gid : Int) : Bool :=
  match pfq_get_group cfg s gid with
  | none => false
  | some g => g.vlan_filt

/-- The function `__pfq_check_group_vlan_filter`. -/
def __pfq_check_group_vlan_filter (cfg : Config) (s : State) (gid : Int) (vid : Nat) : Bool :=
  match pfq_get_group cfg s gid with
  | none => false
  | some g => g.vid_filters (vid &&& 4095)

/-- The function `__pfq_set_group_filter`: exchange the filter of the group,
wait one grace period, release the displaced filter. For a `gid` outside the
table the filter passed in is released at once. -/
def __pfq_set_group_filter (cfg : Config) (gid : Int) (filter : Nat) (s : State) : State :=
  match pfq_get_group cfg s gid with
  | none => { s with trace := s.trace ++ [Event.pfq_free_sk_filter filter] }
  | some g =>
    let old_filter := g.bp_filter
    let s := s.set_group gid.toNat { g with bp_filter := filter }
    { s with
      trace := s.trace ++
        [Event.xchg_bp_filter gid filter old_filter, Event.msleep cfg.Q_GRACE_PERIOD] ++
        (if old_filter ≠ 0 then [Event.pfq_free_sk_filter old_filter] else []) }

/-- The function `pfq_set_group_prog`: exchange the program and its context,
wait one grace period, finalise and release the displaced pair. -/
def pfq_set_group_prog (cfg : Config) (gid : Int) (comp ctx : Nat) (s : State) : Int × State :=
  match pfq_get_group cfg s gid with
  | none => (-EINVAL, s)
  | some g =>
    let old_comp := g.comp
    let old_ctx := g.comp_ctx
    let s := s.set_group gid.toNat { g with comp := comp, comp_ctx := ctx }
    (0, { s with
      trace := s.trace ++
        [Event.xchg_comp gid comp old_comp, Event.xchg_comp_ctx gid ctx old_ctx,
          Event.msleep cfg.Q_GRACE_PERIOD] ++
        (if old_comp ≠ 0 then [Event.pfq_computation_fini old_comp] else []) ++
        [Event.kfree old_comp, Event.kfree old_ctx] })

/-- The function `pfq_check_group`. -/
def pfq_check_group (cfg : Config) (_id : Nat) (gid : Int) : Int :=
  if gid < 0 ∨ gid ≥ cfg.Q_MAX_GROUP then -EINVAL else 0

/-- The function `pfq_check_group_access`. The result is the return value and
the state on return; the body only reads the group table. -/
def pfq_check_group_access (cfg : Config) (id : Nat) (gid : Int) (s : State) : Int × State :=
  let err := pfq_check_group cfg id gid
  if err ≠ 0 then (err, s)
  else if ¬ __pfq_has_joined_group cfg s gid id then (-EPERM, s)
  else
    match pfq_get_group cfg s gid with
    | none => (-EACCES, s)
    | some g => if g.owner ≠ (id : Int) then (-EACCES, s) else (0, s)

/-- A control-plane operation on the group table with its arguments; `tgid` is
the thread-group id of the calling process. -/
inductive Op where
  | join (tgid gid : Int) (id class_mask : Nat) (policy : Int)
  | join_free (tgid : Int) (id class_mask : Nat) (policy : Int)
  | leave (gid : Int) (id : Nat)
  | leave_all (id : Nat)
  deriving DecidableEq, Repr

/-- The calling process of the operation has a non-zero thread-group id. -/
def Op.caller_nonzero : Op → Prop
  | Op.join tgid _ _ _ _ => tgid ≠ 0
  | Op.join_free tgid _ _ _ => tgid ≠ 0
  | Op.leave _ _ => True
  | Op.leave_all _ => True

instance (op : Op) : Decidable op.caller_nonzero := by
  cases op <;> unfold Op.caller_nonzero <;> infer_instance

/-- The state after one operation; `none` when `pfq_join_free_group`
dereferences a null group. -/
def apply_op (cfg : Config) (op : Op) (s : State) : Option State :=
  match op with
  | Op.join tgid gid id class_mask policy =>
    some (pfq_join_group cfg tgid gid id class_mask policy s).2
  | Op.join_free tgid id class_mask policy =>
    (pfq_join_free_group cfg tgid id class_mask policy s).map Prod.snd
  | Op.leave gid id => some (pfq_leave_group cfg gid id s).2
  | Op.leave_all id => some (pfq_leave_all_groups cfg id s)

/-- The state after a sequence of operations, applied from left to right. -/
def run_ops (cfg : Config) : List Op → State → Option State
  | [], s => some s
  | op :: ops, s =>
    match apply_op cfg op s with
    | none => none
    | some s1 => run_ops cfg ops s1

/-- The operation names a socket id that is a bit of an `unsigned long` and,
when it is a join, at least one class of the group. -/
def Op.names_class (cfg : Config) : Op → Prop
  | Op.join _ _ id class_mask _ =>
    id < 64 ∧ ∃ c, c < cfg.Q_CLASS_MAX ∧ c < 64 ∧ class_mask.testBit c = true
  | Op.join_free _ id class_mask _ =>
    id < 64 ∧ ∃ c, c < cfg.Q_CLASS_MAX ∧ c < 64 ∧ class_mask.testBit c = true
  | Op.leave _ _ => True
  | Op.leave_all _ => True

instance (cfg : Config) (op : Op) : Decidable (op.names_class cfg) := by
  cases op <;> unfold Op.names_class <;> infer_instance

/-- How one operation changes one group `g` into `g1`: the group is untouched,
or it was in use and is freed, or it was free and is put in use, or it stays in
use with its creator and, once concrete, its policy. `named` tells whether the
operation names a class (`Op.names_class`), in which case a group it leaves in
use has a member. -/
def group_trans (cfg : Config) (named : Prop) (g g1 : pfq_group) : Prop :=
  g1 = g ∨
  (g.pid ≠ 0 ∧ g1.pid = 0 ∧ g1.policy = cfg.Q_POLICY_GROUP_UNDEFINED ∧
    ∀ c, c < cfg.Q_CLASS_MAX → g1.sock_mask c = 0) ∨
  (g.pid = 0 ∧ g1.pid ≠ 0 ∧ (named → ∃ c, c < cfg.Q_CLASS_MAX ∧ g1.sock_mask c ≠ 0)) ∨
  (g.pid ≠ 0 ∧ g1.pid = g.pid ∧
    (g.policy ≠ cfg.Q_POLICY_GROUP_UNDEFINED → g1.policy = g.policy) ∧
    (named → ∃ c, c < cfg.Q_CLASS_MAX ∧ g1.sock_mask c ≠ 0))

/-! ## Receive path (`pf_q.c`) -/

/-- Kernel constant `VLAN_TAG_PRESENT` (`linux/if_vlan.h`). -/
def VLAN_TAG_PRESENT : Nat := 0x1000

/-- Modelled from the spec: the fanout type of a monad (`pf_q-monad.h`, not among
the sources): drop, copy or steer. -/
inductive fanout_type where
  | fanout_drop
  | fanout_copy
  | fanout_steer
  deriving DecidableEq, Repr

/-- Modelled from the spec: the routing decision a program leaves in the monad:
`{type, class_mask, hash}`. -/
structure fanout_t where
  class_mask : Nat
  hash : Nat
  type : fanout_type
  deriving DecidableEq, Repr

/-- Modelled from the spec: `is_drop` of `pf_q-monad.h`. -/
def is_drop (a : fanout_t) : Bool := a.type == fanout_type.fanout_drop

/-- Modelled from the spec: `is_steering` of `pf_q-monad.h`. -/
def is_steering (a : fanout_t) : Bool := a.type == fanout_type.fanout_steer

/-- The per-evaluation scratch `struct pfq_monad`; `group` is the index of the
group the monad points to. -/
structure pfq_monad where
  fanout : fanout_t
  state : Nat
  group : Nat
  deriving DecidableEq, Repr

/-- The `log` of a control block: device forwards and kernel pushes issued by
the program. -/
structure gc_log where
  num_devs : Nat
  to_kernel : Nat
  deriving DecidableEq, Repr

/-- The control block `PFQ_CB(skb)`. -/
structure pfq_cb where
  group_mask : Nat
  direct : Bool
  log : gc_log
  deriving DecidableEq, Repr

/-- A buff of the garbage collector with the members of its `sk_buff` the
receive path reads; `skb` is the address of the buffer. -/
structure gc_buff where
  skb : Nat
  ifindex : Nat
  rx_queue : Nat
  protocol : Nat
  vlan_tci : Nat
  tstamp : Int
  cb : pfq_cb
  deriving DecidableEq, Repr

/-- The steering cache of the per-CPU `struct local_data` and the time of the
last flush. -/
structure local_data where
  eligible_mask : Nat
  sock_cnt : Nat
  sock_mask : Nat → Nat
  last_ts : Int

/-- The variables of one group pass of `pfq_receive`: the control-plane state
(whose group statistics the pass updates), the per-CPU data, the monad, and the
`refs`, `socket_mask` and `sock_queue` locals. -/
structure rx_pass where
  s : State
  loc : local_data
  monad : pfq_monad
  refs : List gc_buff
  socket_mask : Nat
  sock_queue : List Nat

/-- Apply `f` to the statistics of group `gid`. -/
def rx_pass.stats (st : rx_pass) (gid : Nat) (f : pfq_group_stats → pfq_group_stats) : rx_pass :=
  { st with
    s := st.s.set_group gid
      ({ st.s.pfq_groups gid with stats := f (st.s.pfq_groups gid).stats }) }

/-- The `size_t` subtraction `a - b`. -/
def sub64 (a b : Nat) : Nat := (a % U64 + U64 - b % U64) % U64

/-- The function `mask_to_sock_queue`: sets bit `n` in the entry of every socket
of `mask`. The result is `none` when an entry outside the array is written. -/
def mask_to_sock_queue (n mask : Nat) (sock_queue : List Nat) : Option (List Nat) :=
  pfq_bitwise_foreach mask
    (fun sq bit =>
      sq.bind fun q =>
        let index := pfq_ctz bit
        if index < q.length then some (q.set index (q.getD index 0 ||| bit64 n)) else none)
    (some sock_queue)

/-- The monad as set up before a program is run (`pf_q.c`, lines 399-402). -/
def rx_monad_setup (cfg : Config) (gid : Nat) (monad : pfq_monad) : pfq_monad :=
  { fanout := { monad.fanout with
      class_mask := cfg.Q_CLASS_DEFAULT, type := fanout_type.fanout_copy }
    state := 0
    group := gid }

/-- The eligible mask of a frame (`pf_q.c`, lines 431-435): the union of the
class masks of the group over the classes of `class_mask`. -/
def rx_eligible_mask (this_group : pfq_group) (class_mask : Nat) : Nat :=
  pfq_bitwise_foreach class_mask
    (fun eligible_mask cbit =>
      let cls := pfq_ctz cbit
      eligible_mask ||| this_group.sock_mask cls)
    0

/-- The steering branch (`pf_q.c`, lines 438-459): refresh the cached expansion
of the eligible mask when the mask differs from the cached one, then pick the
entry of index `pfq_fold(h, sock_cnt)`. The result is the per-CPU data and the
`sock_mask` of the frame. -/
def rx_steer (loc : local_data) (eligible_mask hash : Nat) : local_data × Nat :=
  let loc :=
    if eligible_mask ≠ loc.eligible_mask then
      pfq_bitwise_foreach eligible_mask
        (fun (l : local_data) ebit =>
          { l with sock_mask := Function.update l.sock_mask l.sock_cnt ebit
                   sock_cnt := l.sock_cnt + 1 })
        { loc with eligible_mask := eligible_mask, sock_cnt := 0 }
    else loc
  let sock_mask :=
    if loc.sock_cnt ≠ 0 then
      let h := (hash ^^^ (hash >>> 8) ^^^ (hash >>> 16)) % U32
      0 ||| loc.sock_mask (pfq_fold h (loc.sock_cnt % U32))
    else 0
  (loc, sock_mask)

/-- Number of bits of `mask` set at the positions below `i`; `bits_below mask 64`
is the population count of an `unsigned long`. -/
def bits_below (mask i : Nat) : Nat :=
  ((List.range i).filter (fun j => mask.testBit j)).length

/-- The steering cache is consistent: `sock_cnt` is the population count of
the cached eligible mask and `sock_mask` lists its bits in ascending order. -/
def local_data.consistent (loc : local_data) : Prop :=
  loc.sock_cnt = bits_below loc.eligible_mask 64 ∧
    ∀ i, i < 64 → loc.eligible_mask.testBit i = true →
      loc.sock_mask (bits_below loc.eligible_mask i) = 1 <<< i

/-- The body of the frame loop of a group pass of `pfq_receive` up to the call
of `mask_to_sock_queue` (`pf_q.c`, lines 343-469), for the group `gid` and the
frame `buff`. `sk_run_filter` is the filter evaluator and `pfq_run` the program
evaluator, which returns the resulting buff (`none` for a null `skb`) and the
monad it leaves. The second component is `none` when the body ends in
`continue` and the `sock_mask` of the frame otherwise. -/
def pfq_receive_route (cfg : Config) (sk_run_filter : Nat → gc_buff → Bool)
    (pfq_run : Nat → gc_buff → pfq_monad → Option gc_buff × pfq_monad)
    (cpu gid : Nat) (bf_filter_enabled vlan_filter_enabled : Bool)
    (buff : gc_buff) (st : rx_pass) : rx_pass × Option Nat :=
  if buff.cb.group_mask &&& (1 <<< gid) = 0 then (st, none)
  else
    let st := st.stats gid (fun x => { x with recv := __sparse_inc x.recv cpu })
    let bpf := (st.s.pfq_groups gid).bp_filter
    if bf_filter_enabled = true ∧ bpf ≠ 0 ∧ sk_run_filter bpf buff = false then
      (st.stats gid (fun x => { x with drop := __sparse_inc x.drop cpu }), none)
    else if vlan_filter_enabled = true ∧
        __pfq_check_group_vlan_filter cfg st.s gid
          (buff.vlan_tci &&& ((U32 - 1) ^^^ VLAN_TAG_PRESENT)) = false then
      (st.stats gid (fun x => { x with drop := __sparse_inc x.drop cpu }), none)
    else
      let prg := (st.s.pfq_groups gid).comp
      if prg ≠ 0 then
        let to_kernel := buff.cb.log.to_kernel
        let num_fwd := buff.cb.log.num_devs
        let r := pfq_run prg buff (rx_monad_setup cfg gid st.monad)
        let st := { st with monad := r.2 }
        match r.1 with
        | none => (st.stats gid (fun x => { x with drop := __sparse_inc x.drop cpu }), none)
        | some buff =>
          let st := { st with refs := st.refs ++ [buff] }
          let st := st.stats gid (fun x =>
            { x with
              frwd := __sparse_add x.frwd (sub64 buff.cb.log.num_devs num_fwd) cpu
              kern := __sparse_add x.kern (sub64 buff.cb.log.to_kernel to_kernel) cpu })
          if is_drop st.monad.fanout = true then
            (st.stats gid (fun x => { x with drop := __sparse_inc x.drop cpu }), none)
          else
            let eligible_mask := rx_eligible_mask (st.s.pfq_groups gid) st.monad.fanout.class_mask
            if is_steering st.monad.fanout = true then
              let r := rx_steer st.loc eligible_mask st.monad.fanout.hash
              ({ st with loc := r.1 }, some r.2)
            else
              (st, some (0 ||| eligible_mask))
      else
        ({ st with refs := st.refs ++ [buff] }, some (0 ||| (st.s.pfq_groups gid).sock_mask 0))

/-- One iteration of the frame loop of a group pass (`pf_q.c`, lines 343-473)
for the frame of batch index `n`: route the frame, then record it in
`sock_queue` and `socket_mask`. The result is `none` when `mask_to_sock_queue`
writes outside `sock_queue`. -/
def pfq_receive_frame (cfg : Config) (sk_run_filter : Nat → gc_buff → Bool)
    (pfq_run : Nat → gc_buff → pfq_monad → Option gc_buff × pfq_monad)
    (cpu gid : Nat) (bf_filter_enabled vlan_filter_enabled : Bool)
    (n : Nat) (buff : gc_buff) (st : rx_pass) : Option rx_pass :=
  let r := pfq_receive_route cfg sk_run_filter pfq_run cpu gid bf_filter_enabled
    vlan_filter_enabled buff st
  match r.2 with
  | none => some r.1
  | some sock_mask =>
    match mask_to_sock_queue n sock_mask r.1.sock_queue with
    | none => none
    | some sock_queue =>
      some { r.1 with sock_queue := sock_queue, socket_mask := r.1.socket_mask ||| sock_mask }

/-- Kernel constant `ETH_P_8021Q` (`linux/if_ether.h`). -/
def ETH_P_8021Q : Nat := 0x8100

/-- The calls the receive path makes into the kernel and into endpoint
dispatch, in the order they are made. -/
inductive rx_event where
  | kfree_skb (skb : Nat)
  | copy_to_endpoint_buffs (so : Nat) (refs : List gc_buff) (mask : Nat) (cpu gid : Nat)
  | send_to_kernel (skb : Nat)
  | pfq_lazy_xmit_exec (total : Nat)
  deriving DecidableEq, Repr

/-- The counters of `global_stats`. -/
structure pfq_global_stats where
  recv : sparse_counter
  lost : sparse_counter
  kern : sparse_counter
  quit : sparse_counter
  frwd : sparse_counter
  disc : sparse_counter

/-- What one call of `pfq_receive` takes from its environment: the current CPU,
the number of open sockets, the module parameters `batch_len` and `vl_untag`,
the capacity of the garbage collector, the time `__net_timestamp` stamps, the
indeterminate initial contents of the local `monad`, and the collaborators the
specification treats as opaque: the filter and program evaluators, VLAN
untagging, `skb_clone` (the address of the clone, or `none`), the number of
forwarding targets collected and the number of frames `pfq_lazy_xmit_exec`
sends. -/
structure rx_env where
  cpu : Nat
  sock_count : Nat
  batch_len : Nat
  vl_untag : Bool
  Q_GC_POOL_QUEUE_LEN : Nat
  now : Int
  monad0 : pfq_monad
  sk_run_filter : Nat → gc_buff → Bool
  pfq_run : Nat → gc_buff → pfq_monad → Option gc_buff × pfq_monad
  pfq_vlan_untag : gc_buff → Option gc_buff
  skb_clone : gc_buff → Option Nat
  gc_get_fwd_targets : List gc_buff → Nat
  pfq_lazy_xmit_exec : List gc_buff → Nat

/-- The state `pfq_receive` works on: the control-plane state (group table and
device map), the per-CPU data of the current CPU with the pool `gc` of its
garbage collector, the global counters, and the calls made so far. -/
structure rx_state where
  s : State
  loc : local_data
  gc : List gc_buff
  global_stats : pfq_global_stats
  out : List rx_event

/-- The variables of `pfq_receive` that live across the loop over the groups. -/
structure rx_loop where
  s : State
  loc : local_data
  monad : pfq_monad
  sock_queue : List Nat
  out : List rx_event

/-- Modelled from the spec: `gc_make_buff` of `pf_q-GC.h`, which is not among the
sources: insert the frame in the pool and initialise its control block; a null
buff when the pool is at capacity. -/
def gc_make_buff (env : rx_env) (gc : List gc_buff) (skb : gc_buff) :
    Option gc_buff × List gc_buff :=
  if gc.length ≥ env.Q_GC_POOL_QUEUE_LEN then (none, gc)
  else
    let buff := { skb with cb := { skb.cb with log := { num_devs := 0, to_kernel := 0 } } }
    (some buff, gc ++ [buff])

/-- Modelled from the spec: `gc_size` of `pf_q-GC.h`: the number of buffs in the
pool. -/
def gc_size (gc : List gc_buff) : Nat := gc.length

/-- Modelled from the spec: `__pfq_devmap_get_groups` of `pf_q-devmap.h`, which is
not among the sources: the group mask of a `(device, queue)` pair. -/
def __pfq_devmap_get_groups (s : State) (ifindex queue : Nat) : Nat :=
  s.pfq_devmap ifindex queue

/-- Modelled from the spec: `fwd_to_kernel` of `pf_q-GC.h`: whether the program
asked for the frame to be passed to the kernel. -/
def fwd_to_kernel (skb : gc_buff) : Bool := skb.cb.log.to_kernel != 0

/-- The outcome of the intake of a frame (`pf_q.c`, lines 242-280). -/
inductive rx_enrolled where
  | untag_failed
  | gc_full (skb : gc_buff)
  | enrolled (buff : gc_buff) (gc : List gc_buff)

/-- The intake of a frame (`pf_q.c`, lines 242-280): timestamp it when it has no
timestamp, strip the VLAN header when `vl_untag` is set and the protocol is
802.1Q, enrol it in the garbage collector and record `direct` in its control
block. The header offsets that `skb_reset_mac_len` and `skb_push` move are not
part of the embedding. -/
def rx_enroll (env : rx_env) (skb : gc_buff) (direct : Bool) (gc : List gc_buff) :
    rx_enrolled :=
  let skb := if skb.tstamp = 0 then { skb with tstamp := env.now } else skb
  let untagged :=
    if env.vl_untag = true ∧ skb.protocol = ETH_P_8021Q then env.pfq_vlan_untag skb
    else some skb
  match untagged with
  | none => rx_enrolled.untag_failed
  | some skb =>
    match gc_make_buff env gc skb with
    | (none, _) => rx_enrolled.gc_full skb
    | (some buff, gc) =>
      let buff := { buff with cb := { buff.cb with direct := direct } }
      rx_enrolled.enrolled buff (gc.dropLast ++ [buff])

/-- The frame loop of a group pass (`for_each_gcbuff`, `pf_q.c`, lines 341-474)
from the frame of batch index `n` on; the loop stops at `n = this_batch_len`. -/
def pfq_receive_frames (cfg : Config) (env : rx_env) (gid : Nat)
    (bf_filter_enabled vlan_filter_enabled : Bool) (this_batch_len : Nat) :
    Nat → List gc_buff → rx_pass → Option rx_pass
  | _, [], st => some st
  | n, buff :: rest, st =>
    if n = this_batch_len then some st
    else
      match pfq_receive_frame cfg env.sk_run_filter env.pfq_run env.cpu gid bf_filter_enabled
          vlan_filter_enabled n buff st with
      | none => none
      | some st =>
        pfq_receive_frames cfg env gid bf_filter_enabled vlan_filter_enabled this_batch_len
          (n + 1) rest st

/-- The pass of `pfq_receive` over the batch for the group `gid` (`pf_q.c`,
lines 331-484): the frame loop, then one call of `copy_to_endpoint_buffs` for
every socket of `socket_mask` with the entry of `sock_queue` of that socket.
The result is `none` when `pfq_get_group` is null or a write falls outside
`sock_queue`. -/
def pfq_receive_group (cfg : Config) (env : rx_env) (this_batch_len : Nat)
    (pool : List gc_buff) (gid : Nat) (l : rx_loop) : Option rx_loop :=
  match pfq_get_group cfg l.s gid with
  | none => none
  | some this_group =>
    let bf_filter_enabled : Bool := this_group.bp_filter != 0
    let vlan_filter_enabled := __pfq_vlan_filters_enabled cfg l.s gid
    match pfq_receive_frames cfg env gid bf_filter_enabled vlan_filter_enabled this_batch_len 0
        pool { s := l.s, loc := l.loc, monad := l.monad, refs := [], socket_mask := 0,
               sock_queue := l.sock_queue } with
    | none => none
    | some st =>
      some
        { s := st.s, loc := st.loc, monad := st.monad, sock_queue := st.sock_queue
          out := pfq_bitwise_foreach st.socket_mask
            (fun out lb =>
              let i := pfq_ctz lb
              out ++ [rx_event.copy_to_endpoint_buffs i st.refs (st.sock_queue.getD i 0)
                env.cpu gid])
            l.out }

/-- The frame of the pool after the iteration of the frame loop of the group
`gid` for it (`pf_q.c`, lines 343-469). A program writes the log of the frame
through `PFQ_CB(skb)->log`; the embedding carries the log the program wrote in
the buff the program returns, so the frame on which the iteration has run the
program and got a frame back has the log of that frame. A frame the iteration
skips or rejects before the program, or for which the group has no program, is
as before, and so is, for want of a returned buff, the frame for which the
program returns a null result. -/
def rx_frame_after (cfg : Config) (sk_run_filter : Nat → gc_buff → Bool)
    (pfq_run : Nat → gc_buff → pfq_monad → Option gc_buff × pfq_monad)
    (gid : Nat) (bf_filter_enabled vlan_filter_enabled : Bool)
    (buff : gc_buff) (st : rx_pass) : gc_buff :=
  if buff.cb.group_mask &&& (1 <<< gid) = 0 then buff
  else
    let bpf := (st.s.pfq_groups gid).bp_filter
    if bf_filter_enabled = true ∧ bpf ≠ 0 ∧ sk_run_filter bpf buff = false then buff
    else if vlan_filter_enabled = true ∧
        __pfq_check_group_vlan_filter cfg st.s gid
          (buff.vlan_tci &&& ((U32 - 1) ^^^ VLAN_TAG_PRESENT)) = false then buff
    else
      let prg := (st.s.pfq_groups gid).comp
      if prg ≠ 0 then
        match (pfq_run prg buff (rx_monad_setup cfg gid st.monad)).1 with
        | none => buff
        | some buff1 => { buff with cb := { buff.cb with log := buff1.cb.log } }
      else buff

/-- The pool after the frame loop of a group pass (`for_each_gcbuff`, `pf_q.c`,
lines 341-474) from the frame of batch index `n` on: every frame the loop
visits is as its iteration leaves it. -/
def rx_pool_after (cfg : Config) (env : rx_env) (gid : Nat)
    (bf_filter_enabled vlan_filter_enabled : Bool) (this_batch_len : Nat) :
    Nat → List gc_buff → rx_pass → List gc_buff
  | _, [], _ => []
  | n, buff :: rest, st =>
    if n = this_batch_len then buff :: rest
    else
      rx_frame_after cfg env.sk_run_filter env.pfq_run gid bf_filter_enabled
          vlan_filter_enabled buff st ::
        match pfq_receive_frame cfg env.sk_run_filter env.pfq_run env.cpu gid bf_filter_enabled
            vlan_filter_enabled n buff st with
        | none => rest
        | some st =>
          rx_pool_after cfg env gid bf_filter_enabled vlan_filter_enabled this_batch_len
            (n + 1) rest st

/-- The pool after the pass of `pfq_receive` over the batch for the group `gid`
(`pf_q.c`, lines 331-484), with the logs as the program of the group wrote
them. -/
def pfq_receive_group_pool (cfg : Config) (env : rx_env) (this_batch_len : Nat)
    (pool : List gc_buff) (gid : Nat) (l : rx_loop) : List gc_buff :=
  match pfq_get_group cfg l.s gid with
  | none => pool
  | some this_group =>
    let bf_filter_enabled : Bool := this_group.bp_filter != 0
    let vlan_filter_enabled := __pfq_vlan_filters_enabled cfg l.s gid
    rx_pool_after cfg env gid bf_filter_enabled vlan_filter_enabled this_batch_len 0
      pool { s := l.s, loc := l.loc, monad := l.monad, refs := [], socket_mask := 0,
             sock_queue := l.sock_queue }

/-- One step of the kernel forwarding pass (`pf_q.c`, lines 490-511). -/
def rx_forward_to_kernel (env : rx_env) (acc : pfq_global_stats × List rx_event)
    (skb : gc_buff) : pfq_global_stats × List rx_event :=
  if skb.cb.direct = true ∧ fwd_to_kernel skb = true then
    let clone := if skb.cb.log.num_devs > 0 then env.skb_clone skb else some skb.skb
    match clone with
    | some a =>
      ({ acc.1 with kern := __sparse_inc acc.1.kern env.cpu },
        acc.2 ++ [rx_event.send_to_kernel a])
    | none => ({ acc.1 with quit := __sparse_inc acc.1.quit env.cpu }, acc.2)
  else acc

/-- The processing of the batch held by the garbage collector (`pf_q.c`, lines
299-545): count the batch, clear `sock_queue`, look up the groups of every
frame, run the pass of every group of the batch, forward to the kernel and to
the devices, free the frames and reset the garbage collector. The pool goes
through the passes with the logs the programs wrote, so that a later pass and
the forwarding read the log of a frame as the earlier passes left it. -/
def pfq_receive_process (cfg : Config) (env : rx_env) (st : rx_state) :
    Option (Int × rx_state) :=
  let this_batch_len := gc_size st.gc
  let global_stats :=
    { st.global_stats with recv := __sparse_add st.global_stats.recv this_batch_len env.cpu }
  let sock_queue := List.replicate cfg.Q_SKBUFF_SHORT_BATCH 0
  let pool := st.gc.map fun skb =>
    { skb with cb := { skb.cb with
        group_mask := __pfq_devmap_get_groups st.s skb.ifindex skb.rx_queue } }
  let group_mask := pool.foldl (fun mask skb => mask ||| skb.cb.group_mask) 0
  let groups := pfq_bitwise_foreach group_mask
    (fun (acc : Option (rx_loop × List gc_buff)) bit =>
      acc.bind fun acc =>
        let gid := pfq_ctz bit
        (pfq_receive_group cfg env this_batch_len acc.2 gid acc.1).map fun l =>
          (l, pfq_receive_group_pool cfg env this_batch_len acc.2 gid acc.1))
    (some ({ s := st.s, loc := st.loc, monad := env.monad0, sock_queue := sock_queue,
             out := st.out }, pool))
  match groups with
  | none => none
  | some (l, pool) =>
    let fwd := pool.foldl (rx_forward_to_kernel env) (global_stats, l.out)
    let cnt_total := env.gc_get_fwd_targets pool
    let total := env.pfq_lazy_xmit_exec pool
    let global_stats : pfq_global_stats :=
      if cnt_total ≠ 0 then
        { fwd.1 with
          frwd := __sparse_add fwd.1.frwd total env.cpu
          disc := __sparse_add fwd.1.disc (sub64 cnt_total total) env.cpu }
      else fwd.1
    let out :=
      fwd.2 ++ (if cnt_total ≠ 0 then [rx_event.pfq_lazy_xmit_exec total] else []) ++
        pool.map fun skb => rx_event.kfree_skb skb.skb
    some (0, { s := l.s, loc := l.loc, gc := [], global_stats := global_stats, out := out })

/-- The function `pfq_receive` for the frame `skb` (`none` for the null frame
of the timer). The result is the return value and the state on return, and
`none` when the group loop dereferences a null group or writes outside
`sock_queue`. -/
def pfq_receive (cfg : Config) (env : rx_env) (skb : Option gc_buff) (direct : Bool)
    (st : rx_state) : Option (Int × rx_state) :=
  if env.sock_count = 0 then
    match skb with
    | some skb => some (0, { st with out := st.out ++ [rx_event.kfree_skb skb.skb] })
    | none => some (0, st)
  else
    match skb with
    | some skb =>
      match rx_enroll env skb direct st.gc with
      | rx_enrolled.untag_failed =>
        some (-1, { st with
          global_stats :=
            { st.global_stats with lost := __sparse_inc st.global_stats.lost env.cpu } })
      | rx_enrolled.gc_full skb =>
        some (0, { st with
          global_stats :=
            { st.global_stats with lost := __sparse_inc st.global_stats.lost env.cpu }
          out := st.out ++ [rx_event.kfree_skb skb.skb] })
      | rx_enrolled.enrolled buff gc =>
        if gc_size gc < env.batch_len ∧ buff.tstamp - st.loc.last_ts < 1000000 then
          some (0, { st with gc := gc })
        else
          pfq_receive_process cfg env
            { st with gc := gc, loc := { st.loc with last_ts := buff.tstamp } }
    | none =>
      if gc_size st.gc = 0 then some (0, st)
      else pfq_receive_process cfg env st

/-- The iterations of the frame loop of a group pass (`for_each_gcbuff`, `pf_q.c`,
lines 341-474), from the frame of batch index `n` on: for every frame the loop
visits, its batch index, the frame, and the variables of the pass at the start
of the iteration. -/
def rx_pass_steps (cfg : Config) (env : rx_env) (gid : Nat)
    (bf_filter_enabled vlan_filter_enabled : Bool) (this_batch_len : Nat) :
    Nat → List gc_buff → rx_pass → List (Nat × gc_buff × rx_pass)
  | _, [], _ => []
  | n, buff :: rest, st =>
    if n = this_batch_len then []
    else
      (n, buff, st) ::
        match pfq_receive_frame cfg env.sk_run_filter env.pfq_run env.cpu gid bf_filter_enabled
            vlan_filter_enabled n buff st with
        | none => []
        | some st =>
          rx_pass_steps cfg env gid bf_filter_enabled vlan_filter_enabled this_batch_len
            (n + 1) rest st

/-- In the words of the specification: the group mask of the frame contains
`gid`. -/
def frame_in_group (gid : Nat) (buff : gc_buff) : Bool := buff.cb.group_mask.testBit gid

/-- In the words of the specification: the group has a BPF filter and the
filter rejects the frame. -/
def frame_filter_rejected (env : rx_env) (g : pfq_group) (buff : gc_buff) : Bool :=
  g.bp_filter != 0 && !env.sk_run_filter g.bp_filter buff

/-- In the words of the specification: VLAN filtering is enabled for the group
and `vid_filters[vlan_tci & 0xFFF]` is false. -/
def frame_vlan_rejected (g : pfq_group) (buff : gc_buff) : Bool :=
  g.vlan_filt && !g.vid_filters (buff.vlan_tci &&& 0xFFF)

/-- In the words of the specification: the group has a program, and the program,
run on the frame with a fresh monad, returns a null result or a fanout of
type drop. -/
def frame_program_dropped (cfg : Config) (env : rx_env) (gid : Nat) (g : pfq_group)
    (monad : pfq_monad) (buff : gc_buff) : Bool :=
  g.comp != 0 &&
    match env.pfq_run g.comp buff (rx_monad_setup cfg gid monad) with
    | (none, _) => true
    | (some _, monad) => is_drop monad.fanout

/-- In the words of the specification: the frame is dropped by the group `gid`
when it is rejected by the BPF filter, rejected by the VLAN filter, or dropped
by the program; `st` holds the variables of the pass when the frame is
reached. -/
def frame_dropped (cfg : Config) (env : rx_env) (gid : Nat) (buff : gc_buff) (st : rx_pass) :
    Bool :=
  frame_filter_rejected env (st.s.pfq_groups gid) buff ||
    frame_vlan_rejected (st.s.pfq_groups gid) buff ||
    frame_program_dropped cfg env gid (st.s.pfq_groups gid) st.monad buff

/-- The setup loop of `pfq_receive` (`pf_q.c`, lines 311-320) on the pool `gc`:
every frame gets the group mask of its device and queue in its control
block. -/
def rx_setup (s : State) (gc : List gc_buff) : List gc_buff :=
  gc.map fun skb =>
    { skb with cb := { skb.cb with
        group_mask := __pfq_devmap_get_groups s skb.ifindex skb.rx_queue } }

/-- The variables of the pass of a group at its start (`pf_q.c`, lines 336-338):
`refs` empty and `socket_mask` zero, the rest as the loop over the groups holds
it. -/
def rx_loop.pass (l : rx_loop) : rx_pass :=
  { s := l.s, loc := l.loc, monad := l.monad, refs := [], socket_mask := 0,
    sock_queue := l.sock_queue }

/-! ## Buffer pool (`pf_q-memory.h`) -/

/-- Kernel constant `SKB_FCLONE_UNAVAILABLE` (`linux/skbuff.h`). -/
def SKB_FCLONE_UNAVAILABLE : Nat := 0

/-- The members of a `struct sk_buff` that recycling reads: `data_len` (the
buffer is non-linear when it is not zero), the fast-clone state, the user
count, whether `skb_cloned` holds, and the end offset. `addr` is the address
of the buffer. -/
structure sk_buff where
  addr : Nat
  data_len : Nat
  fclone : Nat
  users : Int
  cloned : Bool
  end_offset : Nat
  deriving DecidableEq, Repr

/-- What an allocation takes from the kernel and the build: whether interrupts
are disabled, the constant `NET_SKB_PAD`, the macro `SKB_DATA_ALIGN` (on 32-bit
values), the allocator `__alloc_skb` for a size, and whether the build defines
`PFQ_USE_SKB_POOL`. -/
structure mem_env where
  irqs_disabled : Bool
  NET_SKB_PAD : Nat
  SKB_DATA_ALIGN : Nat → Nat
  __alloc_skb : Nat → Option sk_buff
  PFQ_USE_SKB_POOL : Bool

/-- The function `pfq_skb_end_offset`. -/
def pfq_skb_end_offset (skb : sk_buff) : Nat := skb.end_offset

/-- The function `pfq_skb_is_recycleable`; `skb_size` is an `int`, compared
with the unsigned end offset after conversion. -/
def pfq_skb_is_recycleable (env : mem_env) (skb : sk_buff) (skb_size : Nat) : Bool :=
  if env.irqs_disabled = true then false
  else if skb.data_len ≠ 0 then false
  else if skb.fclone ≠ SKB_FCLONE_UNAVAILABLE then false
  else if skb.users > 1 then false
  else if skb.cloned = true then false
  else
    let skb_size := env.SKB_DATA_ALIGN ((skb_size + env.NET_SKB_PAD) % U32) % U32
    if pfq_skb_end_offset skb < skb_size then false
    else true

/-- The function `pfq_skb_recycle`: the same buffer with its header state
cleared; the members before `tail` are zeroed. -/
def pfq_skb_recycle (skb : sk_buff) : sk_buff :=
  { skb with data_len := 0, fclone := 0, cloned := false }

/-- Modelled from the spec: `pfq_sk_buff_pool_get` of `pf_q-skbuff-pool.h`, which
is not among the sources: pop one buffer of the pool if present. -/
def pfq_sk_buff_pool_get (pool : List sk_buff) : Option sk_buff × List sk_buff :=
  match pool with
  | [] => (none, [])
  | skb :: rest => (some skb, rest)

/-- The outcome of an allocation: the buffer returned, whether it is the
buffer popped from the pool (the return of `pfq_skb_recycle`) rather than the
result of `__alloc_skb`, the pool afterwards, and the buffers passed to
`kfree_skb`. -/
structure alloc_result where
  skb : Option sk_buff
  reused : Bool
  pool : List sk_buff
  freed : List sk_buff
  deriving DecidableEq, Repr

/-- The function `____pfq_alloc_skb_pool`. -/
def ____pfq_alloc_skb_pool (env : mem_env) (size : Nat) (pool : List sk_buff) : alloc_result :=
  if env.PFQ_USE_SKB_POOL = true then
    match pfq_sk_buff_pool_get pool with
    | (some skb, pool) =>
      if pfq_skb_is_recycleable env skb size = true then
        { skb := some (pfq_skb_recycle skb), reused := true, pool := pool, freed := [] }
      else
        { skb := env.__alloc_skb size, reused := false, pool := pool, freed := [skb] }
    | (none, pool) =>
      { skb := env.__alloc_skb size, reused := false, pool := pool, freed := [] }
  else
    { skb := env.__alloc_skb size, reused := false, pool := pool, freed := [] }

/-- A kernel with interrupts enabled, 64-byte cache lines and a build with the
pool, for concrete evaluation. -/
def example_mem_env : mem_env where
  irqs_disabled := false
  NET_SKB_PAD := 64
  SKB_DATA_ALIGN := fun x => (x + 63) / 64 * 64
  __alloc_skb := fun size =>
    some { addr := 4096, data_len := 0, fclone := 0, users := 1, cloned := false,
           end_offset := size + 64 }
  PFQ_USE_SKB_POOL := true

/-- A group of the table before any operation: `pfq_groups` has static storage,
so every member is zero. -/
def zero_group : pfq_group where
  pid := 0
  owner := 0
  policy := 0
  sock_mask := fun _ => 0
  bp_filter := 0
  comp := 0
  comp_ctx := 0
  vlan_filt := false
  vid_filters := fun _ => false
  stats := { recv := fun _ => 0, drop := fun _ => 0, frwd := fun _ => 0, kern := fun _ => 0 }
  context :=
    { counter := fun _ _ => 0
      persistent := fun _ => { locked := false, memory := fun _ => 0 } }

/-- The state at module load: every group zero, an empty device map. -/
def initial_state : State where
  pfq_groups := fun _ => zero_group
  pfq_devmap := fun _ _ => 0
  trace := []

/-- The per-CPU data at module load. -/
def initial_local : local_data where
  eligible_mask := 0
  sock_cnt := 0
  sock_mask := fun _ => 0
  last_ts := 0

/-- A state in which group 2 has sockets 1, 4 and 9 in class 0 and the program
at address 77. -/
def example_rx_state : State :=
  initial_state.set_group 2
    { zero_group with
      pid := 100
      owner := 1
      policy := 3
      sock_mask := fun c => if c = 0 then 530 else 0
      comp := 77 }

/-- A frame that the device map sends to group 2. -/
def example_buff : gc_buff where
  skb := 1
  ifindex := 0
  rx_queue := 0
  protocol := 0x0800
  vlan_tci := 0
  tstamp := 0
  cb := { group_mask := 4, direct := false, log := { num_devs := 0, to_kernel := 0 } }

/-- A program evaluator that keeps the frame and sets the hash and the type of
the fanout. -/
def example_run (hash : Nat) (type : fanout_type) :
    Nat → gc_buff → pfq_monad → Option gc_buff × pfq_monad :=
  fun _ buff monad => (some buff, { monad with fanout := { monad.fanout with hash, type } })

/-- The variables of a group pass at its start, with a `sock_queue` of 64
entries. -/
def example_pass (s : State) : rx_pass where
  s := s
  loc := initial_local
  monad := { fanout := { class_mask := 0, hash := 0, type := fanout_type.fanout_copy },
             state := 0, group := 0 }
  refs := []
  socket_mask := 0
  sock_queue := List.replicate 64 0

/-- The state after process 100 has created group 3 through socket 5 with the
restricted policy and classes 0 and 2, under the limits of the specification. -/
def example_state : State :=
  (pfq_join_group specConfig 100 3 5 5 specConfig.Q_POLICY_GROUP_RESTRICTED initial_state).2

/-- The limits of the specification with a `sock_queue` of 64 entries, one for
every socket id. -/
def wideConfig : Config := { specConfig with Q_SKBUFF_SHORT_BATCH := 64 }

/-- A state in which process 100 has created the shared groups 0 and 1 through
socket 0, each with class 0 and without a program, and the device map sends
device 0 to group 0 and device 1 to group 1. -/
def example_two_groups : State :=
  { (pfq_join_group wideConfig 100 1 0 1 wideConfig.Q_POLICY_GROUP_SHARED
      (pfq_join_group wideConfig 100 0 0 1 wideConfig.Q_POLICY_GROUP_SHARED
        initial_state).2).2 with
    pfq_devmap := fun dev _ => if dev = 0 then 1 else if dev = 1 then 2 else 0 }

/-- An environment on CPU 0 with one socket open, a batch length of 2, no VLAN
untagging, filters that accept every frame and no forwarding. -/
def example_rx_env : rx_env where
  cpu := 0
  sock_count := 1
  batch_len := 2
  vl_untag := false
  Q_GC_POOL_QUEUE_LEN := 16
  now := 1
  monad0 := { fanout := { class_mask := 0, hash := 0, type := fanout_type.fanout_copy },
              state := 0, group := 0 }
  sk_run_filter := fun _ _ => true
  pfq_run := fun _ buff monad => (some buff, monad)
  pfq_vlan_untag := fun buff => some buff
  skb_clone := fun _ => none
  gc_get_fwd_targets := fun _ => 0
  pfq_lazy_xmit_exec := fun _ => 0

/-- A frame at address 10 received on device 0. -/
def example_frame_a : gc_buff := { example_buff with skb := 10, ifindex := 0, tstamp := 1000 }

/-- A frame at address 11 received on device 1. -/
def example_frame_b : gc_buff := { example_buff with skb := 11, ifindex := 1, tstamp := 2000 }

/-- The receive state over `example_two_groups` with an empty garbage collector
and every counter zero. -/
def example_rx_idle : rx_state where
  s := example_two_groups
  loc := initial_local
  gc := []
  global_stats :=
    { recv := fun _ => 0, lost := fun _ => 0, kern := fun _ => 0, quit := fun _ => 0,
      frwd := fun _ => 0, disc := fun _ => 0 }
  out := []

/-- The receive state in which the garbage collector holds `example_frame_a` and
then `example_frame_b`. -/
def example_rx_batch : rx_state := { example_rx_idle with gc := [example_frame_a, example_frame_b] }

/-- The variables of the loop over the groups at its start on
`example_two_groups`, with a `sock_queue` of 64 cleared entries. -/
def example_rx_loop : rx_loop where
  s := example_two_groups
  loc := initial_local
  monad := example_rx_env.monad0
  sock_queue := List.replicate 64 0
  out := []

/-- A frame at address 12 received on device 2, which the device map of
`example_two_groups` sends to no group. -/
def example_frame_c : gc_buff := { example_buff with skb := 12, ifindex := 2, tstamp := 500 }

/-- The receive state in which the garbage collector holds `example_frame_c` and
then `example_frame_a`. -/
def example_rx_gap : rx_state := { example_rx_idle with gc := [example_frame_c, example_frame_a] }

/-! ## Theorems -/

/-! ### Bit-level and loop lemmas -/

theorem foldl_range_update {β : Type} (p : Nat → Bool) (h : Nat → β → β) (init : Nat → β)
    (n c : Nat) :
    ((List.range n).foldl (fun m i => if p i = true then Function.update m i (h i (m i)) else m)
      init) c = if c < n ∧ p c = true then h c (init c) else init c := by
  induction n with
  | zero => simp
  | succ n ih =>
    rw [List.range_succ, List.foldl_append]
    simp only [List.foldl_cons, List.foldl_nil]
    by_cases hp : p n = true
    · simp only [hp, if_true]
      by_cases hc : c = n
      · subst hc
        simp [ih, hp]
      · rw [Function.update_noteq hc, ih]
        have : (c < n + 1) ↔ c < n := by omega
        simp [this]
    · simp only [hp]
      rw [if_neg (by simp), ih]
      by_cases hc : c = n
      · subst hc
        simp [hp]
      · have : (c < n + 1) ↔ c < n := by omega
        simp [this]

theorem foldl_range_set {β : Type} (v : Nat → β) (init : Nat → β) (n c : Nat) :
    ((List.range n).foldl (fun m i => Function.update m i (v i)) init) c =
      if c < n then v c else init c := by
  simpa using foldl_range_update (fun _ => true) (fun i _ => v i) init n c

theorem foldl_range_map {β : Type} (h : β → β) (init : Nat → β) (n c : Nat) :
    ((List.range n).foldl (fun m i => Function.update m i (h (m i))) init) c =
      if c < n then h (init c) else init c := by
  simpa using foldl_range_update (fun _ => true) (fun _ x => h x) init n c

theorem pfq_ctz_bit : ∀ i < 64, pfq_ctz (1 <<< i) = i := by decide

theorem pfq_bitwise_foreach_ctz {σ : Type} (mask : Nat) (body : σ → Nat → σ) (init : σ) :
    pfq_bitwise_foreach mask (fun s bit => body s (pfq_ctz bit)) init =
      (List.range 64).foldl (fun s i => if mask.testBit i = true then body s i else s) init := by
  unfold pfq_bitwise_foreach
  apply List.foldl_ext
  intro a i hi
  simp only [pfq_ctz_bit i (List.mem_range.1 hi)]

theorem bit64_eq {i : Nat} (hi : i < 64) : bit64 i = 2 ^ i := by
  unfold bit64 U64
  rw [Nat.one_shiftLeft]
  exact Nat.mod_eq_of_lt (Nat.pow_lt_pow_right (by norm_num) hi)

theorem eq_zero_iff_testBit (x : Nat) : x = 0 ↔ ∀ j, x.testBit j = false := by
  constructor
  · intro h j
    rw [h]
    exact Nat.zero_testBit j
  · exact Nat.zero_of_testBit_eq_false

theorem and_bit64_ne_zero (x : Nat) {i : Nat} (hi : i < 64) :
    (x &&& bit64 i != 0) = x.testBit i := by
  rw [bit64_eq hi, Nat.and_two_pow]
  have hpos : 0 < 2 ^ i := Nat.pos_pow_of_pos i (by norm_num)
  cases h : x.testBit i
  · simp
  · simp

theorem testBit_and_not64_bit64 (x : Nat) {i : Nat} (hi : i < 64) (j : Nat) :
    (x &&& not64 (bit64 i)).testBit j = (x.testBit j && decide (j < 64) && !decide (j = i)) := by
  have h2 : bit64 i % U64 = 2 ^ i := by
    rw [bit64_eq hi]
    exact Nat.mod_eq_of_lt (Nat.pow_lt_pow_right (by norm_num) hi)
  unfold not64
  rw [h2]
  unfold U64
  rw [Nat.testBit_and, Nat.testBit_xor, Nat.testBit_two_pow_sub_one, Nat.testBit_two_pow]
  have hd : decide (i = j) = decide (j = i) := decide_eq_decide.mpr ⟨Eq.symm, Eq.symm⟩
  rw [hd]
  by_cases hj : j < 64
  · by_cases hji : j = i
    · subst hji
      simp [hj]
    · simp [hj, hji]
  · have hji : j ≠ i := by omega
    simp [hj, hji]

theorem testBit_or_bit64 (x : Nat) {i : Nat} (hi : i < 64) (j : Nat) :
    (x ||| bit64 i).testBit j = (x.testBit j || decide (j = i)) := by
  have hd : decide (i = j) = decide (j = i) := decide_eq_decide.mpr ⟨Eq.symm, Eq.symm⟩
  rw [bit64_eq hi, Nat.testBit_or, Nat.testBit_two_pow, hd]

theorem foldl_or_testBit (f : Nat → Nat) (n acc j : Nat) :
    ((List.range n).foldl (fun mask i => mask ||| f i) acc).testBit j = true ↔
      acc.testBit j = true ∨ ∃ c, c < n ∧ (f c).testBit j = true := by
  induction n with
  | zero => simp
  | succ n ih =>
    rw [List.range_succ, List.foldl_append]
    simp only [List.foldl_cons, List.foldl_nil, Nat.testBit_or, Bool.or_eq_true, ih]
    constructor
    · rintro ((h | ⟨c, hc, h⟩) | h)
      · exact Or.inl h
      · exact Or.inr ⟨c, by omega, h⟩
      · exact Or.inr ⟨n, by omega, h⟩
    · rintro (h | ⟨c, hc, h⟩)
      · exact Or.inl (Or.inl h)
      · by_cases hcn : c = n
        · subst hcn
          exact Or.inr h
        · exact Or.inl (Or.inr ⟨c, by omega, h⟩)

theorem foldl_or_eq_zero (f : Nat → Nat) (n : Nat) :
    (List.range n).foldl (fun mask i => mask ||| f i) 0 = 0 ↔ ∀ c, c < n → f c = 0 := by
  rw [eq_zero_iff_testBit]
  constructor
  · intro h c hc
    rw [eq_zero_iff_testBit]
    intro j
    have := h j
    by_contra hne
    have ht : (f c).testBit j = true := by simpa using hne
    have : ((List.range n).foldl (fun mask i => mask ||| f i) 0).testBit j = true :=
      (foldl_or_testBit f n 0 j).2 (Or.inr ⟨c, hc, ht⟩)
    simp_all
  · intro h j
    by_contra hne
    have ht : ((List.range n).foldl (fun mask i => mask ||| f i) 0).testBit j = true := by
      simpa using hne
    rcases (foldl_or_testBit f n 0 j).1 ht with h0 | ⟨c, hc, hcj⟩
    · simp at h0
    · rw [h c hc] at hcj
      simp at hcj

/-! ### Group table access -/

theorem pfq_get_group_valid (cfg : Config) (s : State) {gid : Int}
    (hgid : 0 ≤ gid ∧ gid < cfg.Q_MAX_GROUP) :
    pfq_get_group cfg s gid = some (s.pfq_groups gid.toNat) := by
  unfold pfq_get_group
  rw [if_neg (by omega)]

theorem pfq_get_group_invalid (cfg : Config) (s : State) {gid : Int}
    (hgid : ¬ (0 ≤ gid ∧ gid < cfg.Q_MAX_GROUP)) :
    pfq_get_group cfg s gid = none := by
  unfold pfq_get_group
  rw [if_pos (by omega)]

theorem set_group_get (s : State) (n : Nat) (g : pfq_group) :
    (s.set_group n g).pfq_groups n = g := by
  simp [State.set_group]

theorem set_group_get_ne (s : State) {n m : Nat} (h : m ≠ n) (g : pfq_group) :
    (s.set_group n g).pfq_groups m = s.pfq_groups m := by
  simp [State.set_group, Function.update_noteq h]

/-! ### Integer folding -/

theorem dec32_of_pos {b : Nat} (hb : 1 ≤ b) (hlt : b < 2 ^ 32) : dec32 b = b - 1 := by
  unfold dec32 U32
  omega

theorem pfq_fold_bound (a b : Nat) (hb : b < 2 ^ 32) (hpos : 0 < b) : pfq_fold a b < b := by
  have hc : dec32 b = b - 1 := dec32_of_pos hpos hb
  have hand : a &&& (b - 1) ≤ b - 1 := Nat.and_le_right
  unfold pfq_fold
  simp only [hc]
  split_ifs with h1 h2 h3 h4 h5 h6 h7 <;> first | omega | exact Nat.mod_lt _ hpos

/-- C1: for 32-bit `a` and 32-bit `b ≥ 1`, `pfq_fold a b` lies in `[0, b)`. -/
theorem pfq_fold_lt (a b : Nat) (_ha : a < 2 ^ 32) (hb : b < 2 ^ 32) (hb1 : 1 ≤ b) :
    pfq_fold a b < b := by
  have hc : dec32 b = b - 1 := dec32_of_pos hb1 hb
  unfold pfq_fold
  simp only [hc]
  split_ifs with h1 h2 h3 h4 h5 h6 h7
  · omega
  · have := @Nat.and_le_right a (b - 1)
    omega
  · omega
  · omega
  · omega
  · omega
  · exact h7
  · exact Nat.mod_lt _ (by omega)

/-- Witness for C1 at a non-power of two above `2 ^ 31`, where `clp2` wraps. -/
theorem pfq_fold_lt_witness :
    clp2 2147483649 = 0 ∧ pfq_fold 4294967295 2147483649 < 2147483649 :=
  ⟨by decide, pfq_fold_lt 4294967295 2147483649 (by decide) (by decide) (by decide)⟩

/-- C2: for 32-bit `a` and `b = 2 ^ k` with `k ≤ 31`, `pfq_fold a b = a & (b - 1)`. -/
theorem pfq_fold_pow2 (a k : Nat) (_ha : a < 2 ^ 32) (hk : k ≤ 31) :
    pfq_fold a (2 ^ k) = a &&& (2 ^ k - 1) := by
  have hlt : 2 ^ k < 2 ^ 32 := Nat.pow_lt_pow_right (by norm_num) (by omega)
  have hc : dec32 (2 ^ k) = 2 ^ k - 1 := dec32_of_pos Nat.one_le_two_pow hlt
  have hand : 2 ^ k &&& (2 ^ k - 1) = 0 := by
    interval_cases k <;> decide
  unfold pfq_fold
  simp only [hc, hand]
  split_ifs with h1
  · rw [h1]; simp
  · rfl

/-- Witness for C2 at `a = 0xdeadbeef`, `b = 2 ^ 5`. -/
theorem pfq_fold_pow2_witness : pfq_fold 3735928559 (2 ^ 5) = 3735928559 &&& (2 ^ 5 - 1) :=
  pfq_fold_pow2 3735928559 5 (by decide) (by decide)

/-! ### Receive path: steering and fan-out -/

theorem foldl_cond_or_testBit (p : Nat → Bool) (f : Nat → Nat) (n acc j : Nat) :
    ((List.range n).foldl (fun e i => if p i = true then e ||| f i else e) acc).testBit j = true ↔
      acc.testBit j = true ∨ ∃ c, c < n ∧ p c = true ∧ (f c).testBit j = true := by
  induction n with
  | zero => simp
  | succ n ih =>
    rw [List.range_succ, List.foldl_append]
    simp only [List.foldl_cons, List.foldl_nil]
    by_cases hp : p n = true
    · simp only [hp, if_true, Nat.testBit_or, Bool.or_eq_true, ih]
      constructor
      · rintro ((h | ⟨c, hc, hpc, h⟩) | h)
        · exact Or.inl h
        · exact Or.inr ⟨c, by omega, hpc, h⟩
        · exact Or.inr ⟨n, by omega, hp, h⟩
      · rintro (h | ⟨c, hc, hpc, h⟩)
        · exact Or.inl (Or.inl h)
        · by_cases hcn : c = n
          · subst hcn
            exact Or.inr h
          · exact Or.inl (Or.inr ⟨c, by omega, hpc, h⟩)
    · rw [if_neg hp, ih]
      constructor
      · rintro (h | ⟨c, hc, hpc, h⟩)
        · exact Or.inl h
        · exact Or.inr ⟨c, by omega, hpc, h⟩
      · rintro (h | ⟨c, hc, hpc, h⟩)
        · exact Or.inl h
        · by_cases hcn : c = n
          · subst hcn
            exact absurd hpc hp
          · exact Or.inr ⟨c, by omega, hpc, h⟩

theorem rx_eligible_mask_testBit (g : pfq_group) (class_mask j : Nat) :
    (rx_eligible_mask g class_mask).testBit j = true ↔
      ∃ c, c < 64 ∧ class_mask.testBit c = true ∧ (g.sock_mask c).testBit j = true := by
  unfold rx_eligible_mask
  have h := pfq_bitwise_foreach_ctz class_mask
    (fun (e : Nat) cls => e ||| g.sock_mask cls) 0
  simp only at h ⊢
  rw [h, foldl_cond_or_testBit (fun i => class_mask.testBit i) g.sock_mask 64 0 j]
  simp

theorem rx_eligible_mask_lt (g : pfq_group) (class_mask : Nat)
    (hlong : ∀ c, g.sock_mask c < 2 ^ 64) : rx_eligible_mask g class_mask < 2 ^ 64 := by
  apply Nat.lt_pow_two_of_testBit
  intro i hi
  by_contra hne
  have ht : (rx_eligible_mask g class_mask).testBit i = true := by simpa using hne
  obtain ⟨c, _, _, hc⟩ := (rx_eligible_mask_testBit g class_mask i).1 ht
  have hlt : g.sock_mask c < 2 ^ i :=
    lt_of_lt_of_le (hlong c) (Nat.pow_le_pow_right (by norm_num) hi)
  rw [Nat.testBit_lt_two_pow hlt] at hc
  exact Bool.false_ne_true hc

theorem bits_below_zero (mask : Nat) : bits_below mask 0 = 0 := rfl

theorem bits_below_succ (mask i : Nat) :
    bits_below mask (i + 1) = bits_below mask i + if mask.testBit i = true then 1 else 0 := by
  unfold bits_below
  rw [List.range_succ, List.filter_append, List.length_append]
  by_cases h : mask.testBit i = true <;> simp [h]

theorem bits_below_mono (mask : Nat) {i j : Nat} (h : i ≤ j) :
    bits_below mask i ≤ bits_below mask j := by
  induction j with
  | zero =>
    have : i = 0 := by omega
    rw [this]
  | succ j ih =>
    by_cases hij : i = j + 1
    · rw [hij]
    · have := ih (by omega)
      rw [bits_below_succ]
      omega

theorem bits_below_lt_of_testBit (mask : Nat) {i n : Nat} (hi : i < n)
    (hb : mask.testBit i = true) : bits_below mask i < bits_below mask n := by
  have h1 := bits_below_succ mask i
  rw [if_pos hb] at h1
  have h2 := bits_below_mono mask (show i + 1 ≤ n by omega)
  omega

theorem bits_below_le (mask i : Nat) : bits_below mask i ≤ i := by
  induction i with
  | zero => simp [bits_below_zero]
  | succ i ih =>
    rw [bits_below_succ]
    split_ifs <;> omega

theorem exists_bit_of_lt_bits_below (mask : Nat) (n k : Nat) (hk : k < bits_below mask n) :
    ∃ i, i < n ∧ mask.testBit i = true ∧ bits_below mask i = k := by
  induction n with
  | zero => simp [bits_below_zero] at hk
  | succ n ih =>
    rw [bits_below_succ] at hk
    by_cases hlt : k < bits_below mask n
    · obtain ⟨i, hi, hb, hr⟩ := ih hlt
      exact ⟨i, by omega, hb, hr⟩
    · by_cases hb : mask.testBit n = true
      · rw [if_pos hb] at hk
        exact ⟨n, by omega, hb, by omega⟩
      · rw [if_neg hb] at hk
        omega

theorem bits_below_pos (mask : Nat) (hne : mask ≠ 0) (hlt : mask < 2 ^ 64) :
    0 < bits_below mask 64 := by
  obtain ⟨i, hi⟩ := Nat.ne_zero_implies_bit_true hne
  have hi64 : i < 64 := by
    by_contra hge
    have : mask < 2 ^ i := lt_of_lt_of_le hlt (Nat.pow_le_pow_right (by norm_num) (by omega))
    rw [Nat.testBit_lt_two_pow this] at hi
    exact Bool.false_ne_true hi
  have := bits_below_lt_of_testBit mask hi64 hi
  omega

theorem bits_below_zero_mask (i : Nat) : bits_below 0 i = 0 := by
  induction i with
  | zero => rfl
  | succ i ih => rw [bits_below_succ, ih]; simp

/-- The refresh loop of the steering cache over the bits below `k`. -/
theorem steer_fill_spec (E : Nat) (loc : local_data) (k : Nat) :
    let r := (List.range k).foldl
      (fun (l : local_data) i =>
        if E.testBit i = true then
          { l with sock_mask := Function.update l.sock_mask l.sock_cnt (1 <<< i)
                   sock_cnt := l.sock_cnt + 1 }
        else l)
      { loc with eligible_mask := E, sock_cnt := 0 }
    r.eligible_mask = E ∧ r.sock_cnt = bits_below E k ∧
      ∀ i, i < k → E.testBit i = true → r.sock_mask (bits_below E i) = 1 <<< i := by
  induction k with
  | zero => simp [bits_below_zero]
  | succ k ih =>
    simp only at ih ⊢
    rw [List.range_succ, List.foldl_append]
    simp only [List.foldl_cons, List.foldl_nil]
    obtain ⟨h1, h2, h3⟩ := ih
    by_cases hb : E.testBit k = true
    · simp only [hb, if_true]
      refine ⟨h1, ?_, ?_⟩
      · rw [bits_below_succ, if_pos hb, h2]
      · intro i hi hbi
        by_cases hik : i = k
        · subst hik
          rw [h2, Function.update_same]
        · have hlt : bits_below E i < bits_below E k := bits_below_lt_of_testBit E (by omega) hbi
          rw [h2, Function.update_noteq (by omega)]
          exact h3 i (by omega) hbi
    · rw [if_neg hb]
      refine ⟨h1, ?_, ?_⟩
      · rw [bits_below_succ, if_neg hb, h2]
        rfl
      · intro i hi hbi
        have hik : i ≠ k := by
          rintro rfl
          exact hb hbi
        exact h3 i (by omega) hbi

theorem rx_steer_consistent (loc : local_data) (E hash : Nat) (hcons : loc.consistent) :
    (rx_steer loc E hash).1.consistent ∧ (rx_steer loc E hash).1.eligible_mask = E := by
  unfold rx_steer
  simp only
  by_cases hne : E = loc.eligible_mask
  · rw [if_neg (by simpa using hne)]
    exact ⟨hcons, hne.symm⟩
  · rw [if_pos hne]
    unfold pfq_bitwise_foreach
    obtain ⟨h1, h2, h3⟩ := steer_fill_spec E loc 64
    refine ⟨⟨?_, ?_⟩, h1⟩
    · rw [h1]; exact h2
    · intro i hi hb
      rw [h1] at hb ⊢
      exact h3 i hi hb

/-- The selection of the steering branch, for a consistent cache. -/
theorem rx_steer_spec (loc : local_data) (E hash : Nat) (hcons : loc.consistent)
    (hE : E < 2 ^ 64) :
    (E ≠ 0 → ∃ i, i < 64 ∧ (rx_steer loc E hash).2 = 2 ^ i ∧ E.testBit i = true ∧
      bits_below E i =
        pfq_fold ((hash ^^^ (hash >>> 8) ^^^ (hash >>> 16)) % 2 ^ 32) (bits_below E 64)) ∧
    (E = 0 → (rx_steer loc E hash).2 = 0) := by
  obtain ⟨⟨hc1, hc2⟩, hc3⟩ := rx_steer_consistent loc E hash hcons
  have hsnd : (rx_steer loc E hash).2 =
      if (rx_steer loc E hash).1.sock_cnt ≠ 0 then
        0 ||| (rx_steer loc E hash).1.sock_mask
          (pfq_fold ((hash ^^^ (hash >>> 8) ^^^ (hash >>> 16)) % U32)
            ((rx_steer loc E hash).1.sock_cnt % U32))
      else 0 := rfl
  rw [hc3] at hc1 hc2
  have hle : bits_below E 64 ≤ 64 := bits_below_le E 64
  have hmod : bits_below E 64 % U32 = bits_below E 64 := Nat.mod_eq_of_lt (by unfold U32; omega)
  constructor
  · intro hne
    have hpos := bits_below_pos E hne hE
    have hfold : pfq_fold ((hash ^^^ (hash >>> 8) ^^^ (hash >>> 16)) % 2 ^ 32) (bits_below E 64) <
        bits_below E 64 :=
      pfq_fold_bound _ _ (by omega) hpos
    obtain ⟨i, hi, hb, hr⟩ := exists_bit_of_lt_bits_below E 64 _ hfold
    refine ⟨i, hi, ?_, hb, hr⟩
    rw [hsnd, hc1, if_pos (by omega), hmod, Nat.zero_or]
    have hU : U32 = 2 ^ 32 := rfl
    rw [hU, ← hr, hc2 i hi hb, Nat.one_shiftLeft]
  · intro h0
    rw [hsnd, hc1, h0, bits_below_zero_mask]
    simp

theorem rx_pass_stats_group (st : rx_pass) (gid : Nat) (f : pfq_group_stats → pfq_group_stats) :
    (st.stats gid f).s.pfq_groups gid =
      { st.s.pfq_groups gid with stats := f (st.s.pfq_groups gid).stats } := by
  simp [rx_pass.stats, set_group_get]

theorem __pfq_check_group_vlan_filter_stats (cfg : Config) (st : rx_pass) (gid : Nat)
    (f : pfq_group_stats → pfq_group_stats) (vid : Nat) :
    __pfq_check_group_vlan_filter cfg (st.stats gid f).s gid vid =
      __pfq_check_group_vlan_filter cfg st.s gid vid := by
  unfold __pfq_check_group_vlan_filter pfq_get_group
  split_ifs with h
  · rfl
  · simp only [Int.toNat_ofNat, rx_pass_stats_group]

theorem rx_pass_stats_monad (st : rx_pass) (gid : Nat) (f : pfq_group_stats → pfq_group_stats) :
    (st.stats gid f).monad = st.monad := rfl

theorem rx_pass_stats_loc (st : rx_pass) (gid : Nat) (f : pfq_group_stats → pfq_group_stats) :
    (st.stats gid f).loc = st.loc := rfl

theorem rx_pass_stats_refs (st : rx_pass) (gid : Nat) (f : pfq_group_stats → pfq_group_stats) :
    (st.stats gid f).refs = st.refs := rfl

theorem rx_eligible_mask_stats (g : pfq_group) (stats : pfq_group_stats) (class_mask : Nat) :
    rx_eligible_mask { g with stats := stats } class_mask = rx_eligible_mask g class_mask := rfl

/-- The frame loop body for a frame that reaches the program of the group. -/
theorem pfq_receive_route_program (cfg : Config) (sk_run_filter : Nat → gc_buff → Bool)
    (pfq_run : Nat → gc_buff → pfq_monad → Option gc_buff × pfq_monad)
    (cpu gid : Nat) (bf_filter_enabled vlan_filter_enabled : Bool) (buff : gc_buff)
    (st : rx_pass)
    (hmap : buff.cb.group_mask &&& (1 <<< gid) ≠ 0)
    (hbpf : bf_filter_enabled = true → (st.s.pfq_groups gid).bp_filter ≠ 0 →
      sk_run_filter (st.s.pfq_groups gid).bp_filter buff = true)
    (hvlan : vlan_filter_enabled = true →
      __pfq_check_group_vlan_filter cfg st.s gid
        (buff.vlan_tci &&& ((U32 - 1) ^^^ VLAN_TAG_PRESENT)) = true)
    (hprg : (st.s.pfq_groups gid).comp ≠ 0)
    (buff1 : gc_buff) (m1 : pfq_monad)
    (hrun : pfq_run (st.s.pfq_groups gid).comp buff (rx_monad_setup cfg gid st.monad) =
      (some buff1, m1))
    (hdrop : is_drop m1.fanout = false) :
    ((pfq_receive_route cfg sk_run_filter pfq_run cpu gid bf_filter_enabled
        vlan_filter_enabled buff st).2 =
      if is_steering m1.fanout = true then
        some (rx_steer st.loc (rx_eligible_mask (st.s.pfq_groups gid) m1.fanout.class_mask)
          m1.fanout.hash).2
      else some (rx_eligible_mask (st.s.pfq_groups gid) m1.fanout.class_mask)) ∧
    ((pfq_receive_route cfg sk_run_filter pfq_run cpu gid bf_filter_enabled
        vlan_filter_enabled buff st).1.loc =
      if is_steering m1.fanout = true then
        (rx_steer st.loc (rx_eligible_mask (st.s.pfq_groups gid) m1.fanout.class_mask)
          m1.fanout.hash).1
      else st.loc) ∧
    (pfq_receive_route cfg sk_run_filter pfq_run cpu gid bf_filter_enabled
        vlan_filter_enabled buff st).1.refs = st.refs ++ [buff1] := by
  have hb : ¬ (bf_filter_enabled = true ∧
      ((st.stats gid (fun x => { x with recv := __sparse_inc x.recv cpu })).s.pfq_groups
        gid).bp_filter ≠ 0 ∧
      sk_run_filter ((st.stats gid (fun x =>
        { x with recv := __sparse_inc x.recv cpu })).s.pfq_groups gid).bp_filter buff = false) := by
    rw [rx_pass_stats_group]
    rintro ⟨h1, h2, h3⟩
    rw [hbpf h1 h2] at h3
    exact Bool.noConfusion h3
  have hv : ¬ (vlan_filter_enabled = true ∧
      __pfq_check_group_vlan_filter cfg
        (st.stats gid (fun x => { x with recv := __sparse_inc x.recv cpu })).s gid
        (buff.vlan_tci &&& ((U32 - 1) ^^^ VLAN_TAG_PRESENT)) = false) := by
    rw [__pfq_check_group_vlan_filter_stats]
    rintro ⟨h1, h2⟩
    rw [hvlan h1] at h2
    exact Bool.noConfusion h2
  have hp : ((st.stats gid (fun x => { x with recv := __sparse_inc x.recv cpu })).s.pfq_groups
      gid).comp ≠ 0 := by
    rw [rx_pass_stats_group]
    exact hprg
  have hcomp : ((st.stats gid (fun x => { x with recv := __sparse_inc x.recv cpu })).s.pfq_groups
      gid).comp = (st.s.pfq_groups gid).comp := by
    rw [rx_pass_stats_group]
  have hmon : (st.stats gid (fun x => { x with recv := __sparse_inc x.recv cpu })).monad =
      st.monad := rfl
  unfold pfq_receive_route
  rw [if_neg hmap]
  simp only
  rw [if_neg hb, if_neg hv, if_pos hp, hcomp, hmon, hrun]
  simp only [rx_pass_stats_monad, rx_pass_stats_loc, rx_pass_stats_refs, hdrop,
    Bool.false_eq_true, if_false]
  by_cases hs : is_steering m1.fanout = true
  · simp only [hs, if_true, rx_pass_stats_group, rx_eligible_mask_stats]
    refine ⟨?_, ?_, ?_⟩ <;> trivial
  · simp only [hs, if_false, Bool.false_eq_true, rx_pass_stats_group, rx_eligible_mask_stats,
      Nat.zero_or]
    refine ⟨?_, ?_, ?_⟩ <;> trivial

theorem getD_set_eq (q : List Nat) (i j v : Nat) (hi : i < q.length) :
    (q.set i v).getD j 0 = if j = i then v else q.getD j 0 := by
  by_cases hji : j = i
  · subst hji
    simp [List.getD_eq_getElem?_getD, hi]
  · have : i ≠ j := fun h => hji h.symm
    simp [List.getD_eq_getElem?_getD, hji, List.getElem?_set_ne this]

theorem sock_queue_fold_spec (n mask : Nat) (q : List Nat) (k : Nat) :
    ∀ r, (List.range k).foldl
        (fun (sq : Option (List Nat)) i =>
          if mask.testBit i = true then
            sq.bind fun q =>
              if i < q.length then some (q.set i (q.getD i 0 ||| bit64 n)) else none
          else sq)
        (some q) = some r →
      r.length = q.length ∧ (∀ i, i < k → mask.testBit i = true → i < q.length) ∧
        ∀ i, r.getD i 0 =
          if i < k ∧ mask.testBit i = true then q.getD i 0 ||| bit64 n else q.getD i 0 := by
  induction k with
  | zero =>
    intro r h
    simp only [List.range_zero, List.foldl_nil, Option.some.injEq] at h
    subst h
    simp
  | succ k ih =>
    intro r h
    rw [List.range_succ, List.foldl_append] at h
    simp only [List.foldl_cons, List.foldl_nil] at h
    by_cases hb : mask.testBit k = true
    · rw [if_pos hb] at h
      cases hprev : (List.range k).foldl
          (fun (sq : Option (List Nat)) i =>
            if mask.testBit i = true then
              sq.bind fun q =>
                if i < q.length then some (q.set i (q.getD i 0 ||| bit64 n)) else none
            else sq)
          (some q) with
      | none =>
        rw [hprev] at h
        simp at h
      | some r0 =>
        rw [hprev] at h
        obtain ⟨hl, hin, hval⟩ := ih r0 hprev
        simp only [Option.some_bind] at h
        by_cases hk : k < r0.length
        · rw [if_pos hk] at h
          simp only [Option.some.injEq] at h
          subst h
          refine ⟨by rw [List.length_set, hl], ?_, ?_⟩
          · intro i hi hbi
            by_cases hik : i = k
            · subst hik
              omega
            · exact hin i (by omega) hbi
          · intro i
            rw [getD_set_eq _ _ _ _ hk]
            by_cases hik : i = k
            · subst hik
              rw [if_pos rfl, hval i, if_neg (by omega), if_pos ⟨by omega, hb⟩]
            · rw [if_neg hik, hval i]
              have : (i < k + 1 ∧ mask.testBit i = true) ↔ (i < k ∧ mask.testBit i = true) := by
                constructor
                · rintro ⟨h1, h2⟩
                  exact ⟨by omega, h2⟩
                · rintro ⟨h1, h2⟩
                  exact ⟨by omega, h2⟩
              simp only [this]
        · rw [if_neg hk] at h
          exact absurd h (by simp)
    · rw [if_neg hb] at h
      obtain ⟨hl, hin, hval⟩ := ih r h
      refine ⟨hl, ?_, ?_⟩
      · intro i hi hbi
        have hik : i ≠ k := by
          rintro rfl
          exact hb hbi
        exact hin i (by omega) hbi
      · intro i
        rw [hval i]
        have : (i < k + 1 ∧ mask.testBit i = true) ↔ (i < k ∧ mask.testBit i = true) := by
          constructor
          · rintro ⟨h1, h2⟩
            have hik : i ≠ k := by
              rintro rfl
              exact hb h2
            exact ⟨by omega, h2⟩
          · rintro ⟨h1, h2⟩
            exact ⟨by omega, h2⟩
        simp only [this]

/-- The effect of `mask_to_sock_queue` when every write is inside the array. -/
theorem mask_to_sock_queue_spec (n mask : Nat) (q r : List Nat)
    (h : mask_to_sock_queue n mask q = some r) :
    r.length = q.length ∧ (∀ i, i < 64 → mask.testBit i = true → i < q.length) ∧
      ∀ i, r.getD i 0 =
        if i < 64 ∧ mask.testBit i = true then q.getD i 0 ||| bit64 n else q.getD i 0 := by
  unfold mask_to_sock_queue at h
  have hc := pfq_bitwise_foreach_ctz mask
    (fun (sq : Option (List Nat)) index =>
      sq.bind fun q =>
        if index < q.length then some (q.set index (q.getD index 0 ||| bit64 n)) else none)
    (some q)
  simp only at hc h
  rw [hc] at h
  exact sock_queue_fold_spec n mask q 64 r h

theorem pfq_receive_route_locals (cfg : Config) (sk_run_filter : Nat → gc_buff → Bool)
    (pfq_run : Nat → gc_buff → pfq_monad → Option gc_buff × pfq_monad)
    (cpu gid : Nat) (bf_filter_enabled vlan_filter_enabled : Bool) (buff : gc_buff)
    (st : rx_pass) :
    (pfq_receive_route cfg sk_run_filter pfq_run cpu gid bf_filter_enabled
        vlan_filter_enabled buff st).1.sock_queue = st.sock_queue ∧
    (pfq_receive_route cfg sk_run_filter pfq_run cpu gid bf_filter_enabled
        vlan_filter_enabled buff st).1.socket_mask = st.socket_mask := by
  unfold pfq_receive_route
  dsimp only
  split_ifs <;> first | exact ⟨rfl, rfl⟩ | (split <;> (try split_ifs) <;> exact ⟨rfl, rfl⟩)

/-- The frame loop body for a frame that passes the filters of a group without
a program. -/
theorem pfq_receive_route_no_program (cfg : Config) (sk_run_filter : Nat → gc_buff → Bool)
    (pfq_run : Nat → gc_buff → pfq_monad → Option gc_buff × pfq_monad)
    (cpu gid : Nat) (bf_filter_enabled vlan_filter_enabled : Bool) (buff : gc_buff)
    (st : rx_pass)
    (hmap : buff.cb.group_mask &&& (1 <<< gid) ≠ 0)
    (hbpf : bf_filter_enabled = true → (st.s.pfq_groups gid).bp_filter ≠ 0 →
      sk_run_filter (st.s.pfq_groups gid).bp_filter buff = true)
    (hvlan : vlan_filter_enabled = true →
      __pfq_check_group_vlan_filter cfg st.s gid
        (buff.vlan_tci &&& ((U32 - 1) ^^^ VLAN_TAG_PRESENT)) = true)
    (hprg : (st.s.pfq_groups gid).comp = 0) :
    (pfq_receive_route cfg sk_run_filter pfq_run cpu gid bf_filter_enabled
        vlan_filter_enabled buff st).2 = some ((st.s.pfq_groups gid).sock_mask 0) ∧
    (pfq_receive_route cfg sk_run_filter pfq_run cpu gid bf_filter_enabled
        vlan_filter_enabled buff st).1.refs = st.refs ++ [buff] := by
  have hb : ¬ (bf_filter_enabled = true ∧
      ((st.stats gid (fun x => { x with recv := __sparse_inc x.recv cpu })).s.pfq_groups
        gid).bp_filter ≠ 0 ∧
      sk_run_filter ((st.stats gid (fun x =>
        { x with recv := __sparse_inc x.recv cpu })).s.pfq_groups gid).bp_filter buff = false) := by
    rw [rx_pass_stats_group]
    rintro ⟨h1, h2, h3⟩
    rw [hbpf h1 h2] at h3
    exact Bool.noConfusion h3
  have hv : ¬ (vlan_filter_enabled = true ∧
      __pfq_check_group_vlan_filter cfg
        (st.stats gid (fun x => { x with recv := __sparse_inc x.recv cpu })).s gid
        (buff.vlan_tci &&& ((U32 - 1) ^^^ VLAN_TAG_PRESENT)) = false) := by
    rw [__pfq_check_group_vlan_filter_stats]
    rintro ⟨h1, h2⟩
    rw [hvlan h1] at h2
    exact Bool.noConfusion h2
  have hp : ¬ ((st.stats gid (fun x => { x with recv := __sparse_inc x.recv cpu })).s.pfq_groups
      gid).comp ≠ 0 := by
    rw [rx_pass_stats_group]
    simpa using hprg
  unfold pfq_receive_route
  rw [if_neg hmap]
  simp only
  rw [if_neg hb, if_neg hv, if_neg hp]
  simp only [rx_pass_stats_group, rx_pass_stats_refs, Nat.zero_or]
  exact ⟨trivial, trivial⟩

theorem rx_steer_unique (loc1 loc2 : local_data) (E hash : Nat) (h1 : loc1.consistent)
    (h2 : loc2.consistent) (hE : E < 2 ^ 64) :
    (rx_steer loc1 E hash).2 = (rx_steer loc2 E hash).2 := by
  obtain ⟨ha1, ha2⟩ := rx_steer_spec loc1 E hash h1 hE
  obtain ⟨hb1, hb2⟩ := rx_steer_spec loc2 E hash h2 hE
  by_cases h0 : E = 0
  · rw [ha2 h0, hb2 h0]
  · obtain ⟨i, _, hi, hbi, hri⟩ := ha1 h0
    obtain ⟨j, _, hj, hbj, hrj⟩ := hb1 h0
    have hij : i = j := by
      rcases Nat.lt_trichotomy i j with hlt | heq | hgt
      · have := bits_below_lt_of_testBit E hlt hbi
        omega
      · exact heq
      · have := bits_below_lt_of_testBit E hgt hbj
        omega
    rw [hi, hj, hij]

theorem initial_local_consistent : initial_local.consistent := by
  refine ⟨?_, ?_⟩
  · show 0 = bits_below 0 64
    rw [bits_below_zero_mask]
  · intro i _ h
    have : initial_local.eligible_mask = 0 := rfl
    rw [this, Nat.zero_testBit] at h
    exact Bool.noConfusion h

theorem example_rx_state_long (c : Nat) : (example_rx_state.pfq_groups 2).sock_mask c < 2 ^ 64 := by
  show (if c = 0 then 530 else 0) < 2 ^ 64
  split_ifs <;> norm_num

/-- The frame-level effect of routing a frame to `sock_mask`. -/
theorem pfq_receive_frame_routed (cfg : Config) (sk_run_filter : Nat → gc_buff → Bool)
    (pfq_run : Nat → gc_buff → pfq_monad → Option gc_buff × pfq_monad)
    (cpu gid : Nat) (bf_filter_enabled vlan_filter_enabled : Bool) (n : Nat) (hn : n < 64)
    (buff : gc_buff) (st : rx_pass) (sock_mask : Nat)
    (hroute : (pfq_receive_route cfg sk_run_filter pfq_run cpu gid bf_filter_enabled
      vlan_filter_enabled buff st).2 = some sock_mask)
    (st1 : rx_pass)
    (hframe : pfq_receive_frame cfg sk_run_filter pfq_run cpu gid bf_filter_enabled
      vlan_filter_enabled n buff st = some st1) :
    st1.refs = (pfq_receive_route cfg sk_run_filter pfq_run cpu gid bf_filter_enabled
      vlan_filter_enabled buff st).1.refs ∧
    st1.socket_mask = st.socket_mask ||| sock_mask ∧
    ∀ j, j < 64 → sock_mask.testBit j = true →
      j < st.sock_queue.length ∧ (st1.sock_queue.getD j 0).testBit n = true := by
  obtain ⟨hq, hm⟩ := pfq_receive_route_locals cfg sk_run_filter pfq_run cpu gid
    bf_filter_enabled vlan_filter_enabled buff st
  unfold pfq_receive_frame at hframe
  simp only [hroute, hq, hm] at hframe
  cases hmq : mask_to_sock_queue n sock_mask st.sock_queue with
  | none =>
    rw [hmq] at hframe
    exact absurd hframe (by simp)
  | some r =>
    rw [hmq] at hframe
    simp only [Option.some.injEq] at hframe
    obtain ⟨_, hin, hval⟩ := mask_to_sock_queue_spec n sock_mask st.sock_queue r hmq
    subst hframe
    refine ⟨rfl, rfl, ?_⟩
    intro j hj hb
    refine ⟨hin j hj hb, ?_⟩
    show (r.getD j 0).testBit n = true
    rw [hval j, if_pos ⟨hj, hb⟩, testBit_or_bit64 _ hn]
    simp

/-- C3: when the program of a group returns a frame with the steer fanout, the
`sock_mask` of the frame is the single bit of the eligible mask `E` (the union of
the class masks over the classes of the monad) whose rank among the bits of `E`
is `pfq_fold(h, popcount(E))`, with `h` the mixed hash; this holds for every
consistent steering cache and leaves the cache consistent. When `E` is zero
the `sock_mask` is empty. -/
theorem pfq_receive_steer_one_socket (cfg : Config) (sk_run_filter : Nat → gc_buff → Bool)
    (pfq_run : Nat → gc_buff → pfq_monad → Option gc_buff × pfq_monad)
    (cpu gid : Nat) (bf_filter_enabled vlan_filter_enabled : Bool) (buff : gc_buff)
    (st : rx_pass)
    (hmap : buff.cb.group_mask &&& (1 <<< gid) ≠ 0)
    (hbpf : bf_filter_enabled = true → (st.s.pfq_groups gid).bp_filter ≠ 0 →
      sk_run_filter (st.s.pfq_groups gid).bp_filter buff = true)
    (hvlan : vlan_filter_enabled = true →
      __pfq_check_group_vlan_filter cfg st.s gid
        (buff.vlan_tci &&& ((U32 - 1) ^^^ VLAN_TAG_PRESENT)) = true)
    (hprg : (st.s.pfq_groups gid).comp ≠ 0)
    (buff1 : gc_buff) (m1 : pfq_monad)
    (hrun : pfq_run (st.s.pfq_groups gid).comp buff (rx_monad_setup cfg gid st.monad) =
      (some buff1, m1))
    (hsteer : m1.fanout.type = fanout_type.fanout_steer)
    (hcons : st.loc.consistent)
    (hlong : ∀ c, (st.s.pfq_groups gid).sock_mask c < 2 ^ 64) :
    (∀ j, (rx_eligible_mask (st.s.pfq_groups gid) m1.fanout.class_mask).testBit j = true ↔
      ∃ c, c < 64 ∧ m1.fanout.class_mask.testBit c = true ∧
        ((st.s.pfq_groups gid).sock_mask c).testBit j = true) ∧
    (rx_eligible_mask (st.s.pfq_groups gid) m1.fanout.class_mask ≠ 0 →
      ∃ i, i < 64 ∧
        (pfq_receive_route cfg sk_run_filter pfq_run cpu gid bf_filter_enabled
          vlan_filter_enabled buff st).2 = some (2 ^ i) ∧
        (rx_eligible_mask (st.s.pfq_groups gid) m1.fanout.class_mask).testBit i = true ∧
        bits_below (rx_eligible_mask (st.s.pfq_groups gid) m1.fanout.class_mask) i =
          pfq_fold
            ((m1.fanout.hash ^^^ (m1.fanout.hash >>> 8) ^^^ (m1.fanout.hash >>> 16)) % 2 ^ 32)
            (bits_below (rx_eligible_mask (st.s.pfq_groups gid) m1.fanout.class_mask) 64)) ∧
    (rx_eligible_mask (st.s.pfq_groups gid) m1.fanout.class_mask = 0 →
      (pfq_receive_route cfg sk_run_filter pfq_run cpu gid bf_filter_enabled
        vlan_filter_enabled buff st).2 = some 0) ∧
    (∀ loc2 : local_data, loc2.consistent →
      (pfq_receive_route cfg sk_run_filter pfq_run cpu gid bf_filter_enabled
        vlan_filter_enabled buff st).2 =
      some (rx_steer loc2 (rx_eligible_mask (st.s.pfq_groups gid) m1.fanout.class_mask)
        m1.fanout.hash).2) ∧
    (pfq_receive_route cfg sk_run_filter pfq_run cpu gid bf_filter_enabled
      vlan_filter_enabled buff st).1.loc.consistent := by
  have hdrop : is_drop m1.fanout = false := by simp [is_drop, hsteer]
  have hst : is_steering m1.fanout = true := by simp [is_steering, hsteer]
  obtain ⟨h2, hloc, -⟩ := pfq_receive_route_program cfg sk_run_filter pfq_run cpu gid
    bf_filter_enabled vlan_filter_enabled buff st hmap hbpf hvlan hprg buff1 m1 hrun hdrop
  rw [if_pos hst] at h2 hloc
  have hE := rx_eligible_mask_lt (st.s.pfq_groups gid) m1.fanout.class_mask hlong
  obtain ⟨hs1, hs2⟩ := rx_steer_spec st.loc _ m1.fanout.hash hcons hE
  refine ⟨rx_eligible_mask_testBit _ _, ?_, ?_, ?_, ?_⟩
  · intro hne
    obtain ⟨i, hi, hv, hb, hr⟩ := hs1 hne
    exact ⟨i, hi, by rw [h2, hv], hb, hr⟩
  · intro h0
    rw [h2, hs2 h0]
  · intro loc2 hc2
    rw [h2, rx_steer_unique st.loc loc2 _ _ hcons hc2 hE]
  · rw [hloc]
    exact (rx_steer_consistent st.loc _ _ hcons).1

/-- Witness for C3: three eligible sockets and the hash 7. -/
theorem pfq_receive_steer_one_socket_witness :
    (pfq_receive_route specConfig (fun _ _ => true) (example_run 7 fanout_type.fanout_steer)
      0 2 false false example_buff (example_pass example_rx_state)).1.loc.consistent :=
  (pfq_receive_steer_one_socket specConfig (fun _ _ => true)
    (example_run 7 fanout_type.fanout_steer) 0 2 false false example_buff
    (example_pass example_rx_state) (by decide) (fun h => Bool.noConfusion h)
    (fun h => Bool.noConfusion h) (by decide) example_buff
    (example_run 7 fanout_type.fanout_steer 77 example_buff
      (rx_monad_setup specConfig 2 (example_pass example_rx_state).monad)).2
    rfl rfl initial_local_consistent example_rx_state_long).2.2.2.2

/-- C4: a frame that the program of a group returns with a fanout that is
neither drop nor steer has as `sock_mask` the union of the class masks of the
group over the classes of the monad's `class_mask`; when the frame loop
records it, bit `n` is set in the `sock_queue` entry of each of these sockets. -/
theorem pfq_receive_copy_fanout (cfg : Config) (sk_run_filter : Nat → gc_buff → Bool)
    (pfq_run : Nat → gc_buff → pfq_monad → Option gc_buff × pfq_monad)
    (cpu gid : Nat) (bf_filter_enabled vlan_filter_enabled : Bool) (n : Nat) (hn : n < 64)
    (buff : gc_buff) (st : rx_pass)
    (hmap : buff.cb.group_mask &&& (1 <<< gid) ≠ 0)
    (hbpf : bf_filter_enabled = true → (st.s.pfq_groups gid).bp_filter ≠ 0 →
      sk_run_filter (st.s.pfq_groups gid).bp_filter buff = true)
    (hvlan : vlan_filter_enabled = true →
      __pfq_check_group_vlan_filter cfg st.s gid
        (buff.vlan_tci &&& ((U32 - 1) ^^^ VLAN_TAG_PRESENT)) = true)
    (hprg : (st.s.pfq_groups gid).comp ≠ 0)
    (buff1 : gc_buff) (m1 : pfq_monad)
    (hrun : pfq_run (st.s.pfq_groups gid).comp buff (rx_monad_setup cfg gid st.monad) =
      (some buff1, m1))
    (hdrop : is_drop m1.fanout = false) (hsteer : is_steering m1.fanout = false) :
    ∃ sock_mask : Nat,
      (pfq_receive_route cfg sk_run_filter pfq_run cpu gid bf_filter_enabled
        vlan_filter_enabled buff st).2 = some sock_mask ∧
      (∀ j, sock_mask.testBit j = true ↔
        ∃ c, c < 64 ∧ m1.fanout.class_mask.testBit c = true ∧
          ((st.s.pfq_groups gid).sock_mask c).testBit j = true) ∧
      ∀ st1, pfq_receive_frame cfg sk_run_filter pfq_run cpu gid bf_filter_enabled
          vlan_filter_enabled n buff st = some st1 →
        st1.socket_mask = st.socket_mask ||| sock_mask ∧
        ∀ j, j < 64 → sock_mask.testBit j = true →
          (st1.sock_queue.getD j 0).testBit n = true := by
  obtain ⟨h2, -, -⟩ := pfq_receive_route_program cfg sk_run_filter pfq_run cpu gid
    bf_filter_enabled vlan_filter_enabled buff st hmap hbpf hvlan hprg buff1 m1 hrun hdrop
  rw [if_neg (by simp [hsteer])] at h2
  refine ⟨_, h2, rx_eligible_mask_testBit _ _, ?_⟩
  intro st1 hframe
  obtain ⟨-, hsm, hsq⟩ := pfq_receive_frame_routed cfg sk_run_filter pfq_run cpu gid
    bf_filter_enabled vlan_filter_enabled n hn buff st _ h2 st1 hframe
  exact ⟨hsm, fun j hj hb => (hsq j hj hb).2⟩

/-- Witness for C4: the same frame with the copy fanout. -/
theorem pfq_receive_copy_fanout_witness :
    ∃ sock_mask : Nat,
      (pfq_receive_route specConfig (fun _ _ => true) (example_run 7 fanout_type.fanout_copy)
        0 2 false false example_buff (example_pass example_rx_state)).2 = some sock_mask := by
  obtain ⟨m, hm, _⟩ := pfq_receive_copy_fanout specConfig (fun _ _ => true)
    (example_run 7 fanout_type.fanout_copy) 0 2 false false 3 (by decide) example_buff
    (example_pass example_rx_state) (by decide) (fun h => Bool.noConfusion h)
    (fun h => Bool.noConfusion h) (by decide) example_buff
    (example_run 7 fanout_type.fanout_copy 77 example_buff
      (rx_monad_setup specConfig 2 (example_pass example_rx_state).monad)).2
    rfl rfl rfl
  exact ⟨m, hm⟩

/-- C5: in a group without a program, a frame that is mapped to the group and
passes its BPF and VLAN filters is appended to `refs` and has the class mask of
class 0 as its `sock_mask`; when the frame loop records it, bit `n` is set in
the `sock_queue` entry of each member of class 0. -/
theorem pfq_receive_no_program (cfg : Config) (sk_run_filter : Nat → gc_buff → Bool)
    (pfq_run : Nat → gc_buff → pfq_monad → Option gc_buff × pfq_monad)
    (cpu gid : Nat) (bf_filter_enabled vlan_filter_enabled : Bool) (n : Nat) (hn : n < 64)
    (buff : gc_buff) (st : rx_pass)
    (hmap : buff.cb.group_mask &&& (1 <<< gid) ≠ 0)
    (hbpf : bf_filter_enabled = true → (st.s.pfq_groups gid).bp_filter ≠ 0 →
      sk_run_filter (st.s.pfq_groups gid).bp_filter buff = true)
    (hvlan : vlan_filter_enabled = true →
      __pfq_check_group_vlan_filter cfg st.s gid
        (buff.vlan_tci &&& ((U32 - 1) ^^^ VLAN_TAG_PRESENT)) = true)
    (hprg : (st.s.pfq_groups gid).comp = 0) :
    (pfq_receive_route cfg sk_run_filter pfq_run cpu gid bf_filter_enabled
      vlan_filter_enabled buff st).1.refs = st.refs ++ [buff] ∧
    (pfq_receive_route cfg sk_run_filter pfq_run cpu gid bf_filter_enabled
      vlan_filter_enabled buff st).2 = some ((st.s.pfq_groups gid).sock_mask 0) ∧
    ∀ st1, pfq_receive_frame cfg sk_run_filter pfq_run cpu gid bf_filter_enabled
        vlan_filter_enabled n buff st = some st1 →
      st1.refs = st.refs ++ [buff] ∧
      st1.socket_mask = st.socket_mask ||| (st.s.pfq_groups gid).sock_mask 0 ∧
      ∀ j, j < 64 → ((st.s.pfq_groups gid).sock_mask 0).testBit j = true →
        (st1.sock_queue.getD j 0).testBit n = true := by
  obtain ⟨h2, hrefs⟩ := pfq_receive_route_no_program cfg sk_run_filter pfq_run cpu gid
    bf_filter_enabled vlan_filter_enabled buff st hmap hbpf hvlan hprg
  refine ⟨hrefs, h2, ?_⟩
  intro st1 hframe
  obtain ⟨hr, hsm, hsq⟩ := pfq_receive_frame_routed cfg sk_run_filter pfq_run cpu gid
    bf_filter_enabled vlan_filter_enabled n hn buff st _ h2 st1 hframe
  exact ⟨by rw [hr, hrefs], hsm, fun j hj hb => (hsq j hj hb).2⟩

/-- Witness for C5: group 3 of `example_state` has no program. -/
theorem pfq_receive_no_program_witness :
    (pfq_receive_route specConfig (fun _ _ => true) (example_run 7 fanout_type.fanout_copy)
      0 3 false false { example_buff with cb := { example_buff.cb with group_mask := 8 } }
      (example_pass example_state)).2 = some ((example_state.pfq_groups 3).sock_mask 0) :=
  (pfq_receive_no_program specConfig (fun _ _ => true)
    (example_run 7 fanout_type.fanout_copy) 0 3 false false 0 (by decide)
    { example_buff with cb := { example_buff.cb with group_mask := 8 } }
    (example_pass example_state) (by decide) (fun h => Bool.noConfusion h)
    (fun h => Bool.noConfusion h) (by decide)).2.1

/-! ### Group table -/

theorem __pfq_has_joined_group_iff (cfg : Config) (s : State) {gid : Int}
    (hgid : 0 ≤ gid ∧ gid < cfg.Q_MAX_GROUP) {id : Nat} (hid : id < 64) :
    __pfq_has_joined_group cfg s gid id = true ↔
      ∃ c, c < cfg.Q_CLASS_MAX ∧ ((s.pfq_groups gid.toNat).sock_mask c).testBit id = true := by
  unfold __pfq_has_joined_group __pfq_get_all_groups_mask
  rw [pfq_get_group_valid cfg s hgid, and_bit64_ne_zero _ hid]
  simp only
  rw [foldl_or_testBit]
  simp

theorem __pfq_group_access_create_iff (cfg : Config) (hd : cfg.policies_distinct) (tgid : Int)
    (s : State) {gid : Int} (hgid : 0 ≤ gid ∧ gid < cfg.Q_MAX_GROUP) {id : Nat} (hid : id < 64)
    (policy : Int) :
    __pfq_group_access cfg tgid s gid id policy true = true ↔
      ((s.pfq_groups gid.toNat).policy = cfg.Q_POLICY_GROUP_PRIVATE ∧
          ∃ c, c < cfg.Q_CLASS_MAX ∧
            ((s.pfq_groups gid.toNat).sock_mask c).testBit id = true) ∨
        ((s.pfq_groups gid.toNat).policy = cfg.Q_POLICY_GROUP_RESTRICTED ∧
          policy = cfg.Q_POLICY_GROUP_RESTRICTED ∧ (s.pfq_groups gid.toNat).pid = tgid) ∨
        ((s.pfq_groups gid.toNat).policy = cfg.Q_POLICY_GROUP_SHARED ∧
          policy = cfg.Q_POLICY_GROUP_SHARED) ∨
        (s.pfq_groups gid.toNat).policy = cfg.Q_POLICY_GROUP_UNDEFINED := by
  obtain ⟨h1, h2, h3, h4, h5, h6⟩ := hd
  unfold __pfq_group_access
  rw [pfq_get_group_valid cfg s hgid]
  simp only
  split_ifs with hp hr hs hu
  · rw [__pfq_has_joined_group_iff cfg s hgid hid]
    simp only [hp, true_and]
    constructor
    · exact Or.inl
    · rintro (h | ⟨h, _⟩ | ⟨h, _⟩ | h)
      · exact h
      · exact absurd h h4
      · exact absurd h h5
      · exact absurd h.symm h1
  · simp only [hr]
    constructor
    · intro h
      simp at h
      exact Or.inr (Or.inl ⟨trivial, h.1, h.2⟩)
    · rintro (⟨h, _⟩ | ⟨_, hq, hpid⟩ | ⟨h, _⟩ | h)
      · exact absurd h.symm h4
      · simp [hq, hpid]
      · exact absurd h h6
      · exact absurd h.symm h2
  · simp only [hs]
    constructor
    · intro h
      simp at h
      exact Or.inr (Or.inr (Or.inl ⟨trivial, h⟩))
    · rintro (⟨h, _⟩ | ⟨h, _⟩ | ⟨_, hq⟩ | h)
      · exact absurd h.symm h5
      · exact absurd h.symm h6
      · simp [hq]
      · exact absurd h.symm h3
  · simp only [hu]
    simp
  · simp only [false_iff, Bool.false_eq_true]
    rintro (⟨h, _⟩ | ⟨h, _⟩ | ⟨h, _⟩ | h)
    · exact hp h
    · exact hr h
    · exact hs h
    · exact hu h

theorem __pfq_join_group_fst_in_use (cfg : Config) (tgid : Int) (s : State) {gid : Int}
    (hgid : 0 ≤ gid ∧ gid < cfg.Q_MAX_GROUP) (id class_mask : Nat) (policy : Int)
    (huse : (s.pfq_groups gid.toNat).pid ≠ 0) :
    (__pfq_join_group cfg tgid gid id class_mask policy s).1 =
      if __pfq_group_access cfg tgid s gid id policy true = true then 0 else -EPERM := by
  unfold __pfq_join_group
  rw [pfq_get_group_valid cfg s hgid]
  simp only [huse, if_false]
  split_ifs <;> simp_all

theorem join_loop_apply (class_mask id : Nat) (m : Nat → Nat) (c : Nat) :
    (pfq_bitwise_foreach class_mask
      (fun m bit =>
        let cls := pfq_ctz bit
        let tmp := m cls
        let tmp := tmp ||| bit64 id
        Function.update m cls tmp) m) c =
      if c < 64 ∧ class_mask.testBit c = true then m c ||| bit64 id else m c := by
  have h := pfq_bitwise_foreach_ctz class_mask
    (fun (m : Nat → Nat) cls => Function.update m cls (m cls ||| bit64 id)) m
  simp only at h ⊢
  rw [h]
  exact foldl_range_update (fun i => class_mask.testBit i) (fun _ v => v ||| bit64 id) m 64 c

theorem pfq_get_group_set_group (cfg : Config) (s : State) {gid : Int}
    (hgid : 0 ≤ gid ∧ gid < cfg.Q_MAX_GROUP) (g : pfq_group) :
    pfq_get_group cfg (s.set_group gid.toNat g) gid = some g := by
  rw [pfq_get_group_valid cfg _ hgid, set_group_get]

theorem __pfq_group_access_undefined (cfg : Config) (hd : cfg.policies_distinct) (tgid : Int)
    (s : State) {gid : Int} (hgid : 0 ≤ gid ∧ gid < cfg.Q_MAX_GROUP) (id : Nat) (policy : Int)
    (create : Bool)
    (hu : (s.pfq_groups gid.toNat).policy = cfg.Q_POLICY_GROUP_UNDEFINED) :
    __pfq_group_access cfg tgid s gid id policy create = true := by
  obtain ⟨h1, h2, h3, -, -, -⟩ := hd
  unfold __pfq_group_access
  rw [pfq_get_group_valid cfg s hgid]
  simp only [hu]
  rw [if_neg h1, if_neg h2, if_neg h3]
  simp

theorem __pfq_group_init_get (cfg : Config) (tgid : Int) (s : State) {gid : Int}
    (hgid : 0 ≤ gid ∧ gid < cfg.Q_MAX_GROUP) :
    (__pfq_group_init cfg tgid gid s).pfq_groups gid.toNat =
      { s.pfq_groups gid.toNat with
        pid := tgid
        owner := -1
        policy := cfg.Q_POLICY_GROUP_UNDEFINED
        sock_mask := (List.range cfg.Q_CLASS_MAX).foldl
          (fun m i => Function.update m i 0) (s.pfq_groups gid.toNat).sock_mask
        bp_filter := 0
        comp := 0
        comp_ctx := 0
        stats := pfq_group_stats_reset (s.pfq_groups gid.toNat).stats
        context :=
          { counter := (List.range cfg.Q_MAX_COUNTERS).foldl
              (fun c i => Function.update c i (sparse_set 0))
              (s.pfq_groups gid.toNat).context.counter
            persistent := (List.range cfg.Q_MAX_PERSISTENT).foldl
              (fun p i => Function.update p i { locked := false, memory := fun _ => 0 })
              (s.pfq_groups gid.toNat).context.persistent } } := by
  unfold __pfq_group_init
  rw [pfq_get_group_valid cfg s hgid]
  simp only [set_group_get]

theorem __pfq_join_group_free_eq (cfg : Config) (hd : cfg.policies_distinct) (tgid : Int)
    (s : State) {gid : Int} (hgid : 0 ≤ gid ∧ gid < cfg.Q_MAX_GROUP) (id class_mask : Nat)
    (policy : Int) (hfree : (s.pfq_groups gid.toNat).pid = 0) :
    __pfq_join_group cfg tgid gid id class_mask policy s =
      (0, (__pfq_group_init cfg tgid gid s).set_group gid.toNat
        { (__pfq_group_init cfg tgid gid s).pfq_groups gid.toNat with
          sock_mask := pfq_bitwise_foreach class_mask
            (fun m bit =>
              let cls := pfq_ctz bit
              let tmp := m cls
              let tmp := tmp ||| bit64 id
              Function.update m cls tmp)
            ((__pfq_group_init cfg tgid gid s).pfq_groups gid.toNat).sock_mask
          owner := (id : Int)
          policy := policy }) := by
  have hpol : ((__pfq_group_init cfg tgid gid s).pfq_groups gid.toNat).policy =
      cfg.Q_POLICY_GROUP_UNDEFINED := by
    rw [__pfq_group_init_get cfg tgid s hgid]
  have hown : ((__pfq_group_init cfg tgid gid s).pfq_groups gid.toNat).owner = -1 := by
    rw [__pfq_group_init_get cfg tgid s hgid]
  have hacc := __pfq_group_access_undefined cfg hd tgid (__pfq_group_init cfg tgid gid s) hgid
    id policy true hpol
  unfold __pfq_join_group
  rw [pfq_get_group_valid cfg s hgid]
  simp only [hfree, if_true, hacc, not_true_eq_false, if_false, hown, hpol]

theorem __pfq_group_init_frame (cfg : Config) (tgid : Int) (s : State) (gid : Int) :
    (∀ m, m ≠ gid.toNat → (__pfq_group_init cfg tgid gid s).pfq_groups m = s.pfq_groups m) ∧
      (__pfq_group_init cfg tgid gid s).pfq_devmap = s.pfq_devmap ∧
      (__pfq_group_init cfg tgid gid s).trace = s.trace := by
  unfold __pfq_group_init
  cases pfq_get_group cfg s gid with
  | none => simp
  | some g =>
    refine ⟨fun m hm => ?_, rfl, rfl⟩
    simp only
    rw [set_group_get_ne _ hm]

/-- Joining a free group: the return value is 0 and the state on return
differs from the state at the call in group `gid` only, which is freshly
initialised and has `id` as its only member. -/
theorem __pfq_join_group_free_post (cfg : Config) (hd : cfg.policies_distinct)
    (hC : cfg.Q_CLASS_MAX ≤ 64) (tgid : Int) (s : State) {gid : Int}
    (hgid : 0 ≤ gid ∧ gid < cfg.Q_MAX_GROUP) {id : Nat} (hid : id < 64) (class_mask : Nat)
    (policy : Int) (hfree : (s.pfq_groups gid.toNat).pid = 0) :
    ∃ s1 : State, __pfq_join_group cfg tgid gid id class_mask policy s = (0, s1) ∧
      ((s1.pfq_groups gid.toNat).pid = tgid ∧
      (s1.pfq_groups gid.toNat).owner = (id : Int) ∧
      (s1.pfq_groups gid.toNat).policy = policy ∧
      (∀ c, c < cfg.Q_CLASS_MAX →
        (s1.pfq_groups gid.toNat).sock_mask c = if class_mask.testBit c = true then 2 ^ id else 0) ∧
      (s1.pfq_groups gid.toNat).bp_filter = 0 ∧
      (s1.pfq_groups gid.toNat).comp = 0 ∧
      (s1.pfq_groups gid.toNat).comp_ctx = 0 ∧
      (∀ cpu, (s1.pfq_groups gid.toNat).stats.recv cpu = 0 ∧
        (s1.pfq_groups gid.toNat).stats.drop cpu = 0 ∧
        (s1.pfq_groups gid.toNat).stats.frwd cpu = 0 ∧
        (s1.pfq_groups gid.toNat).stats.kern cpu = 0) ∧
      (∀ i, i < cfg.Q_MAX_COUNTERS → ∀ cpu, (s1.pfq_groups gid.toNat).context.counter i cpu = 0) ∧
      (∀ i, i < cfg.Q_MAX_PERSISTENT →
        ((s1.pfq_groups gid.toNat).context.persistent i).locked = false ∧
        ∀ k, ((s1.pfq_groups gid.toNat).context.persistent i).memory k = 0)) ∧
      (∀ m, m ≠ gid.toNat → s1.pfq_groups m = s.pfq_groups m) ∧
      s1.pfq_devmap = s.pfq_devmap ∧ s1.trace = s.trace := by
  have hj := __pfq_join_group_free_eq cfg hd tgid s hgid id class_mask policy hfree
  obtain ⟨hf1, hf2, hf3⟩ := __pfq_group_init_frame cfg tgid s gid
  refine ⟨_, hj, ?_, ?_, ?_, ?_⟩
  · simp only [set_group_get, __pfq_group_init_get cfg tgid s hgid]
    refine ⟨trivial, trivial, trivial, ?_, trivial, trivial, trivial, ?_, ?_, ?_⟩
    · intro c hc
      rw [join_loop_apply, foldl_range_set, if_pos hc, bit64_eq hid]
      have hc64 : c < 64 := by omega
      simp [hc64]
    · intro cpu
      simp [pfq_group_stats_reset, sparse_set]
    · intro i hi cpu
      rw [foldl_range_set, if_pos hi]
      simp [sparse_set]
    · intro i hi
      rw [foldl_range_set, if_pos hi]
      simp
  · intro m hm
    rw [set_group_get_ne _ hm, hf1 m hm]
  · exact hf2
  · exact hf3

theorem pfq_join_free_group_loop_spec (cfg : Config) (tgid : Int) (id class_mask : Nat)
    (policy : Int) (s : State) (k : Nat) :
    ∀ n0, n0 + k ≤ cfg.Q_MAX_GROUP →
      (∀ n, n0 ≤ n → n < n0 + k → (s.pfq_groups n).pid = 0 →
        (∀ m, n0 ≤ m → m < n → (s.pfq_groups m).pid ≠ 0) →
        pfq_join_free_group_loop cfg tgid id class_mask policy k n0 s =
          some ((n : Int), (__pfq_join_group cfg tgid n id class_mask policy s).2)) ∧
      ((∀ n, n0 ≤ n → n < n0 + k → (s.pfq_groups n).pid ≠ 0) →
        pfq_join_free_group_loop cfg tgid id class_mask policy k n0 s = some (-EPERM, s)) := by
  induction k with
  | zero =>
    intro n0 _
    refine ⟨fun n h1 h2 => by omega, fun _ => rfl⟩
  | succ k ih =>
    intro n0 hle
    have hv : (0 : Int) ≤ (n0 : Int) ∧ (n0 : Int) < cfg.Q_MAX_GROUP := by omega
    have hget := pfq_get_group_valid cfg s hv
    rw [Int.toNat_ofNat] at hget
    obtain ⟨ih1, ih2⟩ := ih (n0 + 1) (by omega)
    constructor
    · intro n h1 h2 hfree hbefore
      unfold pfq_join_free_group_loop
      rw [hget]
      by_cases hn : n = n0
      · subst hn
        simp [hfree]
      · have hn0 : (s.pfq_groups n0).pid ≠ 0 := hbefore n0 (le_refl _) (by omega)
        simp only [hn0, if_false]
        exact ih1 n (by omega) (by omega) hfree (fun m hm1 hm2 => hbefore m (by omega) hm2)
    · intro hall
      unfold pfq_join_free_group_loop
      rw [hget]
      have hn0 : (s.pfq_groups n0).pid ≠ 0 := hall n0 (le_refl _) (by omega)
      simp only [hn0, if_false]
      exact ih2 (fun n h1 h2 => hall n (by omega) (by omega))

theorem leave_loop_apply (n id : Nat) (m : Nat → Nat) (c : Nat) :
    ((List.range n).foldl
      (fun m i =>
        let tmp := m i
        let tmp := tmp &&& not64 (bit64 id)
        Function.update m i tmp) m) c =
      if c < n then m c &&& not64 (bit64 id) else m c :=
  foldl_range_map (fun v => v &&& not64 (bit64 id)) m n c

theorem __pfq_group_is_empty_iff (cfg : Config) (s : State) {gid : Int}
    (hgid : 0 ≤ gid ∧ gid < cfg.Q_MAX_GROUP) :
    __pfq_group_is_empty cfg s gid = true ↔
      ∀ c, c < cfg.Q_CLASS_MAX → (s.pfq_groups gid.toNat).sock_mask c = 0 := by
  unfold __pfq_group_is_empty __pfq_get_all_groups_mask
  rw [pfq_get_group_valid cfg s hgid]
  simp only [beq_iff_eq]
  exact foldl_or_eq_zero _ _

theorem __pfq_group_free_post (cfg : Config) (s : State) {gid : Int}
    (hgid : 0 ≤ gid ∧ gid < cfg.Q_MAX_GROUP) :
    (__pfq_group_free cfg gid s).pfq_groups gid.toNat =
        { s.pfq_groups gid.toNat with
          pid := 0
          owner := -1
          policy := cfg.Q_POLICY_GROUP_UNDEFINED
          bp_filter := 0
          comp := 0
          comp_ctx := 0
          vlan_filt := false } ∧
      (∀ m, m ≠ gid.toNat → (__pfq_group_free cfg gid s).pfq_groups m = s.pfq_groups m) ∧
      (∀ dev queue, (__pfq_group_free cfg gid s).pfq_devmap dev queue =
        s.pfq_devmap dev queue &&& not64 (bit64 gid.toNat)) := by
  unfold __pfq_group_free
  rw [pfq_get_group_valid cfg s hgid]
  refine ⟨?_, ?_, ?_⟩
  · simp [State.set_group, pfq_devmap_reset]
  · intro m hm
    simp [State.set_group, pfq_devmap_reset, Function.update_noteq hm]
  · intro dev queue
    simp [State.set_group, pfq_devmap_reset]

/-- C6: on a valid, in-use group `pfq_join_group` returns 0 exactly when the
group's current policy admits the request (private: `id` is already a member;
restricted: the requested policy is restricted and the creator is the caller;
shared: the requested policy is shared; undefined: always), and `-EPERM`
otherwise. -/
theorem pfq_join_group_access_rule (cfg : Config) (hd : cfg.policies_distinct)
    (hS : cfg.Q_MAX_ID ≤ 64) (tgid : Int) (s : State) (gid : Int)
    (hgid : 0 ≤ gid ∧ gid < cfg.Q_MAX_GROUP) (id : Nat) (hid : id < cfg.Q_MAX_ID)
    (class_mask : Nat) (policy : Int) (huse : (s.pfq_groups gid.toNat).pid ≠ 0) :
    ((pfq_join_group cfg tgid gid id class_mask policy s).1 = 0 ↔
      ((s.pfq_groups gid.toNat).policy = cfg.Q_POLICY_GROUP_PRIVATE ∧
          ∃ c, c < cfg.Q_CLASS_MAX ∧
            ((s.pfq_groups gid.toNat).sock_mask c).testBit id = true) ∨
        ((s.pfq_groups gid.toNat).policy = cfg.Q_POLICY_GROUP_RESTRICTED ∧
          policy = cfg.Q_POLICY_GROUP_RESTRICTED ∧ (s.pfq_groups gid.toNat).pid = tgid) ∨
        ((s.pfq_groups gid.toNat).policy = cfg.Q_POLICY_GROUP_SHARED ∧
          policy = cfg.Q_POLICY_GROUP_SHARED) ∨
        (s.pfq_groups gid.toNat).policy = cfg.Q_POLICY_GROUP_UNDEFINED) ∧
    ((pfq_join_group cfg tgid gid id class_mask policy s).1 = 0 ∨
      (pfq_join_group cfg tgid gid id class_mask policy s).1 = -EPERM) := by
  have hid64 : id < 64 := by omega
  have hret : (pfq_join_group cfg tgid gid id class_mask policy s).1 =
      if __pfq_group_access cfg tgid s gid id policy true = true then 0 else -EPERM := by
    unfold pfq_join_group
    rw [pfq_get_group_valid cfg s hgid]
    exact __pfq_join_group_fst_in_use cfg tgid s hgid id class_mask policy huse
  rw [hret, ← __pfq_group_access_create_iff cfg hd tgid s hgid hid64 policy]
  have hE : -EPERM ≠ 0 := by decide
  constructor
  · split_ifs with h
    · simp [h]
    · simp [h, hE]
  · split_ifs with h
    · exact Or.inl rfl
    · exact Or.inr rfl

/-- Witness for C6: process 101 asks to join the restricted group 3 of process 100. -/
theorem pfq_join_group_access_rule_witness :
    (pfq_join_group specConfig 101 3 6 2 2 example_state).1 = 0 ∨
      (pfq_join_group specConfig 101 3 6 2 2 example_state).1 = -EPERM :=
  (pfq_join_group_access_rule specConfig (by decide) (by decide) 101 example_state 3
    (by decide) 6 (by decide) 2 2 (by decide)).2

/-- C7: joining a free group succeeds and leaves the group freshly initialised:
creator `tgid`, owner `id`, the requested policy, class masks holding exactly
bit `id` for the classes of `class_mask` and zero elsewhere, no filter, program
or context, and zeroed statistics, counters and persistent slots. -/
theorem pfq_join_group_free_reinit (cfg : Config) (hd : cfg.policies_distinct)
    (hC : cfg.Q_CLASS_MAX ≤ 64) (hS : cfg.Q_MAX_ID ≤ 64) (tgid : Int) (_htgid : tgid ≠ 0)
    (s : State) (gid : Int) (hgid : 0 ≤ gid ∧ gid < cfg.Q_MAX_GROUP) (id : Nat)
    (hid : id < cfg.Q_MAX_ID) (class_mask : Nat) (_hcm : class_mask < 2 ^ cfg.Q_CLASS_MAX)
    (policy : Int) (hfree : (s.pfq_groups gid.toNat).pid = 0) :
    ∃ s1 : State, pfq_join_group cfg tgid gid id class_mask policy s = (0, s1) ∧
      (s1.pfq_groups gid.toNat).pid = tgid ∧
      (s1.pfq_groups gid.toNat).owner = (id : Int) ∧
      (s1.pfq_groups gid.toNat).policy = policy ∧
      (∀ c, c < cfg.Q_CLASS_MAX →
        (s1.pfq_groups gid.toNat).sock_mask c = if class_mask.testBit c = true then 2 ^ id else 0) ∧
      (s1.pfq_groups gid.toNat).bp_filter = 0 ∧
      (s1.pfq_groups gid.toNat).comp = 0 ∧
      (s1.pfq_groups gid.toNat).comp_ctx = 0 ∧
      (∀ cpu, (s1.pfq_groups gid.toNat).stats.recv cpu = 0 ∧
        (s1.pfq_groups gid.toNat).stats.drop cpu = 0 ∧
        (s1.pfq_groups gid.toNat).stats.frwd cpu = 0 ∧
        (s1.pfq_groups gid.toNat).stats.kern cpu = 0) ∧
      (∀ i, i < cfg.Q_MAX_COUNTERS → ∀ cpu, (s1.pfq_groups gid.toNat).context.counter i cpu = 0) ∧
      (∀ i, i < cfg.Q_MAX_PERSISTENT →
        ((s1.pfq_groups gid.toNat).context.persistent i).locked = false ∧
        ∀ k, ((s1.pfq_groups gid.toNat).context.persistent i).memory k = 0) := by
  have hid64 : id < 64 := by omega
  have hw : pfq_join_group cfg tgid gid id class_mask policy s =
      __pfq_join_group cfg tgid gid id class_mask policy s := by
    unfold pfq_join_group
    rw [pfq_get_group_valid cfg s hgid]
  obtain ⟨s1, hs1, hprops, -, -, -⟩ :=
    __pfq_join_group_free_post cfg hd hC tgid s hgid hid64 class_mask policy hfree
  exact ⟨s1, by rw [hw, hs1], hprops⟩

/-- Witness for C7: process 100 joins the free group 3 of the initial table. -/
theorem pfq_join_group_free_reinit_witness :
    ∃ s1 : State, pfq_join_group specConfig 100 3 5 5 2 initial_state = (0, s1) ∧
      (s1.pfq_groups 3).pid = 100 ∧ (s1.pfq_groups 3).owner = 5 := by
  obtain ⟨s1, h, hpid, hown, _⟩ := pfq_join_group_free_reinit specConfig (by decide) (by decide)
    (by decide) 100 (by decide) initial_state 3 (by decide) 5 (by decide) 5 (by decide) 2
    (by decide)
  exact ⟨s1, h, hpid, hown⟩

/-- C8: when `pfq_join_group` returns an error the state on return is the state
at the call; the error is `-EINVAL` for a `gid` outside the table and `-EPERM`
otherwise. -/
theorem pfq_join_group_fail_unchanged (cfg : Config) (hd : cfg.policies_distinct) (tgid : Int)
    (s : State) (gid : Int) (id class_mask : Nat) (policy : Int)
    (hfail : (pfq_join_group cfg tgid gid id class_mask policy s).1 ≠ 0) :
    (pfq_join_group cfg tgid gid id class_mask policy s).2 = s ∧
      ((¬ (0 ≤ gid ∧ gid < cfg.Q_MAX_GROUP) ∧
          (pfq_join_group cfg tgid gid id class_mask policy s).1 = -EINVAL) ∨
        ((0 ≤ gid ∧ gid < cfg.Q_MAX_GROUP) ∧
          (pfq_join_group cfg tgid gid id class_mask policy s).1 = -EPERM)) := by
  by_cases hgid : 0 ≤ gid ∧ gid < cfg.Q_MAX_GROUP
  · have hj : pfq_join_group cfg tgid gid id class_mask policy s =
        __pfq_join_group cfg tgid gid id class_mask policy s := by
      unfold pfq_join_group
      rw [pfq_get_group_valid cfg s hgid]
    rw [hj] at hfail ⊢
    by_cases hfree : (s.pfq_groups gid.toNat).pid = 0
    · rw [__pfq_join_group_free_eq cfg hd tgid s hgid id class_mask policy hfree] at hfail
      exact absurd rfl hfail
    · unfold __pfq_join_group at hfail ⊢
      rw [pfq_get_group_valid cfg s hgid] at hfail ⊢
      simp only [hfree, if_false] at hfail ⊢
      by_cases hacc : __pfq_group_access cfg tgid s gid id policy true = true
      · simp [hacc] at hfail
      · simp [hacc, hgid]
  · have hj : pfq_join_group cfg tgid gid id class_mask policy s = (-EINVAL, s) := by
      unfold pfq_join_group
      rw [pfq_get_group_invalid cfg s hgid]
    rw [hj]
    exact ⟨rfl, Or.inl ⟨hgid, rfl⟩⟩

/-- Witness for C8: the refused join of process 101 leaves the state as it was. -/
theorem pfq_join_group_fail_unchanged_witness :
    (pfq_join_group specConfig 101 3 6 2 2 example_state).2 = example_state :=
  (pfq_join_group_fail_unchanged specConfig (by decide) 101 example_state 3 6 2 2
    (by decide)).1

/-- C9: `pfq_join_free_group` returns the smallest index of a free group and
joins it: afterwards `id` owns that group and is a member of every class of
`class_mask`, every other group is unchanged and those before it are in use.
When no group is free it returns `-EPERM` and the state is unchanged. -/
theorem pfq_join_free_group_first_free (cfg : Config) (hd : cfg.policies_distinct)
    (hGS : cfg.Q_MAX_ID = cfg.Q_MAX_GROUP) (hC : cfg.Q_CLASS_MAX ≤ 64) (hS : cfg.Q_MAX_ID ≤ 64)
    (tgid : Int) (s : State) (id : Nat) (hid : id < cfg.Q_MAX_ID) (class_mask : Nat)
    (policy : Int) :
    (∀ n, n < cfg.Q_MAX_GROUP → (s.pfq_groups n).pid = 0 →
      (∀ m, m < n → (s.pfq_groups m).pid ≠ 0) →
      ∃ s1 : State, pfq_join_free_group cfg tgid id class_mask policy s = some ((n : Int), s1) ∧
        (s1.pfq_groups n).owner = (id : Int) ∧
        (∀ c, c < cfg.Q_CLASS_MAX → class_mask.testBit c = true →
          ((s1.pfq_groups n).sock_mask c).testBit id = true) ∧
        (∀ m, m ≠ n → s1.pfq_groups m = s.pfq_groups m) ∧
        (∀ m, m < n → (s1.pfq_groups m).pid ≠ 0)) ∧
    ((∀ n, n < cfg.Q_MAX_GROUP → (s.pfq_groups n).pid ≠ 0) →
      pfq_join_free_group cfg tgid id class_mask policy s = some (-EPERM, s)) := by
  have hid64 : id < 64 := by omega
  obtain ⟨h1, h2⟩ := pfq_join_free_group_loop_spec cfg tgid id class_mask policy s cfg.Q_MAX_ID 0
    (by omega)
  constructor
  · intro n hn hfree hbefore
    have hv : (0 : Int) ≤ (n : Int) ∧ (n : Int) < cfg.Q_MAX_GROUP := by omega
    have hfree2 : (s.pfq_groups (n : Int).toNat).pid = 0 := by
      rw [Int.toNat_ofNat]
      exact hfree
    obtain ⟨s1, hs1, ⟨-, hown, -, hmask, -⟩, hothers, -, -⟩ :=
      __pfq_join_group_free_post cfg hd hC tgid s hv hid64 class_mask policy hfree2
    rw [Int.toNat_ofNat] at hown hmask hothers
    refine ⟨s1, ?_, hown, ?_, hothers, ?_⟩
    · unfold pfq_join_free_group
      rw [h1 n (Nat.zero_le _) (by omega) hfree (fun m _ hm => hbefore m hm), hs1]
    · intro c hc hbit
      rw [hmask c hc, if_pos hbit]
      exact Nat.testBit_two_pow_self
    · intro m hm
      rw [hothers m (by omega)]
      exact hbefore m hm
  · intro hall
    unfold pfq_join_free_group
    exact h2 (fun n _ hn => hall n (by omega))

/-- Witness for C9: in `example_state` group 0 is the first free group. -/
theorem pfq_join_free_group_first_free_witness :
    ∃ s1 : State, pfq_join_free_group specConfig 100 7 1 3 example_state = some (0, s1) ∧
      (s1.pfq_groups 0).owner = 7 := by
  obtain ⟨s1, h, hown, _⟩ := (pfq_join_free_group_first_free specConfig (by decide) (by decide)
    (by decide) (by decide) 100 example_state 7 (by decide) 1 3).1 0 (by decide) (by decide)
    (fun m hm => absurd hm (Nat.not_lt_zero m))
  exact ⟨s1, h, hown⟩

/-- C10: on a valid, in-use group `pfq_leave_group` returns 0, clears bit `id`
in every class mask and keeps the other bits and the other groups; when a class
mask is still non-zero the creator, owner, policy, filter and program of the
group (and the device map) are unchanged, and when all class masks are zero the
group is freed and `gid` is cleared from every entry of the device map. -/
theorem pfq_leave_group_effect (cfg : Config) (hG : cfg.Q_MAX_GROUP ≤ 64)
    (hS : cfg.Q_MAX_ID ≤ 64) (s : State) (gid : Int)
    (hgid : 0 ≤ gid ∧ gid < cfg.Q_MAX_GROUP) (id : Nat) (hid : id < cfg.Q_MAX_ID)
    (huse : (s.pfq_groups gid.toNat).pid ≠ 0) :
    ∃ s1 : State, pfq_leave_group cfg gid id s = (0, s1) ∧
      (∀ c, c < cfg.Q_CLASS_MAX → ∀ j, j < 64 →
        ((s1.pfq_groups gid.toNat).sock_mask c).testBit j =
          (((s.pfq_groups gid.toNat).sock_mask c).testBit j && !decide (j = id))) ∧
      (∀ m, m ≠ gid.toNat → s1.pfq_groups m = s.pfq_groups m) ∧
      ((∃ c, c < cfg.Q_CLASS_MAX ∧ (s1.pfq_groups gid.toNat).sock_mask c ≠ 0) →
        (s1.pfq_groups gid.toNat).pid = (s.pfq_groups gid.toNat).pid ∧
        (s1.pfq_groups gid.toNat).owner = (s.pfq_groups gid.toNat).owner ∧
        (s1.pfq_groups gid.toNat).policy = (s.pfq_groups gid.toNat).policy ∧
        (s1.pfq_groups gid.toNat).bp_filter = (s.pfq_groups gid.toNat).bp_filter ∧
        (s1.pfq_groups gid.toNat).comp = (s.pfq_groups gid.toNat).comp ∧
        (s1.pfq_groups gid.toNat).comp_ctx = (s.pfq_groups gid.toNat).comp_ctx ∧
        (s1.pfq_groups gid.toNat).vlan_filt = (s.pfq_groups gid.toNat).vlan_filt ∧
        s1.pfq_devmap = s.pfq_devmap ∧ s1.trace = s.trace) ∧
      ((∀ c, c < cfg.Q_CLASS_MAX → (s1.pfq_groups gid.toNat).sock_mask c = 0) →
        (s1.pfq_groups gid.toNat).pid = 0 ∧
        (s1.pfq_groups gid.toNat).owner = -1 ∧
        (s1.pfq_groups gid.toNat).policy = cfg.Q_POLICY_GROUP_UNDEFINED ∧
        (s1.pfq_groups gid.toNat).bp_filter = 0 ∧
        (s1.pfq_groups gid.toNat).comp = 0 ∧
        (s1.pfq_groups gid.toNat).comp_ctx = 0 ∧
        (s1.pfq_groups gid.toNat).vlan_filt = false ∧
        ∀ dev queue, (s1.pfq_devmap dev queue).testBit gid.toNat = false ∧
          ∀ j, j < 64 → j ≠ gid.toNat →
            (s1.pfq_devmap dev queue).testBit j = (s.pfq_devmap dev queue).testBit j) := by
  have hid64 : id < 64 := by omega
  have hgid64 : gid.toNat < 64 := by omega
  -- the state after the loop over the classes
  obtain ⟨sa, hsa⟩ : ∃ sa : State, sa = s.set_group gid.toNat
      { s.pfq_groups gid.toNat with
        sock_mask := (List.range cfg.Q_CLASS_MAX).foldl
          (fun m i =>
            let tmp := m i
            let tmp := tmp &&& not64 (bit64 id)
            Function.update m i tmp)
          (s.pfq_groups gid.toNat).sock_mask } := ⟨_, rfl⟩
  have hsa_g : sa.pfq_groups gid.toNat =
      { s.pfq_groups gid.toNat with
        sock_mask := (List.range cfg.Q_CLASS_MAX).foldl
          (fun m i =>
            let tmp := m i
            let tmp := tmp &&& not64 (bit64 id)
            Function.update m i tmp)
          (s.pfq_groups gid.toNat).sock_mask } := by
    rw [hsa, set_group_get]
  have hsa_o : ∀ m, m ≠ gid.toNat → sa.pfq_groups m = s.pfq_groups m := by
    intro m hm
    rw [hsa, set_group_get_ne _ hm]
  have hsa_d : sa.pfq_devmap = s.pfq_devmap := by rw [hsa]; rfl
  have hsa_t : sa.trace = s.trace := by rw [hsa]; rfl
  have hbits : ∀ c, c < cfg.Q_CLASS_MAX → ∀ j, j < 64 →
      ((sa.pfq_groups gid.toNat).sock_mask c).testBit j =
        (((s.pfq_groups gid.toNat).sock_mask c).testBit j && !decide (j = id)) := by
    intro c hc j hj
    rw [hsa_g]
    simp only
    rw [leave_loop_apply, if_pos hc, testBit_and_not64_bit64 _ hid64]
    simp [hj]
  have hret : pfq_leave_group cfg gid id s =
      (0, if __pfq_group_is_empty cfg sa gid = true then __pfq_group_free cfg gid sa else sa) := by
    unfold pfq_leave_group
    rw [pfq_get_group_valid cfg s hgid]
    simp only
    unfold __pfq_leave_group
    rw [pfq_get_group_valid cfg s hgid]
    simp only [huse, if_false, ← hsa]
  by_cases hemp : __pfq_group_is_empty cfg sa gid = true
  · obtain ⟨hf_g, hf_o, hf_d⟩ := __pfq_group_free_post cfg sa hgid
    rw [if_pos hemp] at hret
    refine ⟨_, hret, ?_, ?_, ?_, ?_⟩
    · intro c hc j hj
      rw [hf_g]
      exact hbits c hc j hj
    · intro m hm
      rw [hf_o m hm, hsa_o m hm]
    · rintro ⟨c, hc, hne⟩
      exfalso
      apply hne
      rw [hf_g]
      exact (__pfq_group_is_empty_iff cfg sa hgid).1 hemp c hc
    · intro _
      rw [hf_g]
      refine ⟨rfl, rfl, rfl, rfl, rfl, rfl, rfl, ?_⟩
      intro dev queue
      rw [hf_d, hsa_d]
      constructor
      · rw [testBit_and_not64_bit64 _ hgid64]
        simp
      · intro j hj hne
        rw [testBit_and_not64_bit64 _ hgid64]
        simp [hj, hne]
  · rw [if_neg hemp] at hret
    refine ⟨_, hret, hbits, hsa_o, ?_, ?_⟩
    · intro _
      rw [hsa_g]
      exact ⟨rfl, rfl, rfl, rfl, rfl, rfl, rfl, hsa_d, hsa_t⟩
    · intro hall
      exact absurd ((__pfq_group_is_empty_iff cfg sa hgid).2 hall) hemp

/-- Witness for C10: socket 5, the only member, leaves group 3. -/
theorem pfq_leave_group_effect_witness :
    ∃ s1 : State, pfq_leave_group specConfig 3 5 example_state = (0, s1) ∧
      ∀ m, m ≠ 3 → s1.pfq_groups m = example_state.pfq_groups m := by
  obtain ⟨s1, h, _, hothers, _⟩ := pfq_leave_group_effect specConfig (by decide) (by decide)
    example_state 3 (by decide) 5 (by decide) (by decide)
  exact ⟨s1, h, hothers⟩

/-! ### Access check -/

theorem set_group_self (s : State) (n : Nat) : s.set_group n (s.pfq_groups n) = s := by
  unfold State.set_group
  rw [Function.update_eq_self]

theorem and_not64_bit64_eq_self (x : Nat) {i : Nat} (hi : i < 64) (hx : x < 2 ^ 64)
    (hb : x.testBit i = false) : x &&& not64 (bit64 i) = x := by
  apply Nat.eq_of_testBit_eq
  intro j
  rw [testBit_and_not64_bit64 _ hi]
  by_cases hj : j < 64
  · by_cases hji : j = i
    · subst hji
      simp [hb]
    · simp [hj, hji]
  · have hlt : x < 2 ^ j := lt_of_lt_of_le hx (Nat.pow_le_pow_right (by norm_num) (by omega))
    rw [Nat.testBit_lt_two_pow hlt]
    simp

theorem pfq_check_group_access_eq (cfg : Config) (s : State) (id : Nat) (gid : Int) :
    pfq_check_group_access cfg id gid s =
      (if ¬ (0 ≤ gid ∧ gid < cfg.Q_MAX_GROUP) then -EINVAL
        else if __pfq_has_joined_group cfg s gid id = false then -EPERM
        else if (s.pfq_groups gid.toNat).owner ≠ (id : Int) then -EACCES
        else 0, s) := by
  by_cases hgid : 0 ≤ gid ∧ gid < cfg.Q_MAX_GROUP
  · have hcg : pfq_check_group cfg id gid = 0 := by
      unfold pfq_check_group
      rw [if_neg (by omega)]
    unfold pfq_check_group_access
    rw [pfq_get_group_valid cfg s hgid]
    by_cases hm : __pfq_has_joined_group cfg s gid id = true <;>
      by_cases ho : (s.pfq_groups gid.toNat).owner = (id : Int) <;>
      simp [hcg, hgid, hm, ho]
  · have hcg : pfq_check_group cfg id gid = -EINVAL := by
      unfold pfq_check_group
      rw [if_pos (by omega)]
    have hE : -EINVAL ≠ (0 : Int) := by decide
    unfold pfq_check_group_access
    rw [if_pos hgid]
    simp only [hcg]
    rw [if_pos hE]

/-- C13: `pfq_check_group_access` returns `-EINVAL` for a `gid` outside the
table, otherwise `-EPERM` when `id` is not a member of the group, otherwise
`-EACCES` when `id` is not the owner, otherwise 0; hence 0 exactly for a valid
`gid` of which `id` is a member and the owner. The state is not modified. -/
theorem pfq_check_group_access_order (cfg : Config) (hS : cfg.Q_MAX_ID ≤ 64) (s : State)
    (id : Nat) (hid : id < cfg.Q_MAX_ID) (gid : Int) :
    (¬ (0 ≤ gid ∧ gid < cfg.Q_MAX_GROUP) → (pfq_check_group_access cfg id gid s).1 = -EINVAL) ∧
    ((0 ≤ gid ∧ gid < cfg.Q_MAX_GROUP) →
      (¬ ∃ c, c < cfg.Q_CLASS_MAX ∧ ((s.pfq_groups gid.toNat).sock_mask c).testBit id = true) →
      (pfq_check_group_access cfg id gid s).1 = -EPERM) ∧
    ((0 ≤ gid ∧ gid < cfg.Q_MAX_GROUP) →
      (∃ c, c < cfg.Q_CLASS_MAX ∧ ((s.pfq_groups gid.toNat).sock_mask c).testBit id = true) →
      (s.pfq_groups gid.toNat).owner ≠ (id : Int) →
      (pfq_check_group_access cfg id gid s).1 = -EACCES) ∧
    ((pfq_check_group_access cfg id gid s).1 = 0 ↔
      (0 ≤ gid ∧ gid < cfg.Q_MAX_GROUP) ∧
      (∃ c, c < cfg.Q_CLASS_MAX ∧ ((s.pfq_groups gid.toNat).sock_mask c).testBit id = true) ∧
      (s.pfq_groups gid.toNat).owner = (id : Int)) ∧
    (pfq_check_group_access cfg id gid s).2 = s := by
  have hid64 : id < 64 := by omega
  have h1 : -EINVAL ≠ (0 : Int) := by decide
  have h2 : -EPERM ≠ (0 : Int) := by decide
  have h3 : -EACCES ≠ (0 : Int) := by decide
  rw [pfq_check_group_access_eq]
  simp only
  by_cases hgid : 0 ≤ gid ∧ gid < cfg.Q_MAX_GROUP
  · have hmem := __pfq_has_joined_group_iff cfg s hgid hid64
    by_cases hm : __pfq_has_joined_group cfg s gid id = true
    · have hex := hmem.1 hm
      by_cases ho : (s.pfq_groups gid.toNat).owner = (id : Int)
      · simp [hgid, hm, hex, ho]
      · simp [hgid, hm, hex, ho, h3]
    · have hnex : ¬ ∃ c, c < cfg.Q_CLASS_MAX ∧
          ((s.pfq_groups gid.toNat).sock_mask c).testBit id = true := fun h => hm (hmem.2 h)
      have hmf : __pfq_has_joined_group cfg s gid id = false := by simpa using hm
      simp [hgid, hmf, hnex, h2]
  · simp only [hgid, not_false_eq_true, if_true, h1, false_and]
    simp

/-- Witness for C13: socket 5 owns group 3 of `example_state`. -/
theorem pfq_check_group_access_order_witness :
    (pfq_check_group_access specConfig 5 3 example_state).2 = example_state :=
  (pfq_check_group_access_order specConfig (by decide) example_state 5 (by decide) 3).2.2.2.2

/-- Counterexample for C12: socket 5 is not a member of the free group 0 of the
initial table, and `pfq_leave_group` returns `-EPERM`, not 0. -/
theorem pfq_leave_group_non_member_counterexample :
    ((0 : Int) ≤ 0 ∧ (0 : Int) < specConfig.Q_MAX_GROUP) ∧
      (∀ c, c < specConfig.Q_CLASS_MAX →
        ((initial_state.pfq_groups 0).sock_mask c).testBit 5 = false) ∧
      (pfq_leave_group specConfig 0 5 initial_state).1 = -EPERM ∧
      (pfq_leave_group specConfig 0 5 initial_state).1 ≠ 0 := by
  decide

/-- C12 (amended): for a valid `gid` and a socket `id` that is not a member of
the group, `pfq_leave_group` returns 0 and leaves the state unchanged when the
group is in use and has a member, and returns `-EPERM` and leaves the state
unchanged when the group is free. -/
theorem pfq_leave_group_non_member (cfg : Config) (hS : cfg.Q_MAX_ID ≤ 64) (s : State)
    (gid : Int) (hgid : 0 ≤ gid ∧ gid < cfg.Q_MAX_GROUP) (id : Nat) (hid : id < cfg.Q_MAX_ID)
    (hlong : ∀ c, c < cfg.Q_CLASS_MAX → (s.pfq_groups gid.toNat).sock_mask c < 2 ^ 64)
    (hnot : ∀ c, c < cfg.Q_CLASS_MAX →
      ((s.pfq_groups gid.toNat).sock_mask c).testBit id = false) :
    ((s.pfq_groups gid.toNat).pid ≠ 0 →
      (∃ c, c < cfg.Q_CLASS_MAX ∧ (s.pfq_groups gid.toNat).sock_mask c ≠ 0) →
      pfq_leave_group cfg gid id s = (0, s)) ∧
    ((s.pfq_groups gid.toNat).pid = 0 → pfq_leave_group cfg gid id s = (-EPERM, s)) := by
  have hid64 : id < 64 := by omega
  have hw : pfq_leave_group cfg gid id s = __pfq_leave_group cfg gid id s := by
    unfold pfq_leave_group
    rw [pfq_get_group_valid cfg s hgid]
  rw [hw]
  constructor
  · intro huse ⟨c, hc, hne⟩
    have hloop : (List.range cfg.Q_CLASS_MAX).foldl
        (fun m i =>
          let tmp := m i
          let tmp := tmp &&& not64 (bit64 id)
          Function.update m i tmp)
        (s.pfq_groups gid.toNat).sock_mask = (s.pfq_groups gid.toNat).sock_mask := by
      funext k
      rw [leave_loop_apply]
      split_ifs with hk
      · exact and_not64_bit64_eq_self _ hid64 (hlong k hk) (hnot k hk)
      · rfl
    have hnemp : __pfq_group_is_empty cfg s gid = false := by
      by_contra h
      have h1 : __pfq_group_is_empty cfg s gid = true := by simpa using h
      exact hne ((__pfq_group_is_empty_iff cfg s hgid).1 h1 c hc)
    have hg : ({ s.pfq_groups gid.toNat with
        sock_mask := (List.range cfg.Q_CLASS_MAX).foldl
          (fun m i =>
            let tmp := m i
            let tmp := tmp &&& not64 (bit64 id)
            Function.update m i tmp)
          (s.pfq_groups gid.toNat).sock_mask } : pfq_group) = s.pfq_groups gid.toNat := by
      rw [hloop]
    unfold __pfq_leave_group
    rw [pfq_get_group_valid cfg s hgid]
    simp only [huse, if_false, hg, set_group_self, hnemp, Bool.false_eq_true]
  · intro hfree
    unfold __pfq_leave_group
    rw [pfq_get_group_valid cfg s hgid]
    simp only [hfree, if_true]

/-- Witness for C12 (amended): socket 6 is not a member of group 3 of
`example_state`, whose only member is socket 5. -/
theorem pfq_leave_group_non_member_witness :
    pfq_leave_group specConfig 3 6 example_state = (0, example_state) :=
  (pfq_leave_group_non_member specConfig (by decide) example_state 3 (by decide) 6 (by decide)
    (by decide) (by decide)).1 (by decide) (by decide)

/-! ### Transitions of the group table -/

theorem or_bit64_ne_zero (x : Nat) {i : Nat} (hi : i < 64) : x ||| bit64 i ≠ 0 := by
  intro h
  have := testBit_or_bit64 x hi i
  rw [h, Nat.zero_testBit] at this
  simp at this

theorem join_loop_ne_zero (class_mask id : Nat) (m : Nat → Nat) (hid : id < 64) {c : Nat}
    (hc : c < 64) (hb : class_mask.testBit c = true) :
    (pfq_bitwise_foreach class_mask
      (fun m bit =>
        let cls := pfq_ctz bit
        let tmp := m cls
        let tmp := tmp ||| bit64 id
        Function.update m cls tmp) m) c ≠ 0 := by
  rw [join_loop_apply, if_pos ⟨hc, hb⟩]
  exact or_bit64_ne_zero _ hid

theorem __pfq_join_group_others (cfg : Config) (tgid : Int) (s : State) (gid : Int)
    (id class_mask : Nat) (policy : Int) (m : Nat) (hm : m ≠ gid.toNat) :
    (__pfq_join_group cfg tgid gid id class_mask policy s).2.pfq_groups m = s.pfq_groups m := by
  have hinit := (__pfq_group_init_frame cfg tgid s gid).1 m hm
  unfold __pfq_join_group
  cases pfq_get_group cfg s gid with
  | none => rfl
  | some g0 =>
    simp only
    by_cases hp : g0.pid = 0
    · simp only [hp, if_true]
      by_cases hacc : __pfq_group_access cfg tgid (__pfq_group_init cfg tgid gid s) gid id policy
          true = true
      · simp only [hacc, not_true_eq_false, if_false, set_group_get_ne _ hm]
        exact hinit
      · simp only [hacc, Bool.false_eq_true, not_false_eq_true, if_true]
        exact hinit
    · simp only [hp, if_false]
      by_cases hacc : __pfq_group_access cfg tgid s gid id policy true = true
      · simp only [hacc, not_true_eq_false, if_false, set_group_get_ne _ hm]
      · simp only [hacc, Bool.false_eq_true, not_false_eq_true, if_true]

/-- The change `__pfq_join_group` makes to the group it names. -/
theorem __pfq_join_group_trans (cfg : Config) (hd : cfg.policies_distinct) (tgid : Int)
    (htgid : tgid ≠ 0) (s : State) {gid : Int} (hgid : 0 ≤ gid ∧ gid < cfg.Q_MAX_GROUP)
    (id class_mask : Nat) (policy : Int) :
    group_trans cfg (id < 64 ∧ ∃ c, c < cfg.Q_CLASS_MAX ∧ c < 64 ∧ class_mask.testBit c = true)
      (s.pfq_groups gid.toNat)
      ((__pfq_join_group cfg tgid gid id class_mask policy s).2.pfq_groups gid.toNat) := by
  by_cases hfree : (s.pfq_groups gid.toNat).pid = 0
  · refine Or.inr (Or.inr (Or.inl ⟨hfree, ?_, ?_⟩))
    · rw [__pfq_join_group_free_eq cfg hd tgid s hgid id class_mask policy hfree]
      simp only [set_group_get, __pfq_group_init_get cfg tgid s hgid]
      exact htgid
    · rintro ⟨hid, c, hc, hc64, hb⟩
      refine ⟨c, hc, ?_⟩
      rw [__pfq_join_group_free_eq cfg hd tgid s hgid id class_mask policy hfree]
      simp only [set_group_get]
      exact join_loop_ne_zero class_mask id _ hid hc64 hb
  · unfold __pfq_join_group
    rw [pfq_get_group_valid cfg s hgid]
    simp only [hfree, if_false]
    by_cases hacc : __pfq_group_access cfg tgid s gid id policy true = true
    · simp only [hacc, not_true_eq_false, if_false, set_group_get]
      refine Or.inr (Or.inr (Or.inr ⟨hfree, ?_, ?_, ?_⟩))
      · split_ifs <;> rfl
      · intro hpol
        split_ifs <;> rfl
      · rintro ⟨hid, c, hc, hc64, hb⟩
        refine ⟨c, hc, ?_⟩
        have := join_loop_ne_zero class_mask id (s.pfq_groups gid.toNat).sock_mask hid hc64 hb
        split_ifs <;> exact this
    · simp only [hacc, Bool.false_eq_true, not_false_eq_true, if_true]
      exact Or.inl rfl

theorem pfq_join_group_trans (cfg : Config) (hd : cfg.policies_distinct) (tgid : Int)
    (htgid : tgid ≠ 0) (s : State) (gid : Int) (id class_mask : Nat) (policy : Int) (m : Nat) :
    group_trans cfg (id < 64 ∧ ∃ c, c < cfg.Q_CLASS_MAX ∧ c < 64 ∧ class_mask.testBit c = true)
      (s.pfq_groups m)
      ((pfq_join_group cfg tgid gid id class_mask policy s).2.pfq_groups m) := by
  unfold pfq_join_group
  by_cases hgid : 0 ≤ gid ∧ gid < cfg.Q_MAX_GROUP
  · rw [pfq_get_group_valid cfg s hgid]
    simp only
    by_cases hm : m = gid.toNat
    · subst hm
      exact __pfq_join_group_trans cfg hd tgid htgid s hgid id class_mask policy
    · rw [__pfq_join_group_others cfg tgid s gid id class_mask policy m hm]
      exact Or.inl rfl
  · rw [pfq_get_group_invalid cfg s hgid]
    exact Or.inl rfl

/-- The result of `__pfq_leave_group` on a group in use. -/
theorem __pfq_leave_group_in_use (cfg : Config) (s : State) {gid : Int}
    (hgid : 0 ≤ gid ∧ gid < cfg.Q_MAX_GROUP) (id : Nat)
    (huse : (s.pfq_groups gid.toNat).pid ≠ 0) :
    __pfq_leave_group cfg gid id s =
      (0,
        if __pfq_group_is_empty cfg
            (s.set_group gid.toNat
              { s.pfq_groups gid.toNat with
                sock_mask := (List.range cfg.Q_CLASS_MAX).foldl
                  (fun m i =>
                    let tmp := m i
                    let tmp := tmp &&& not64 (bit64 id)
                    Function.update m i tmp)
                  (s.pfq_groups gid.toNat).sock_mask }) gid = true then
          __pfq_group_free cfg gid
            (s.set_group gid.toNat
              { s.pfq_groups gid.toNat with
                sock_mask := (List.range cfg.Q_CLASS_MAX).foldl
                  (fun m i =>
                    let tmp := m i
                    let tmp := tmp &&& not64 (bit64 id)
                    Function.update m i tmp)
                  (s.pfq_groups gid.toNat).sock_mask })
        else
          s.set_group gid.toNat
            { s.pfq_groups gid.toNat with
              sock_mask := (List.range cfg.Q_CLASS_MAX).foldl
                (fun m i =>
                  let tmp := m i
                  let tmp := tmp &&& not64 (bit64 id)
                  Function.update m i tmp)
                (s.pfq_groups gid.toNat).sock_mask }) := by
  unfold __pfq_leave_group
  rw [pfq_get_group_valid cfg s hgid]
  simp only [huse, if_false]

theorem __pfq_leave_group_others (cfg : Config) (s : State) (gid : Int) (id : Nat) (m : Nat)
    (hm : m ≠ gid.toNat) :
    (__pfq_leave_group cfg gid id s).2.pfq_groups m = s.pfq_groups m := by
  by_cases hgid : 0 ≤ gid ∧ gid < cfg.Q_MAX_GROUP
  · by_cases huse : (s.pfq_groups gid.toNat).pid = 0
    · unfold __pfq_leave_group
      rw [pfq_get_group_valid cfg s hgid]
      simp only [huse, if_true]
    · rw [__pfq_leave_group_in_use cfg s hgid id huse]
      simp only
      split_ifs
      · rw [(__pfq_group_free_post cfg _ hgid).2.1 m hm, set_group_get_ne _ hm]
      · rw [set_group_get_ne _ hm]
  · unfold __pfq_leave_group
    rw [pfq_get_group_invalid cfg s hgid]

/-- The change `__pfq_leave_group` makes to the group it names. -/
theorem __pfq_leave_group_trans (cfg : Config) (s : State) (gid : Int) (id : Nat) :
    group_trans cfg True (s.pfq_groups gid.toNat)
      ((__pfq_leave_group cfg gid id s).2.pfq_groups gid.toNat) := by
  by_cases hgid : 0 ≤ gid ∧ gid < cfg.Q_MAX_GROUP
  · by_cases huse : (s.pfq_groups gid.toNat).pid = 0
    · unfold __pfq_leave_group
      rw [pfq_get_group_valid cfg s hgid]
      simp only [huse, if_true]
      exact Or.inl rfl
    · rw [__pfq_leave_group_in_use cfg s hgid id huse]
      simp only
      split_ifs with hemp
      · obtain ⟨hf, -, -⟩ := __pfq_group_free_post cfg
          (s.set_group gid.toNat
            { s.pfq_groups gid.toNat with
              sock_mask := (List.range cfg.Q_CLASS_MAX).foldl
                (fun m i =>
                  let tmp := m i
                  let tmp := tmp &&& not64 (bit64 id)
                  Function.update m i tmp)
                (s.pfq_groups gid.toNat).sock_mask }) hgid
        have hz := (__pfq_group_is_empty_iff cfg _ hgid).1 hemp
        rw [hf]
        exact Or.inr (Or.inl ⟨huse, rfl, rfl, hz⟩)
      · refine Or.inr (Or.inr (Or.inr ⟨huse, ?_, ?_, ?_⟩))
        · rw [set_group_get]
        · intro _
          rw [set_group_get]
        · intro _
          by_contra hall
          apply hemp
          rw [__pfq_group_is_empty_iff cfg _ hgid]
          intro c hc
          by_contra hne
          exact hall ⟨c, hc, hne⟩
  · unfold __pfq_leave_group
    rw [pfq_get_group_invalid cfg s hgid]
    exact Or.inl rfl

theorem group_trans_mono (cfg : Config) {p q : Prop} (hpq : q → p) {g g1 : pfq_group}
    (h : group_trans cfg p g g1) : group_trans cfg q g g1 := by
  rcases h with h | h | ⟨h1, h2, h3⟩ | ⟨h1, h2, h3, h4⟩
  · exact Or.inl h
  · exact Or.inr (Or.inl h)
  · exact Or.inr (Or.inr (Or.inl ⟨h1, h2, fun hq => h3 (hpq hq)⟩))
  · exact Or.inr (Or.inr (Or.inr ⟨h1, h2, h3, fun hq => h4 (hpq hq)⟩))

theorem pfq_leave_group_trans (cfg : Config) (s : State) (gid : Int) (id : Nat) (m : Nat) :
    group_trans cfg True (s.pfq_groups m) ((pfq_leave_group cfg gid id s).2.pfq_groups m) := by
  unfold pfq_leave_group
  cases pfq_get_group cfg s gid with
  | none => exact Or.inl rfl
  | some g =>
    simp only
    by_cases hm : m = gid.toNat
    · subst hm
      exact __pfq_leave_group_trans cfg s gid id
    · rw [__pfq_leave_group_others cfg s gid id m hm]
      exact Or.inl rfl

theorem pfq_leave_all_groups_fold (cfg : Config) (s : State) (id : Nat) (k : Nat) :
    (∀ m, k ≤ m →
      ((List.range k).foldl (fun s (n : Nat) => (__pfq_leave_group cfg n id s).2) s).pfq_groups m =
        s.pfq_groups m) ∧
    ∀ m, group_trans cfg True (s.pfq_groups m)
      (((List.range k).foldl (fun s (n : Nat) => (__pfq_leave_group cfg n id s).2) s).pfq_groups m) := by
  induction k with
  | zero => exact ⟨fun _ _ => rfl, fun _ => Or.inl rfl⟩
  | succ k ih =>
    obtain ⟨ih1, ih2⟩ := ih
    rw [List.range_succ, List.foldl_append]
    simp only [List.foldl_cons, List.foldl_nil]
    have hk : ((k : Nat) : Int).toNat = k := Int.toNat_ofNat k
    constructor
    · intro m hm
      rw [__pfq_leave_group_others cfg _ k id m (by rw [hk]; omega)]
      exact ih1 m (by omega)
    · intro m
      by_cases hmk : m = k
      · subst hmk
        have h := __pfq_leave_group_trans cfg
          ((List.range m).foldl (fun s (n : Nat) => (__pfq_leave_group cfg n id s).2) s) m id
        rw [hk, ih1 m (le_refl _)] at h
        exact h
      · rw [__pfq_leave_group_others cfg _ k id m (by rw [hk]; exact hmk)]
        exact ih2 m

theorem pfq_join_free_group_loop_cases (cfg : Config) (tgid : Int) (id class_mask : Nat)
    (policy : Int) (s : State) (k : Nat) :
    ∀ n0 r, pfq_join_free_group_loop cfg tgid id class_mask policy k n0 s = some r →
      r.2 = s ∨ ∃ n : Nat, ((0 : Int) ≤ (n : Int) ∧ (n : Int) < cfg.Q_MAX_GROUP) ∧
        r.2 = (__pfq_join_group cfg tgid n id class_mask policy s).2 := by
  induction k with
  | zero =>
    intro n0 r h
    unfold pfq_join_free_group_loop at h
    simp only [Option.some.injEq] at h
    subst h
    exact Or.inl rfl
  | succ k ih =>
    intro n0 r h
    unfold pfq_join_free_group_loop at h
    by_cases hv : (0 : Int) ≤ (n0 : Int) ∧ (n0 : Int) < cfg.Q_MAX_GROUP
    · rw [pfq_get_group_valid cfg s hv] at h
      simp only at h
      split_ifs at h with hp
      · simp only [Option.some.injEq] at h
        subst h
        exact Or.inr ⟨n0, hv, rfl⟩
      · exact ih (n0 + 1) r h
    · rw [pfq_get_group_invalid cfg s hv] at h
      exact absurd h (by simp)

theorem pfq_join_free_group_loop_total (cfg : Config) (tgid : Int) (id class_mask : Nat)
    (policy : Int) (s : State) (k : Nat) :
    ∀ n0, n0 + k ≤ cfg.Q_MAX_GROUP →
      ∃ r, pfq_join_free_group_loop cfg tgid id class_mask policy k n0 s = some r := by
  induction k with
  | zero =>
    intro n0 _
    exact ⟨_, rfl⟩
  | succ k ih =>
    intro n0 hle
    have hv : (0 : Int) ≤ (n0 : Int) ∧ (n0 : Int) < cfg.Q_MAX_GROUP := by omega
    unfold pfq_join_free_group_loop
    rw [pfq_get_group_valid cfg s hv]
    simp only
    split_ifs
    · exact ⟨_, rfl⟩
    · exact ih (n0 + 1) (by omega)

/-- Every operation changes every group by one of the transitions of
`group_trans`. -/
theorem apply_op_trans (cfg : Config) (hd : cfg.policies_distinct) (op : Op)
    (hcall : op.caller_nonzero) (s s1 : State) (h : apply_op cfg op s = some s1) (m : Nat) :
    group_trans cfg (op.names_class cfg) (s.pfq_groups m) (s1.pfq_groups m) := by
  cases op with
  | join tgid gid id class_mask policy =>
    simp only [apply_op, Option.some.injEq] at h
    subst h
    exact pfq_join_group_trans cfg hd tgid hcall s gid id class_mask policy m
  | join_free tgid id class_mask policy =>
    simp only [apply_op, Option.map_eq_some'] at h
    obtain ⟨r, hr, hs1⟩ := h
    subst hs1
    unfold pfq_join_free_group at hr
    rcases pfq_join_free_group_loop_cases cfg tgid id class_mask policy s _ 0 r hr with
      hsame | ⟨n, hn, hj⟩
    · rw [hsame]
      exact Or.inl rfl
    · rw [hj]
      by_cases hm : m = (n : Int).toNat
      · subst hm
        exact __pfq_join_group_trans cfg hd tgid hcall s hn id class_mask policy
      · rw [__pfq_join_group_others cfg tgid s n id class_mask policy m hm]
        exact Or.inl rfl
  | leave gid id =>
    simp only [apply_op, Option.some.injEq] at h
    subst h
    exact pfq_leave_group_trans cfg s gid id m
  | leave_all id =>
    simp only [apply_op, Option.some.injEq] at h
    subst h
    exact (pfq_leave_all_groups_fold cfg s id cfg.Q_MAX_ID).2 m

theorem apply_op_total (cfg : Config) (hQ : cfg.Q_MAX_ID ≤ cfg.Q_MAX_GROUP) (op : Op)
    (s : State) : ∃ s1, apply_op cfg op s = some s1 := by
  cases op with
  | join tgid gid id class_mask policy => exact ⟨_, rfl⟩
  | join_free tgid id class_mask policy =>
    obtain ⟨r, hr⟩ := pfq_join_free_group_loop_total cfg tgid id class_mask policy s
      cfg.Q_MAX_ID 0 (by omega)
    refine ⟨r.2, ?_⟩
    simp only [apply_op, pfq_join_free_group, hr, Option.map_some']
  | leave gid id => exact ⟨_, rfl⟩
  | leave_all id => exact ⟨_, rfl⟩

theorem run_ops_total (cfg : Config) (hQ : cfg.Q_MAX_ID ≤ cfg.Q_MAX_GROUP) (ops : List Op) :
    ∀ s, ∃ s1, run_ops cfg ops s = some s1 := by
  induction ops with
  | nil => exact fun s => ⟨s, rfl⟩
  | cons op ops ih =>
    intro s
    obtain ⟨s1, h1⟩ := apply_op_total cfg hQ op s
    obtain ⟨s2, h2⟩ := ih s1
    exact ⟨s2, by simp only [run_ops, h1, h2]⟩

/-- A property of groups that every transition of operations satisfying `R`
preserves holds after every sequence of such operations. -/
theorem run_ops_preserves (cfg : Config) (hd : cfg.policies_distinct) (P : pfq_group → Prop)
    (R : Op → Prop)
    (hstep : ∀ op, R op → ∀ g g1, group_trans cfg (op.names_class cfg) g g1 → P g → P g1)
    (ops : List Op) :
    ∀ s s1, (∀ op ∈ ops, op.caller_nonzero ∧ R op) → run_ops cfg ops s = some s1 →
      (∀ m, P (s.pfq_groups m)) → ∀ m, P (s1.pfq_groups m) := by
  induction ops with
  | nil =>
    intro s s1 _ hrun hP
    simp only [run_ops, Option.some.injEq] at hrun
    subst hrun
    exact hP
  | cons op ops ih =>
    intro s s1 hall hrun hP
    obtain ⟨hc, hR⟩ := hall op (List.mem_cons_self _ _)
    unfold run_ops at hrun
    cases h1 : apply_op cfg op s with
    | none =>
      rw [h1] at hrun
      exact absurd hrun (by simp)
    | some s2 =>
      rw [h1] at hrun
      simp only at hrun
      refine ih s2 s1 (fun o ho => hall o (List.mem_cons_of_mem _ ho)) hrun ?_
      intro m
      exact hstep op hR _ _ (apply_op_trans cfg hd op hc s s2 h1 m) (hP m)

/-! ### Group reuse and policy monotonicity -/

/-- Counterexample for C11: after a join of the free group 0 with an empty
`class_mask`, group 0 is in use and all of its class masks are zero. -/
theorem group_reuse_counterexample :
    ∃ s : State, run_ops specConfig [Op.join 100 0 0 0 3] initial_state = some s ∧
      ¬ ((s.pfq_groups 0).pid = 0 ↔
        ∀ c, c < specConfig.Q_CLASS_MAX → (s.pfq_groups 0).sock_mask c = 0) :=
  ⟨_, rfl, by decide⟩

/-- C11 (amended): after every sequence of join, join_free, leave and leave_all
operations from the initial table, by callers with a non-zero pid, every free
group has all of its class masks zero; when moreover every join of the
sequence names a class of the group and a socket id of the mask, a group is
free if and only if all of its class masks are zero. -/
theorem group_reuse_invariant (cfg : Config) (hd : cfg.policies_distinct)
    (hQ : cfg.Q_MAX_ID ≤ cfg.Q_MAX_GROUP) (ops : List Op)
    (hcall : ∀ op ∈ ops, op.caller_nonzero) :
    ∃ s1 : State, run_ops cfg ops initial_state = some s1 ∧
      ∀ g, g < cfg.Q_MAX_GROUP →
        ((s1.pfq_groups g).pid = 0 →
          ∀ c, c < cfg.Q_CLASS_MAX → (s1.pfq_groups g).sock_mask c = 0) ∧
        ((∀ op ∈ ops, op.names_class cfg) →
          ((s1.pfq_groups g).pid = 0 ↔
            ∀ c, c < cfg.Q_CLASS_MAX → (s1.pfq_groups g).sock_mask c = 0)) := by
  obtain ⟨s1, hrun⟩ := run_ops_total cfg hQ ops initial_state
  refine ⟨s1, hrun, fun g _ => ⟨?_, ?_⟩⟩
  · refine run_ops_preserves cfg hd
      (fun g => g.pid = 0 → ∀ c, c < cfg.Q_CLASS_MAX → g.sock_mask c = 0) (fun _ => True)
      ?_ ops initial_state s1 (fun op hop => ⟨hcall op hop, trivial⟩) hrun ?_ g
    · intro op _ g g1 ht hP
      rcases ht with h | ⟨_, _, _, hz⟩ | ⟨_, hne, _⟩ | ⟨hne, hpid, _, _⟩
      · rw [h]
        exact hP
      · exact fun _ => hz
      · exact fun h0 => absurd h0 hne
      · exact fun h0 => absurd (hpid ▸ h0) hne
    · intro m _ c _
      rfl
  · intro hnamed
    refine run_ops_preserves cfg hd
      (fun g => g.pid = 0 ↔ ∀ c, c < cfg.Q_CLASS_MAX → g.sock_mask c = 0)
      (fun op => op.names_class cfg)
      ?_ ops initial_state s1 (fun op hop => ⟨hcall op hop, hnamed op hop⟩) hrun ?_ g
    · intro op hop g g1 ht hP
      rcases ht with h | ⟨_, h0, _, hz⟩ | ⟨_, hne, hex⟩ | ⟨hne, hpid, _, hex⟩
      · rw [h]
        exact hP
      · exact ⟨fun _ => hz, fun _ => h0⟩
      · obtain ⟨c, hc, hcne⟩ := hex hop
        exact ⟨fun h0 => absurd h0 hne, fun hall => absurd (hall c hc) hcne⟩
      · obtain ⟨c, hc, hcne⟩ := hex hop
        exact ⟨fun h0 => absurd (hpid ▸ h0) hne, fun hall => absurd (hall c hc) hcne⟩
    · intro m
      exact ⟨fun _ _ _ => rfl, fun _ => rfl⟩

/-- Witness for C11 (amended): socket 5 creates group 3 and leaves it. -/
theorem group_reuse_invariant_witness :
    ∃ s1 : State,
      run_ops specConfig [Op.join 100 3 5 5 2, Op.leave 3 5] initial_state = some s1 ∧
      ((s1.pfq_groups 3).pid = 0 ↔
        ∀ c, c < specConfig.Q_CLASS_MAX → (s1.pfq_groups 3).sock_mask c = 0) := by
  obtain ⟨s1, h, hg⟩ := group_reuse_invariant specConfig (by decide) (by decide)
    [Op.join 100 3 5 5 2, Op.leave 3 5] (by decide)
  exact ⟨s1, h, (hg 3 (by decide)).2 (by decide)⟩

/-- C15: in a table reached from the initial table by operations of callers
with a non-zero pid, one more operation keeps the policy of every group whose
policy is concrete before it and which is in use after it; the policy of such
a group is undefined afterwards only when the group is free. -/
theorem policy_monotone (cfg : Config) (hd : cfg.policies_distinct)
    (hU : cfg.Q_POLICY_GROUP_UNDEFINED = 0) (hQ : cfg.Q_MAX_ID ≤ cfg.Q_MAX_GROUP)
    (ops : List Op) (hcall : ∀ o ∈ ops, o.caller_nonzero) (op : Op)
    (hop : op.caller_nonzero) :
    ∃ s s1 : State, run_ops cfg ops initial_state = some s ∧ apply_op cfg op s = some s1 ∧
      ∀ g, g < cfg.Q_MAX_GROUP →
        ((s.pfq_groups g).policy = cfg.Q_POLICY_GROUP_PRIVATE ∨
          (s.pfq_groups g).policy = cfg.Q_POLICY_GROUP_RESTRICTED ∨
          (s.pfq_groups g).policy = cfg.Q_POLICY_GROUP_SHARED) →
        ((s1.pfq_groups g).pid ≠ 0 → (s1.pfq_groups g).policy = (s.pfq_groups g).policy) ∧
        ((s1.pfq_groups g).policy = cfg.Q_POLICY_GROUP_UNDEFINED →
          (s1.pfq_groups g).pid = 0) := by
  obtain ⟨s, hrun⟩ := run_ops_total cfg hQ ops initial_state
  obtain ⟨s1, hstep⟩ := apply_op_total cfg hQ op s
  refine ⟨s, s1, hrun, hstep, ?_⟩
  intro g _ hconc
  have hne : (s.pfq_groups g).policy ≠ cfg.Q_POLICY_GROUP_UNDEFINED := by
    obtain ⟨h1, h2, h3, -, -, -⟩ := hd
    rcases hconc with h | h | h <;> rw [h]
    · exact fun e => h1 e.symm
    · exact fun e => h2 e.symm
    · exact fun e => h3 e.symm
  have hinv : (s.pfq_groups g).pid = 0 →
      (s.pfq_groups g).policy = cfg.Q_POLICY_GROUP_UNDEFINED := by
    refine run_ops_preserves cfg hd
      (fun g => g.pid = 0 → g.policy = cfg.Q_POLICY_GROUP_UNDEFINED) (fun _ => True)
      ?_ ops initial_state s (fun o ho => ⟨hcall o ho, trivial⟩) hrun ?_ g
    · intro o _ g g1 ht hP
      rcases ht with h | ⟨_, _, hp, _⟩ | ⟨_, hn, _⟩ | ⟨hn, hpid, _, _⟩
      · rw [h]
        exact hP
      · exact fun _ => hp
      · exact fun h0 => absurd h0 hn
      · exact fun h0 => absurd (hpid ▸ h0) hn
    · intro m _
      rw [hU]
      rfl
  rcases apply_op_trans cfg hd op hop s s1 hstep g with h | ⟨_, h0, _, _⟩ | ⟨hfree, _, _⟩ |
    ⟨_, _, hpol, _⟩
  · rw [h]
    exact ⟨fun _ => rfl, fun e => absurd e hne⟩
  · exact ⟨fun h => absurd h0 h, fun _ => h0⟩
  · exact absurd (hinv hfree) hne
  · exact ⟨fun _ => hpol hne, fun e => absurd ((hpol hne) ▸ e) hne⟩

/-- Witness for C15: in the restricted group 3 of process 100, a second join by
the same process keeps the policy. -/
theorem policy_monotone_witness :
    ∃ s s1 : State,
      run_ops specConfig [Op.join 100 3 5 5 2] initial_state = some s ∧
      apply_op specConfig (Op.join 100 3 6 1 2) s = some s1 := by
  obtain ⟨s, s1, h1, h2, _⟩ := policy_monotone specConfig (by decide) (by decide) (by decide)
    [Op.join 100 3 5 5 2] (by decide) (Op.join 100 3 6 1 2) (by decide)
  exact ⟨s, s1, h1, h2⟩

/-! ### Grace period -/

/-- C16: for a valid `gid`, `__pfq_set_group_filter`, `pfq_set_group_prog` and
`__pfq_group_free` each append to the record of kernel calls, in this order,
the exchanges that install the new filter, program and context (null for the
free), one `msleep(Q_GRACE_PERIOD)`, and then the calls that release the
displaced objects; the objects released are exactly the displaced non-null
ones, none is released before the wait, and the installed object is in place
on return and, unless it is one of the displaced objects, is not released. -/
theorem grace_period_order (cfg : Config) (s : State) (gid : Int)
    (hgid : 0 ≤ gid ∧ gid < cfg.Q_MAX_GROUP) (filter comp ctx : Nat) :
    (∃ rel : List Event,
      (__pfq_set_group_filter cfg gid filter s).trace =
        s.trace ++ [Event.xchg_bp_filter gid filter (s.pfq_groups gid.toNat).bp_filter] ++
          [Event.msleep cfg.Q_GRACE_PERIOD] ++ rel ∧
      rel.filterMap Event.released =
        (if (s.pfq_groups gid.toNat).bp_filter ≠ 0 then [(s.pfq_groups gid.toNat).bp_filter]
          else []) ∧
      (filter ≠ (s.pfq_groups gid.toNat).bp_filter → filter ∉ rel.filterMap Event.released) ∧
      ((__pfq_set_group_filter cfg gid filter s).pfq_groups gid.toNat).bp_filter = filter) ∧
    (∃ rel : List Event,
      (pfq_set_group_prog cfg gid comp ctx s).1 = 0 ∧
      (pfq_set_group_prog cfg gid comp ctx s).2.trace =
        s.trace ++
          [Event.xchg_comp gid comp (s.pfq_groups gid.toNat).comp,
            Event.xchg_comp_ctx gid ctx (s.pfq_groups gid.toNat).comp_ctx] ++
          [Event.msleep cfg.Q_GRACE_PERIOD] ++ rel ∧
      rel.filterMap Event.released =
        (if (s.pfq_groups gid.toNat).comp ≠ 0 then [(s.pfq_groups gid.toNat).comp] else []) ++
        (if (s.pfq_groups gid.toNat).comp_ctx ≠ 0 then [(s.pfq_groups gid.toNat).comp_ctx]
          else []) ∧
      (∀ p, p ≠ (s.pfq_groups gid.toNat).comp → p ≠ (s.pfq_groups gid.toNat).comp_ctx →
        p ∉ rel.filterMap Event.released) ∧
      ((pfq_set_group_prog cfg gid comp ctx s).2.pfq_groups gid.toNat).comp = comp ∧
      ((pfq_set_group_prog cfg gid comp ctx s).2.pfq_groups gid.toNat).comp_ctx = ctx) ∧
    (∃ rel : List Event,
      (__pfq_group_free cfg gid s).trace =
        s.trace ++
          [Event.xchg_bp_filter gid 0 (s.pfq_groups gid.toNat).bp_filter,
            Event.xchg_comp gid 0 (s.pfq_groups gid.toNat).comp,
            Event.xchg_comp_ctx gid 0 (s.pfq_groups gid.toNat).comp_ctx] ++
          [Event.msleep cfg.Q_GRACE_PERIOD] ++ rel ∧
      rel.filterMap Event.released =
        (if (s.pfq_groups gid.toNat).comp ≠ 0 then [(s.pfq_groups gid.toNat).comp] else []) ++
        (if (s.pfq_groups gid.toNat).comp_ctx ≠ 0 then [(s.pfq_groups gid.toNat).comp_ctx]
          else []) ++
        (if (s.pfq_groups gid.toNat).bp_filter ≠ 0 then [(s.pfq_groups gid.toNat).bp_filter]
          else []) ∧
      ((__pfq_group_free cfg gid s).pfq_groups gid.toNat).bp_filter = 0 ∧
      ((__pfq_group_free cfg gid s).pfq_groups gid.toNat).comp = 0 ∧
      ((__pfq_group_free cfg gid s).pfq_groups gid.toNat).comp_ctx = 0) := by
  refine ⟨?_, ?_, ?_⟩
  · refine ⟨if (s.pfq_groups gid.toNat).bp_filter ≠ 0 then
      [Event.pfq_free_sk_filter (s.pfq_groups gid.toNat).bp_filter] else [], ?_, ?_, ?_, ?_⟩
    · unfold __pfq_set_group_filter
      rw [pfq_get_group_valid cfg s hgid]
      simp [State.set_group]
    · by_cases h : (s.pfq_groups gid.toNat).bp_filter = 0 <;> simp [h, Event.released]
    · intro hne
      by_cases h : (s.pfq_groups gid.toNat).bp_filter = 0 <;> simp [h, Event.released, hne]
    · unfold __pfq_set_group_filter
      rw [pfq_get_group_valid cfg s hgid]
      simp [State.set_group]
  · refine ⟨(if (s.pfq_groups gid.toNat).comp ≠ 0 then
        [Event.pfq_computation_fini (s.pfq_groups gid.toNat).comp] else []) ++
      [Event.kfree (s.pfq_groups gid.toNat).comp, Event.kfree (s.pfq_groups gid.toNat).comp_ctx],
      ?_, ?_, ?_, ?_, ?_, ?_⟩
    · unfold pfq_set_group_prog
      rw [pfq_get_group_valid cfg s hgid]
    · unfold pfq_set_group_prog
      rw [pfq_get_group_valid cfg s hgid]
      simp [State.set_group]
    · by_cases h1 : (s.pfq_groups gid.toNat).comp = 0 <;>
        by_cases h2 : (s.pfq_groups gid.toNat).comp_ctx = 0 <;>
        simp [h1, h2, Event.released]
    · intro p hp1 hp2
      by_cases h1 : (s.pfq_groups gid.toNat).comp = 0 <;>
        by_cases h2 : (s.pfq_groups gid.toNat).comp_ctx = 0 <;>
        simp [h1, h2, Event.released, hp1, hp2]
    · unfold pfq_set_group_prog
      rw [pfq_get_group_valid cfg s hgid]
      simp [State.set_group]
    · unfold pfq_set_group_prog
      rw [pfq_get_group_valid cfg s hgid]
      simp [State.set_group]
  · obtain ⟨hg, -, -⟩ := __pfq_group_free_post cfg s hgid
    refine ⟨(if (s.pfq_groups gid.toNat).comp ≠ 0 then
        [Event.pfq_computation_fini (s.pfq_groups gid.toNat).comp] else []) ++
      [Event.kfree (s.pfq_groups gid.toNat).comp, Event.kfree (s.pfq_groups gid.toNat).comp_ctx] ++
      (if (s.pfq_groups gid.toNat).bp_filter ≠ 0 then
        [Event.pfq_free_sk_filter (s.pfq_groups gid.toNat).bp_filter] else []),
      ?_, ?_, ?_, ?_, ?_⟩
    · unfold __pfq_group_free
      rw [pfq_get_group_valid cfg s hgid]
      simp [State.set_group, pfq_devmap_reset]
    · by_cases h1 : (s.pfq_groups gid.toNat).comp = 0 <;>
        by_cases h2 : (s.pfq_groups gid.toNat).comp_ctx = 0 <;>
        by_cases h3 : (s.pfq_groups gid.toNat).bp_filter = 0 <;>
        simp [h1, h2, h3, Event.released]
    · rw [hg]
    · rw [hg]
    · rw [hg]

/-- Witness for C16: group 3 of `example_state` with the filter 5 and the
program 7 with context 8 installed. -/
theorem grace_period_order_witness :
    ∃ rel : List Event,
      (__pfq_set_group_filter specConfig 3 11
        (__pfq_set_group_filter specConfig 3 5 example_state)).trace =
        (__pfq_set_group_filter specConfig 3 5 example_state).trace ++
          [Event.xchg_bp_filter 3 11 5] ++ [Event.msleep 100] ++ rel ∧
      rel.filterMap Event.released = [5] := by
  obtain ⟨rel, h1, h2, _⟩ := (grace_period_order specConfig
    (__pfq_set_group_filter specConfig 3 5 example_state) 3 (by decide) 11 7 8).1
  exact ⟨rel, h1, h2⟩

/-! ### Buffer pool -/

theorem pfq_skb_is_recycleable_iff (env : mem_env) (skb : sk_buff) (size : Nat) :
    pfq_skb_is_recycleable env skb size = true ↔
      env.irqs_disabled = false ∧ skb.data_len = 0 ∧ skb.fclone = SKB_FCLONE_UNAVAILABLE ∧
      skb.users ≤ 1 ∧ skb.cloned = false ∧
      env.SKB_DATA_ALIGN ((size + env.NET_SKB_PAD) % U32) % U32 ≤ skb.end_offset := by
  unfold pfq_skb_is_recycleable pfq_skb_end_offset
  simp only
  split_ifs with h1 h2 h3 h4 h5 h6 <;> simp_all

/-- C19: with a buffer `b` popped from the pool, `____pfq_alloc_skb_pool` returns
that buffer exactly when `pfq_skb_is_recycleable` holds for it, that is when
interrupts are enabled, the buffer is linear, has no fast-clone state, at most
one user, is not cloned and its end offset is at least the aligned size; a
popped buffer with more than one user, cloned, non-linear or too small is
passed to `kfree_skb` and the result is that of `__alloc_skb`. -/
theorem pool_recycleability (env : mem_env) (hpool : env.PFQ_USE_SKB_POOL = true) (size : Nat)
    (b : sk_buff) (rest : List sk_buff) :
    ((____pfq_alloc_skb_pool env size (b :: rest)).reused = true ↔
      pfq_skb_is_recycleable env b size = true) ∧
    (pfq_skb_is_recycleable env b size = true ↔
      env.irqs_disabled = false ∧ b.data_len = 0 ∧ b.fclone = SKB_FCLONE_UNAVAILABLE ∧
      b.users ≤ 1 ∧ b.cloned = false ∧
      env.SKB_DATA_ALIGN ((size + env.NET_SKB_PAD) % U32) % U32 ≤ b.end_offset) ∧
    (pfq_skb_is_recycleable env b size = true →
      ____pfq_alloc_skb_pool env size (b :: rest) =
        { skb := some (pfq_skb_recycle b), reused := true, pool := rest, freed := [] }) ∧
    ((b.users > 1 ∨ b.cloned = true ∨ b.data_len ≠ 0 ∨
        b.end_offset < env.SKB_DATA_ALIGN ((size + env.NET_SKB_PAD) % U32) % U32) →
      ____pfq_alloc_skb_pool env size (b :: rest) =
        { skb := env.__alloc_skb size, reused := false, pool := rest, freed := [b] }) := by
  have hiff := pfq_skb_is_recycleable_iff env b size
  have hcases : ____pfq_alloc_skb_pool env size (b :: rest) =
      if pfq_skb_is_recycleable env b size = true then
        { skb := some (pfq_skb_recycle b), reused := true, pool := rest, freed := [] }
      else
        { skb := env.__alloc_skb size, reused := false, pool := rest, freed := [b] } := by
    unfold ____pfq_alloc_skb_pool pfq_sk_buff_pool_get
    simp only [hpool, if_true]
  refine ⟨?_, hiff, ?_, ?_⟩
  · rw [hcases]
    split_ifs with h <;> simp [h]
  · intro h
    rw [hcases, if_pos h]
  · intro hbad
    have hnot : ¬ pfq_skb_is_recycleable env b size = true := by
      rw [hiff]
      rintro ⟨_, h2, _, h4, h5, h6⟩
      rcases hbad with h | h | h | h
      · omega
      · rw [h5] at h
        exact Bool.noConfusion h
      · exact h h2
      · omega
    rw [hcases, if_neg hnot]

/-- Witness for C19: a linear, unshared buffer of 2048 bytes for a frame of
1514 bytes. -/
theorem pool_recycleability_witness :
    (____pfq_alloc_skb_pool example_mem_env 1514
      [{ addr := 1, data_len := 0, fclone := 0, users := 1, cloned := false,
         end_offset := 2048 }]).reused = true :=
  (pool_recycleability example_mem_env rfl 1514
    { addr := 1, data_len := 0, fclone := 0, users := 1, cloned := false, end_offset := 2048 }
    []).1.2 (by decide)

/-! ### Receive path: intake and batch processing -/

theorem sock_queue_fold_total (n mask : Nat) (q : List Nat) (hq : 64 ≤ q.length) (k : Nat)
    (hk : k ≤ 64) :
    ∃ r, (List.range k).foldl
        (fun (sq : Option (List Nat)) i =>
          if mask.testBit i = true then
            sq.bind fun q =>
              if i < q.length then some (q.set i (q.getD i 0 ||| bit64 n)) else none
          else sq)
        (some q) = some r ∧ r.length = q.length := by
  induction k with
  | zero => exact ⟨q, rfl, rfl⟩
  | succ k ih =>
    obtain ⟨r0, h0, hl⟩ := ih (by omega)
    rw [List.range_succ, List.foldl_append, h0]
    simp only [List.foldl_cons, List.foldl_nil]
    by_cases hb : mask.testBit k = true
    · rw [if_pos hb]
      simp only [Option.some_bind]
      rw [if_pos (by omega)]
      exact ⟨_, rfl, by rw [List.length_set, hl]⟩
    · rw [if_neg hb]
      exact ⟨r0, rfl, hl⟩

theorem mask_to_sock_queue_total (n mask : Nat) (q : List Nat) (hq : 64 ≤ q.length) :
    ∃ r, mask_to_sock_queue n mask q = some r ∧ r.length = q.length := by
  unfold mask_to_sock_queue
  have hc := pfq_bitwise_foreach_ctz mask
    (fun (sq : Option (List Nat)) index =>
      sq.bind fun q =>
        if index < q.length then some (q.set index (q.getD index 0 ||| bit64 n)) else none)
    (some q)
  simp only at hc ⊢
  rw [hc]
  exact sock_queue_fold_total n mask q hq 64 (le_refl _)

theorem pfq_receive_frame_total (cfg : Config) (sk_run_filter : Nat → gc_buff → Bool)
    (pfq_run : Nat → gc_buff → pfq_monad → Option gc_buff × pfq_monad)
    (cpu gid : Nat) (bf_filter_enabled vlan_filter_enabled : Bool) (n : Nat)
    (buff : gc_buff) (st : rx_pass) (hq : 64 ≤ st.sock_queue.length) :
    ∃ st1, pfq_receive_frame cfg sk_run_filter pfq_run cpu gid bf_filter_enabled
        vlan_filter_enabled n buff st = some st1 ∧
      st1.sock_queue.length = st.sock_queue.length := by
  obtain ⟨hsq, -⟩ := pfq_receive_route_locals cfg sk_run_filter pfq_run cpu gid
    bf_filter_enabled vlan_filter_enabled buff st
  unfold pfq_receive_frame
  simp only
  cases h2 : (pfq_receive_route cfg sk_run_filter pfq_run cpu gid bf_filter_enabled
      vlan_filter_enabled buff st).2 with
  | none => exact ⟨_, rfl, by rw [hsq]⟩
  | some sock_mask =>
    simp only
    have hq1 : 64 ≤ (pfq_receive_route cfg sk_run_filter pfq_run cpu gid bf_filter_enabled
        vlan_filter_enabled buff st).1.sock_queue.length := by rw [hsq]; exact hq
    obtain ⟨r, hr, hl⟩ := mask_to_sock_queue_total n sock_mask _ hq1
    rw [hr]
    exact ⟨_, rfl, by rw [← hsq]; exact hl⟩

theorem pfq_receive_frames_total (cfg : Config) (env : rx_env) (gid : Nat)
    (bf_filter_enabled vlan_filter_enabled : Bool) (this_batch_len : Nat)
    (pool : List gc_buff) :
    ∀ n st, 64 ≤ st.sock_queue.length →
      ∃ st1, pfq_receive_frames cfg env gid bf_filter_enabled vlan_filter_enabled
          this_batch_len n pool st = some st1 ∧
        st1.sock_queue.length = st.sock_queue.length := by
  induction pool with
  | nil =>
    intro n st _
    exact ⟨st, rfl, rfl⟩
  | cons buff rest ih =>
    intro n st hq
    unfold pfq_receive_frames
    split_ifs with hn
    · exact ⟨st, rfl, rfl⟩
    · obtain ⟨st1, h1, hl1⟩ := pfq_receive_frame_total cfg env.sk_run_filter env.pfq_run env.cpu
        gid bf_filter_enabled vlan_filter_enabled n buff st hq
      rw [h1]
      obtain ⟨st2, h2, hl2⟩ := ih (n + 1) st1 (by rw [hl1]; exact hq)
      exact ⟨st2, h2, by rw [hl2, hl1]⟩

theorem pfq_receive_group_total (cfg : Config) (env : rx_env) (this_batch_len : Nat)
    (pool : List gc_buff) (gid : Nat) (hgid : gid < cfg.Q_MAX_GROUP) (l : rx_loop)
    (hq : 64 ≤ l.sock_queue.length) :
    ∃ l1, pfq_receive_group cfg env this_batch_len pool gid l = some l1 ∧
      l1.sock_queue.length = l.sock_queue.length := by
  have hv : (0 : Int) ≤ (gid : Int) ∧ (gid : Int) < cfg.Q_MAX_GROUP := by omega
  unfold pfq_receive_group
  rw [pfq_get_group_valid cfg l.s hv]
  simp only
  obtain ⟨st1, h1, hl1⟩ := pfq_receive_frames_total cfg env gid
    ((l.s.pfq_groups (gid : Int).toNat).bp_filter != 0)
    (__pfq_vlan_filters_enabled cfg l.s gid) this_batch_len pool 0
    { s := l.s, loc := l.loc, monad := l.monad, refs := [], socket_mask := 0,
      sock_queue := l.sock_queue } hq
  rw [h1]
  exact ⟨_, rfl, hl1⟩

/-- The frame an iteration leaves in the pool agrees with what the iteration
stores in `refs`: when the iteration stores no buff the frame is as before, and
when it stores a buff the frame has the log of that buff and is otherwise as
before. -/
theorem rx_frame_after_refs (cfg : Config) (sk_run_filter : Nat → gc_buff → Bool)
    (pfq_run : Nat → gc_buff → pfq_monad → Option gc_buff × pfq_monad)
    (cpu gid : Nat) (bf vf : Bool) (buff : gc_buff) (st : rx_pass) :
    ((pfq_receive_route cfg sk_run_filter pfq_run cpu gid bf vf buff st).1.refs = st.refs ∧
      rx_frame_after cfg sk_run_filter pfq_run gid bf vf buff st = buff) ∨
    ∃ b, (pfq_receive_route cfg sk_run_filter pfq_run cpu gid bf vf buff st).1.refs =
        st.refs ++ [b] ∧
      rx_frame_after cfg sk_run_filter pfq_run gid bf vf buff st =
        { buff with cb := { buff.cb with log := b.cb.log } } := by
  unfold pfq_receive_route rx_frame_after
  by_cases hin : buff.cb.group_mask &&& (1 <<< gid) = 0
  · rw [if_pos hin, if_pos hin]
    exact Or.inl ⟨rfl, rfl⟩
  · rw [if_neg hin, if_neg hin]
    simp only [__pfq_check_group_vlan_filter_stats, rx_pass_stats_group, rx_pass_stats_monad]
    by_cases hA : bf = true ∧ (st.s.pfq_groups gid).bp_filter ≠ 0 ∧
        sk_run_filter (st.s.pfq_groups gid).bp_filter buff = false
    · rw [if_pos hA, if_pos hA]
      exact Or.inl ⟨rfl, rfl⟩
    · rw [if_neg hA, if_neg hA]
      by_cases hB : vf = true ∧ __pfq_check_group_vlan_filter cfg st.s gid
          (buff.vlan_tci &&& ((U32 - 1) ^^^ VLAN_TAG_PRESENT)) = false
      · rw [if_pos hB, if_pos hB]
        exact Or.inl ⟨rfl, rfl⟩
      · rw [if_neg hB, if_neg hB]
        by_cases hC : (st.s.pfq_groups gid).comp ≠ 0
        · rw [if_pos hC, if_pos hC]
          cases hrun : pfq_run (st.s.pfq_groups gid).comp buff
            (rx_monad_setup cfg gid st.monad) with
          | mk o m1 =>
            cases o with
            | none => exact Or.inl ⟨rfl, rfl⟩
            | some b =>
              refine Or.inr ⟨b, ?_, rfl⟩
              simp only []
              split_ifs <;> rfl
        · rw [if_neg hC, if_neg hC]
          exact Or.inr ⟨buff, rfl, rfl⟩

/-- A property of the loop variables and the pool that every group pass keeps
holds after the loop over the groups, which returns. -/
theorem pfq_receive_groups_fold (cfg : Config) (env : rx_env) (this_batch_len : Nat)
    (group_mask : Nat) (Inv : rx_loop → List gc_buff → Prop)
    (hstep : ∀ gid l pool, gid < 64 → Inv l pool →
      ∃ l1, pfq_receive_group cfg env this_batch_len pool gid l = some l1 ∧
        Inv l1 (pfq_receive_group_pool cfg env this_batch_len pool gid l))
    (l : rx_loop) (pool : List gc_buff) (h0 : Inv l pool) :
    ∃ l1 pool1, pfq_bitwise_foreach group_mask
        (fun (acc : Option (rx_loop × List gc_buff)) bit =>
          acc.bind fun acc =>
            let gid := pfq_ctz bit
            (pfq_receive_group cfg env this_batch_len acc.2 gid acc.1).map fun l =>
              (l, pfq_receive_group_pool cfg env this_batch_len acc.2 gid acc.1))
        (some (l, pool)) = some (l1, pool1) ∧ Inv l1 pool1 := by
  have hc := pfq_bitwise_foreach_ctz group_mask
    (fun (acc : Option (rx_loop × List gc_buff)) gid =>
      acc.bind fun acc =>
        (pfq_receive_group cfg env this_batch_len acc.2 gid acc.1).map fun l =>
          (l, pfq_receive_group_pool cfg env this_batch_len acc.2 gid acc.1))
    (some (l, pool))
  simp only at hc ⊢
  rw [hc]
  have key : ∀ k, k ≤ 64 → ∃ l1 pool1, (List.range k).foldl
      (fun (s : Option (rx_loop × List gc_buff)) i =>
        if group_mask.testBit i = true then
          s.bind fun acc =>
            (pfq_receive_group cfg env this_batch_len acc.2 i acc.1).map fun l =>
              (l, pfq_receive_group_pool cfg env this_batch_len acc.2 i acc.1)
        else s)
      (some (l, pool)) = some (l1, pool1) ∧ Inv l1 pool1 := by
    intro k
    induction k with
    | zero => exact fun _ => ⟨l, pool, rfl, h0⟩
    | succ k ih =>
      intro hk
      obtain ⟨l0, pool0, hf, hinv⟩ := ih (by omega)
      rw [List.range_succ, List.foldl_append, hf]
      simp only [List.foldl_cons, List.foldl_nil]
      by_cases hb : group_mask.testBit k = true
      · rw [if_pos hb]
        simp only [Option.some_bind]
        obtain ⟨l1, h1, hinv1⟩ := hstep k l0 pool0 (by omega) hinv
        rw [h1]
        exact ⟨l1, _, rfl, hinv1⟩
      · rw [if_neg hb]
        exact ⟨l0, pool0, rfl, hinv⟩
  exact key 64 (le_refl _)

theorem pfq_receive_groups_total (cfg : Config) (env : rx_env) (this_batch_len : Nat)
    (pool : List gc_buff) (hG : 64 ≤ cfg.Q_MAX_GROUP) (group_mask : Nat) (l : rx_loop)
    (hq : 64 ≤ l.sock_queue.length) :
    ∃ l1 pool1, pfq_bitwise_foreach group_mask
        (fun (acc : Option (rx_loop × List gc_buff)) bit =>
          acc.bind fun acc =>
            let gid := pfq_ctz bit
            (pfq_receive_group cfg env this_batch_len acc.2 gid acc.1).map fun l =>
              (l, pfq_receive_group_pool cfg env this_batch_len acc.2 gid acc.1))
        (some (l, pool)) = some (l1, pool1) := by
  obtain ⟨l1, pool1, h, -⟩ := pfq_receive_groups_fold cfg env this_batch_len group_mask
    (fun l _ => 64 ≤ l.sock_queue.length)
    (fun gid l pool hgid hinv => by
      obtain ⟨l1, h1, hl1⟩ := pfq_receive_group_total cfg env this_batch_len pool gid
        (by omega) l hinv
      have hinv1 : 64 ≤ l1.sock_queue.length := by rw [hl1]; exact hinv
      exact ⟨l1, h1, hinv1⟩)
    l pool hq
  exact ⟨l1, pool1, h⟩

theorem rx_forward_to_kernel_recv (env : rx_env) (pool : List gc_buff) :
    ∀ acc : pfq_global_stats × List rx_event,
      (pool.foldl (rx_forward_to_kernel env) acc).1.recv = acc.1.recv := by
  induction pool with
  | nil => exact fun _ => rfl
  | cons skb rest ih =>
    intro acc
    rw [List.foldl_cons, ih]
    unfold rx_forward_to_kernel
    by_cases hd : skb.cb.direct = true ∧ fwd_to_kernel skb = true
    · rw [if_pos hd]
      simp only
      split <;> rfl
    · rw [if_neg hd]

/-- What the processing of a batch leaves behind. -/
theorem pfq_receive_process_spec (cfg : Config) (env : rx_env) (st : rx_state)
    (r : Int × rx_state) (h : pfq_receive_process cfg env st = some r) :
    r.1 = 0 ∧ r.2.gc = [] ∧
      r.2.global_stats.recv = __sparse_add st.global_stats.recv st.gc.length env.cpu := by
  unfold pfq_receive_process at h
  simp only at h
  split at h
  · exact absurd h (by simp)
  · simp only [Option.some.injEq] at h
    subst h
    refine ⟨rfl, rfl, ?_⟩
    simp only
    split_ifs
    · simp only [rx_forward_to_kernel_recv]
      rfl
    · simp only [rx_forward_to_kernel_recv]
      rfl

theorem pfq_receive_process_total (cfg : Config) (env : rx_env) (st : rx_state)
    (hB : 64 ≤ cfg.Q_SKBUFF_SHORT_BATCH) (hG : 64 ≤ cfg.Q_MAX_GROUP) :
    ∃ r, pfq_receive_process cfg env st = some r := by
  unfold pfq_receive_process
  simp only
  obtain ⟨l1, pool1, h1⟩ := pfq_receive_groups_total cfg env (gc_size st.gc)
    (st.gc.map fun skb =>
      { skb with cb := { skb.cb with
          group_mask := __pfq_devmap_get_groups st.s skb.ifindex skb.rx_queue } })
    hG
    ((st.gc.map fun skb =>
      { skb with cb := { skb.cb with
          group_mask := __pfq_devmap_get_groups st.s skb.ifindex skb.rx_queue } }).foldl
      (fun mask skb => mask ||| skb.cb.group_mask) 0)
    { s := st.s, loc := st.loc, monad := env.monad0,
      sock_queue := List.replicate cfg.Q_SKBUFF_SHORT_BATCH 0, out := st.out }
    (by simp only [List.length_replicate]; exact hB)
  simp only at h1
  rw [h1]
  exact ⟨_, rfl⟩

theorem rx_enroll_enrolled (env : rx_env) (skb : gc_buff) (direct : Bool) (gc : List gc_buff)
    (buff : gc_buff) (gc1 : List gc_buff)
    (h : rx_enroll env skb direct gc = rx_enrolled.enrolled buff gc1) :
    gc1 = gc ++ [buff] ∧ gc.length < env.Q_GC_POOL_QUEUE_LEN ∧ buff.cb.direct = direct := by
  unfold rx_enroll at h
  simp only at h
  split at h
  · cases h
  · split at h
    · cases h
    · rename_i heq
      unfold gc_make_buff at heq
      split_ifs at heq with hfull
      · cases heq
      · simp only [Prod.mk.injEq, Option.some.injEq] at heq
        obtain ⟨hb, hg⟩ := heq
        simp only [rx_enrolled.enrolled.injEq] at h
        obtain ⟨hb1, hg1⟩ := h
        subst hb1
        refine ⟨?_, by omega, rfl⟩
        rw [← hg1, ← hg, List.dropLast_concat]

/-! ### Receive path: short-circuit, batch flush and dispatch -/

/-- C17 (no-socket short-circuit): when no socket is open, `pfq_receive` returns
0 and its only effect is the call of `kfree_skb` on the frame: the global
counters (so `recv`), the group table with its counters, the pool of the
garbage collector and the per-CPU data are the ones before the call. -/
theorem pfq_receive_no_socket (cfg : Config) (env : rx_env) (skb : Option gc_buff)
    (direct : Bool) (st : rx_state) (h : env.sock_count = 0) :
    ∃ st1, pfq_receive cfg env skb direct st = some (0, st1) ∧
      st1.out = st.out ++ skb.toList.map (fun b => rx_event.kfree_skb b.skb) ∧
      st1.global_stats = st.global_stats ∧ st1.s = st.s ∧ st1.gc = st.gc ∧
      st1.loc = st.loc := by
  unfold pfq_receive
  rw [if_pos h]
  cases skb with
  | none => exact ⟨st, rfl, by simp, rfl, rfl, rfl, rfl⟩
  | some b => exact ⟨_, rfl, by simp, rfl, rfl, rfl, rfl⟩

theorem pfq_receive_no_socket_witness :
    ({ example_rx_env with sock_count := 0 } : rx_env).sock_count = 0 ∧
      ∃ st1, pfq_receive wideConfig { example_rx_env with sock_count := 0 }
          (some example_frame_b) true example_rx_batch = some (0, st1) ∧
        st1.out = [rx_event.kfree_skb 11] ∧
        st1.global_stats = example_rx_batch.global_stats ∧
        st1.gc = [example_frame_a, example_frame_b] := by
  refine ⟨rfl, ?_⟩
  obtain ⟨st1, h, hout, hstats, _, hgc, _⟩ := pfq_receive_no_socket wideConfig
    { example_rx_env with sock_count := 0 } (some example_frame_b) true example_rx_batch rfl
  exact ⟨st1, h, hout, hstats, hgc⟩

/-- C18 (batch flush rule): with a socket open, a `sock_queue` entry for every
socket id and a group for every bit of a group mask, (1) a call of `pfq_receive`
with a frame that is enrolled as `buff`, which makes the pool `gc1`, the old pool
followed by `buff`, returns 0 with `gc1` as the only change of the state when
`gc1` has fewer than `batch_len` frames and the timestamp of the frame is less
than 1,000,000 ns after `last_ts`, and otherwise processes the batch `gc1` after
recording the timestamp; (2) a call with the null frame returns 0 with the state
unchanged when the pool is empty and otherwise processes the batch; (3) the
processing returns 0, leaves the pool empty and adds the number of frames of
the batch to the cell of this CPU of the global `recv`. -/
theorem pfq_receive_batch_flush (cfg : Config) (env : rx_env)
    (hB : 64 ≤ cfg.Q_SKBUFF_SHORT_BATCH) (hG : 64 ≤ cfg.Q_MAX_GROUP)
    (hsock : env.sock_count ≠ 0) (direct : Bool) (st : rx_state) :
    (∀ skb buff gc1, rx_enroll env skb direct st.gc = rx_enrolled.enrolled buff gc1 →
      gc1 = st.gc ++ [buff] ∧
      (gc_size gc1 < env.batch_len ∧ buff.tstamp - st.loc.last_ts < 1000000 →
        pfq_receive cfg env (some skb) direct st = some (0, { st with gc := gc1 })) ∧
      (¬ (gc_size gc1 < env.batch_len ∧ buff.tstamp - st.loc.last_ts < 1000000) →
        ∃ st1, pfq_receive cfg env (some skb) direct st = some (0, st1) ∧
          pfq_receive_process cfg env
            { st with gc := gc1, loc := { st.loc with last_ts := buff.tstamp } } =
              some (0, st1) ∧
          st1.gc = [] ∧
          st1.global_stats.recv =
            __sparse_add st.global_stats.recv (gc_size gc1) env.cpu)) ∧
    (gc_size st.gc = 0 → pfq_receive cfg env none direct st = some (0, st)) ∧
    (gc_size st.gc ≠ 0 →
      ∃ st1, pfq_receive cfg env none direct st = some (0, st1) ∧
        pfq_receive_process cfg env st = some (0, st1) ∧
        st1.gc = [] ∧
        st1.global_stats.recv =
          __sparse_add st.global_stats.recv (gc_size st.gc) env.cpu) := by
  have hproc : ∀ st0 : rx_state, ∃ st1, pfq_receive_process cfg env st0 = some (0, st1) ∧
      st1.gc = [] ∧
      st1.global_stats.recv = __sparse_add st0.global_stats.recv (gc_size st0.gc) env.cpu := by
    intro st0
    obtain ⟨r, hr⟩ := pfq_receive_process_total cfg env st0 hB hG
    obtain ⟨h0, hgc, hrecv⟩ := pfq_receive_process_spec cfg env st0 r hr
    refine ⟨r.2, ?_, hgc, hrecv⟩
    rw [hr, ← h0]
  refine ⟨?_, ?_, ?_⟩
  · intro skb buff gc1 henr
    refine ⟨(rx_enroll_enrolled env skb direct st.gc buff gc1 henr).1, ?_, ?_⟩
    · intro hc
      unfold pfq_receive
      rw [if_neg hsock]
      simp only [henr]
      rw [if_pos hc]
    · intro hc
      obtain ⟨st1, h1, hgc, hrecv⟩ :=
        hproc { st with gc := gc1, loc := { st.loc with last_ts := buff.tstamp } }
      refine ⟨st1, ?_, h1, hgc, hrecv⟩
      unfold pfq_receive
      rw [if_neg hsock]
      simp only [henr]
      rw [if_neg hc]
      exact h1
  · intro h0
    unfold pfq_receive
    rw [if_neg hsock]
    simp only
    rw [if_pos h0]
  · intro h0
    obtain ⟨st1, h1, hgc, hrecv⟩ := hproc st
    refine ⟨st1, ?_, h1, hgc, hrecv⟩
    unfold pfq_receive
    rw [if_neg hsock]
    simp only
    rw [if_neg h0]
    exact h1

theorem pfq_receive_batch_flush_witness :
    (64 ≤ wideConfig.Q_SKBUFF_SHORT_BATCH ∧ 64 ≤ wideConfig.Q_MAX_GROUP ∧
      example_rx_env.sock_count ≠ 0 ∧ gc_size example_rx_batch.gc ≠ 0) ∧
      ∃ st1, pfq_receive wideConfig example_rx_env none false example_rx_batch = some (0, st1) ∧
        st1.gc = [] ∧
        st1.global_stats.recv = __sparse_add example_rx_batch.global_stats.recv 2 0 := by
  refine ⟨by decide, ?_⟩
  obtain ⟨st1, h, _, hgc, hrecv⟩ := (pfq_receive_batch_flush wideConfig example_rx_env
    (by decide) (by decide) (by decide) false example_rx_batch).2.2 (by decide)
  exact ⟨st1, h, hgc, hrecv⟩

set_option maxRecDepth 2000 in
/-- C20 (per-socket frame bitmask), evaluated on a batch of two frames of which
the first belongs to group 0 and the second to group 1, socket 0 being the only
member of both groups: the pass of group 1, started from a cleared `sock_queue`,
routes the frame of batch index 1 alone to socket 0 (bitmask 2), yet
`pfq_receive` hands `copy_to_endpoint_buffs` the bitmask 3 for socket 0 and
group 1, since `sock_queue` is cleared once for the batch and still holds the
bit the pass of group 0 has set. -/
theorem pfq_receive_stale_sock_queue :
    (pfq_receive_frames wideConfig example_rx_env 1 false false 2 0
        [{ example_frame_a with cb := { example_frame_a.cb with group_mask := 1 } },
         { example_frame_b with cb := { example_frame_b.cb with group_mask := 2 } }]
        (example_pass example_two_groups)).map
        (fun st => (st.refs, st.socket_mask, st.sock_queue.getD 0 0)) =
      some ([{ example_frame_b with cb := { example_frame_b.cb with group_mask := 2 } }], 1, 2) ∧
    (pfq_receive wideConfig example_rx_env none false example_rx_batch).map
        (fun r => (r.1, r.2.out)) =
      some (0,
        [rx_event.copy_to_endpoint_buffs 0
           [{ example_frame_a with cb := { example_frame_a.cb with group_mask := 1 } }] 1 0 0,
         rx_event.copy_to_endpoint_buffs 0
           [{ example_frame_b with cb := { example_frame_b.cb with group_mask := 2 } }] 3 0 1,
         rx_event.kfree_skb 10, rx_event.kfree_skb 11]) :=
  ⟨rfl, rfl⟩

/-! ### Receive path: per-group accounting -/

theorem sparse_add_zero (sc : sparse_counter) (cpu : Nat) : __sparse_add sc 0 cpu = sc := by
  unfold __sparse_add
  simp

theorem sparse_add_add (sc : sparse_counter) (a b cpu : Nat) :
    __sparse_add (__sparse_add sc a cpu) b cpu = __sparse_add sc (a + b) cpu := by
  unfold __sparse_add
  simp [Nat.add_assoc]

theorem and_shiftLeft_eq_zero (x i : Nat) : (x &&& (1 <<< i) = 0) ↔ x.testBit i = false := by
  rw [eq_zero_iff_testBit]
  constructor
  · intro h
    have := h i
    simpa [Nat.testBit_and, Nat.one_shiftLeft, Nat.testBit_two_pow] using this
  · intro h j
    rw [Nat.testBit_and, Nat.one_shiftLeft, Nat.testBit_two_pow]
    by_cases hj : i = j
    · subst hj
      simp [h]
    · simp [hj]

theorem vlan_vid_mask (tci : Nat) :
    (tci &&& ((U32 - 1) ^^^ VLAN_TAG_PRESENT)) &&& 4095 = tci &&& 0xFFF := by
  rw [Nat.and_assoc]
  rfl

theorem frame_in_group_iff (gid : Nat) (buff : gc_buff) :
    (buff.cb.group_mask &&& (1 <<< gid) = 0) ↔ frame_in_group gid buff = false :=
  and_shiftLeft_eq_zero _ _

theorem pfq_receive_route_account (cfg : Config) (env : rx_env) (gid : Nat)
    (hgid : gid < cfg.Q_MAX_GROUP) (buff : gc_buff) (st : rx_pass) :
    ((pfq_receive_route cfg env.sk_run_filter env.pfq_run env.cpu gid
        ((st.s.pfq_groups gid).bp_filter != 0) (st.s.pfq_groups gid).vlan_filt
        buff st).1.s.pfq_groups gid).bp_filter = (st.s.pfq_groups gid).bp_filter ∧
    ((pfq_receive_route cfg env.sk_run_filter env.pfq_run env.cpu gid
        ((st.s.pfq_groups gid).bp_filter != 0) (st.s.pfq_groups gid).vlan_filt
        buff st).1.s.pfq_groups gid).vlan_filt = (st.s.pfq_groups gid).vlan_filt ∧
    ((pfq_receive_route cfg env.sk_run_filter env.pfq_run env.cpu gid
        ((st.s.pfq_groups gid).bp_filter != 0) (st.s.pfq_groups gid).vlan_filt
        buff st).1.s.pfq_groups gid).stats.recv =
      __sparse_add (st.s.pfq_groups gid).stats.recv
        (if frame_in_group gid buff = true then 1 else 0) env.cpu ∧
    ((pfq_receive_route cfg env.sk_run_filter env.pfq_run env.cpu gid
        ((st.s.pfq_groups gid).bp_filter != 0) (st.s.pfq_groups gid).vlan_filt
        buff st).1.s.pfq_groups gid).stats.drop =
      __sparse_add (st.s.pfq_groups gid).stats.drop
        (if (frame_in_group gid buff && frame_dropped cfg env gid buff st) = true then 1 else 0)
        env.cpu ∧
    (pfq_receive_route cfg env.sk_run_filter env.pfq_run env.cpu gid
        ((st.s.pfq_groups gid).bp_filter != 0) (st.s.pfq_groups gid).vlan_filt
        buff st).2.isSome = (frame_in_group gid buff && !frame_dropped cfg env gid buff st) := by
  have hv : (0 : Int) ≤ (gid : Int) ∧ (gid : Int) < cfg.Q_MAX_GROUP := by omega
  unfold pfq_receive_route
  by_cases hin : buff.cb.group_mask &&& (1 <<< gid) = 0
  · rw [if_pos hin]
    have hf := (frame_in_group_iff gid buff).mp hin
    simp [hf, sparse_add_zero]
  · rw [if_neg hin]
    have hf : frame_in_group gid buff = true := by
      cases h : frame_in_group gid buff
      · exact absurd ((frame_in_group_iff gid buff).mpr h) hin
      · rfl
    simp only [hf, if_true, Bool.true_and]
    have hchk : ∀ vid, __pfq_check_group_vlan_filter cfg st.s gid vid =
        (st.s.pfq_groups gid).vid_filters (vid &&& 4095) := by
      intro vid
      unfold __pfq_check_group_vlan_filter
      rw [pfq_get_group_valid cfg st.s hv]
      rfl
    simp only [__pfq_check_group_vlan_filter_stats, rx_pass_stats_group, rx_pass_stats_monad, hchk,
      vlan_vid_mask]
    by_cases hA : (st.s.pfq_groups gid).bp_filter ≠ 0 ∧
        env.sk_run_filter (st.s.pfq_groups gid).bp_filter buff = false
    · have hd : frame_dropped cfg env gid buff st = true := by
        simp [frame_dropped, frame_filter_rejected, hA.1, hA.2]
      rw [if_pos ⟨by simpa using hA.1, hA.1, hA.2⟩]
      simp [hd, rx_pass_stats_group, __sparse_inc]
    · have hfr : frame_filter_rejected env (st.s.pfq_groups gid) buff = false := by
        unfold frame_filter_rejected
        by_cases h0 : (st.s.pfq_groups gid).bp_filter = 0
        · simp [h0]
        · have := fun h => hA ⟨h0, h⟩
          simp_all
      rw [if_neg (fun h => hA ⟨h.2.1, h.2.2⟩)]
      by_cases hB : (st.s.pfq_groups gid).vlan_filt = true ∧
          (st.s.pfq_groups gid).vid_filters (buff.vlan_tci &&& 0xFFF) = false
      · have hd : frame_dropped cfg env gid buff st = true := by
          simp [frame_dropped, frame_vlan_rejected, hB.1, hB.2]
        rw [if_pos hB]
        simp [hd, rx_pass_stats_group, __sparse_inc]
      · have hvr : frame_vlan_rejected (st.s.pfq_groups gid) buff = false := by
          unfold frame_vlan_rejected
          by_cases h0 : (st.s.pfq_groups gid).vlan_filt = true
          · have := fun h => hB ⟨h0, h⟩
            simp_all
          · simp [h0]
        rw [if_neg hB]
        by_cases hC : (st.s.pfq_groups gid).comp ≠ 0
        · rw [if_pos hC]
          cases hrun : env.pfq_run (st.s.pfq_groups gid).comp buff
            (rx_monad_setup cfg gid st.monad) with
          | mk o m =>
            cases o with
            | none =>
              have hd : frame_dropped cfg env gid buff st = true := by
                simp [frame_dropped, frame_program_dropped, hC, hrun]
              simp [hd, rx_pass_stats_group, __sparse_inc]
            | some b =>
              simp only []
              by_cases hdrop : is_drop m.fanout = true
              · have hd : frame_dropped cfg env gid buff st = true := by
                  simp [frame_dropped, frame_program_dropped, hC, hrun, hdrop]
                rw [if_pos hdrop]
                simp [hd, rx_pass_stats_group, __sparse_inc]
              · have hd : frame_dropped cfg env gid buff st = false := by
                  simp [frame_dropped, frame_program_dropped, hC, hrun, hdrop, hfr, hvr]
                rw [if_neg hdrop]
                simp only [hd, Bool.false_eq_true, if_false]
                split_ifs <;> simp [rx_pass_stats_group, __sparse_inc, sparse_add_zero]
        · rw [if_neg hC]
          have hd : frame_dropped cfg env gid buff st = false := by
            simp [frame_dropped, frame_program_dropped, hfr, hvr, not_not.mp hC]
          simp [hd, rx_pass_stats_group, __sparse_inc, sparse_add_zero]

theorem pfq_receive_frame_state (cfg : Config) (sk_run_filter : Nat → gc_buff → Bool)
    (pfq_run : Nat → gc_buff → pfq_monad → Option gc_buff × pfq_monad)
    (cpu gid : Nat) (bf_filter_enabled vlan_filter_enabled : Bool) (n : Nat)
    (buff : gc_buff) (st st1 : rx_pass)
    (h : pfq_receive_frame cfg sk_run_filter pfq_run cpu gid bf_filter_enabled
      vlan_filter_enabled n buff st = some st1) :
    st1.s = (pfq_receive_route cfg sk_run_filter pfq_run cpu gid bf_filter_enabled
      vlan_filter_enabled buff st).1.s ∧
    st1.monad = (pfq_receive_route cfg sk_run_filter pfq_run cpu gid bf_filter_enabled
      vlan_filter_enabled buff st).1.monad ∧
    st1.loc = (pfq_receive_route cfg sk_run_filter pfq_run cpu gid bf_filter_enabled
      vlan_filter_enabled buff st).1.loc ∧
    st1.refs = (pfq_receive_route cfg sk_run_filter pfq_run cpu gid bf_filter_enabled
      vlan_filter_enabled buff st).1.refs := by
  unfold pfq_receive_frame at h
  simp only at h
  split at h
  · simp only [Option.some.injEq] at h
    subst h
    exact ⟨rfl, rfl, rfl, rfl⟩
  · split at h
    · cases h
    · simp only [Option.some.injEq] at h
      subst h
      exact ⟨rfl, rfl, rfl, rfl⟩

/-- The counters of a group after the frame loop of its pass, from any iteration
on. -/
theorem pfq_receive_frames_account (cfg : Config) (env : rx_env) (gid : Nat)
    (hgid : gid < cfg.Q_MAX_GROUP) (bf vf : Bool) (this_batch_len : Nat) (pool : List gc_buff) :
    ∀ (n : Nat) (st st1 : rx_pass),
      bf = ((st.s.pfq_groups gid).bp_filter != 0) → vf = (st.s.pfq_groups gid).vlan_filt →
      pfq_receive_frames cfg env gid bf vf this_batch_len n pool st = some st1 →
      (bf = ((st1.s.pfq_groups gid).bp_filter != 0) ∧ vf = (st1.s.pfq_groups gid).vlan_filt) ∧
      (st1.s.pfq_groups gid).stats.recv =
        __sparse_add (st.s.pfq_groups gid).stats.recv
          ((rx_pass_steps cfg env gid bf vf this_batch_len n pool st).countP
            fun p => frame_in_group gid p.2.1) env.cpu ∧
      (st1.s.pfq_groups gid).stats.drop =
        __sparse_add (st.s.pfq_groups gid).stats.drop
          ((rx_pass_steps cfg env gid bf vf this_batch_len n pool st).countP
            fun p => frame_in_group gid p.2.1 && frame_dropped cfg env gid p.2.1 p.2.2) env.cpu ∧
      (rx_pass_steps cfg env gid bf vf this_batch_len n pool st).countP
          (fun p => frame_in_group gid p.2.1) =
        (rx_pass_steps cfg env gid bf vf this_batch_len n pool st).countP
            (fun p => frame_in_group gid p.2.1 && frame_dropped cfg env gid p.2.1 p.2.2) +
          (rx_pass_steps cfg env gid bf vf this_batch_len n pool st).countP
            (fun p => (pfq_receive_route cfg env.sk_run_filter env.pfq_run env.cpu gid bf vf
              p.2.1 p.2.2).2.isSome) := by
  induction pool with
  | nil =>
    intro n st st1 hbf hvf h
    simp only [pfq_receive_frames, Option.some.injEq] at h
    subst h
    simp [rx_pass_steps, sparse_add_zero, hbf, hvf]
  | cons buff rest ih =>
    intro n st st1 hbf hvf h
    unfold pfq_receive_frames at h
    unfold rx_pass_steps
    by_cases hn : n = this_batch_len
    · rw [if_pos hn] at h ⊢
      simp only [Option.some.injEq] at h
      subst h
      simp [sparse_add_zero, hbf, hvf]
    · rw [if_neg hn] at h ⊢
      cases hfr : pfq_receive_frame cfg env.sk_run_filter env.pfq_run env.cpu gid bf vf n buff st with
      | none =>
        rw [hfr] at h
        cases h
      | some st2 =>
        rw [hfr] at h
        simp only at h ⊢
        obtain ⟨hs, -, -, -⟩ := pfq_receive_frame_state cfg env.sk_run_filter env.pfq_run env.cpu
          gid bf vf n buff st st2 hfr
        have hacc := pfq_receive_route_account cfg env gid hgid buff st
        rw [← hbf, ← hvf, ← hs] at hacc
        obtain ⟨hb2, hv2, hrecv, hdrop, hsome⟩ := hacc
        obtain ⟨hinv, hr, hd, hcount⟩ := ih (n + 1) st2 st1 (by rw [hb2]; exact hbf)
          hv2.symm h
        refine ⟨hinv, ?_, ?_, ?_⟩
        · rw [hr, hrecv, sparse_add_add, List.countP_cons, Nat.add_comm]
        · rw [hd, hdrop, sparse_add_add, List.countP_cons, Nat.add_comm]
        · rw [List.countP_cons, List.countP_cons, List.countP_cons, hcount]
          simp only [hsome]
          cases frame_in_group gid buff <;> cases frame_dropped cfg env gid buff st <;>
            simp <;> omega

theorem pfq_receive_route_others (cfg : Config) (sk_run_filter : Nat → gc_buff → Bool)
    (pfq_run : Nat → gc_buff → pfq_monad → Option gc_buff × pfq_monad)
    (cpu gid : Nat) (bf_filter_enabled vlan_filter_enabled : Bool) (buff : gc_buff)
    (st : rx_pass) (g : Nat) (hne : g ≠ gid) :
    (pfq_receive_route cfg sk_run_filter pfq_run cpu gid bf_filter_enabled
        vlan_filter_enabled buff st).1.s.pfq_groups g = st.s.pfq_groups g ∧
    (pfq_receive_route cfg sk_run_filter pfq_run cpu gid bf_filter_enabled
        vlan_filter_enabled buff st).1.s.pfq_devmap = st.s.pfq_devmap := by
  have hst : ∀ (x : rx_pass) (f : pfq_group_stats → pfq_group_stats),
      (x.stats gid f).s.pfq_groups g = x.s.pfq_groups g ∧
        (x.stats gid f).s.pfq_devmap = x.s.pfq_devmap := by
    intro x f
    simp [rx_pass.stats, State.set_group, Function.update_noteq hne]
  unfold pfq_receive_route
  simp only []
  split_ifs
  · exact ⟨rfl, rfl⟩
  · simp [hst]
  · simp [hst]
  · split
    · simp [hst]
    · split_ifs <;> simp [hst]
  · simp [hst]

/-- The frame loop visits every frame of the pool in order when no write falls
outside `sock_queue`, with batch indices below `this_batch_len`. -/
theorem rx_pass_steps_frames (cfg : Config) (env : rx_env) (gid : Nat) (bf vf : Bool)
    (this_batch_len : Nat) (pool : List gc_buff) :
    ∀ (n : Nat) (st : rx_pass), 64 ≤ st.sock_queue.length → n + pool.length ≤ this_batch_len →
      (rx_pass_steps cfg env gid bf vf this_batch_len n pool st).map (fun p => p.2.1) = pool ∧
      ∀ p ∈ rx_pass_steps cfg env gid bf vf this_batch_len n pool st,
        n ≤ p.1 ∧ p.1 < this_batch_len ∧ p.2.2.sock_queue.length = st.sock_queue.length := by
  induction pool with
  | nil =>
    intro n st _ _
    simp [rx_pass_steps]
  | cons buff rest ih =>
    intro n st hq hn
    simp only [List.length_cons] at hn
    unfold rx_pass_steps
    rw [if_neg (by omega)]
    obtain ⟨st1, h1, hl1⟩ := pfq_receive_frame_total cfg env.sk_run_filter env.pfq_run env.cpu
      gid bf vf n buff st hq
    rw [h1]
    simp only
    obtain ⟨hmap, hall⟩ := ih (n + 1) st1 (by rw [hl1]; exact hq) (by omega)
    refine ⟨by rw [List.map_cons, hmap], ?_⟩
    intro p hp
    rcases List.mem_cons.mp hp with hp | hp
    · subst hp
      exact ⟨le_refl _, by omega, rfl⟩
    · obtain ⟨h1, h2, h3⟩ := hall p hp
      exact ⟨by omega, h2, by rw [h3, hl1]⟩

/-- The frame loop of the pass of `gid` leaves every other group and the device
map as they are. -/
theorem pfq_receive_frames_others (cfg : Config) (env : rx_env) (gid : Nat) (bf vf : Bool)
    (this_batch_len : Nat) (pool : List gc_buff) (g : Nat) (hne : g ≠ gid) :
    ∀ (n : Nat) (st st1 : rx_pass),
      pfq_receive_frames cfg env gid bf vf this_batch_len n pool st = some st1 →
      st1.s.pfq_groups g = st.s.pfq_groups g ∧ st1.s.pfq_devmap = st.s.pfq_devmap := by
  induction pool with
  | nil =>
    intro n st st1 h
    simp only [pfq_receive_frames, Option.some.injEq] at h
    subst h
    exact ⟨rfl, rfl⟩
  | cons buff rest ih =>
    intro n st st1 h
    unfold pfq_receive_frames at h
    by_cases hn : n = this_batch_len
    · rw [if_pos hn] at h
      simp only [Option.some.injEq] at h
      subst h
      exact ⟨rfl, rfl⟩
    · rw [if_neg hn] at h
      cases hfr : pfq_receive_frame cfg env.sk_run_filter env.pfq_run env.cpu gid bf vf n buff st with
      | none =>
        rw [hfr] at h
        cases h
      | some st2 =>
        rw [hfr] at h
        simp only at h
        obtain ⟨hs, -, -, -⟩ := pfq_receive_frame_state cfg env.sk_run_filter env.pfq_run env.cpu
          gid bf vf n buff st st2 hfr
        obtain ⟨ho, hd⟩ := pfq_receive_route_others cfg env.sk_run_filter env.pfq_run env.cpu
          gid bf vf buff st g hne
        obtain ⟨h1, h2⟩ := ih (n + 1) st2 st1 h
        rw [← hs] at ho hd
        exact ⟨by rw [h1, ho], by rw [h2, hd]⟩

/-- What the pass of a group returns, in terms of its frame loop. -/
theorem pfq_receive_group_eq (cfg : Config) (env : rx_env) (this_batch_len : Nat)
    (pool : List gc_buff) (gid : Nat) (hgid : gid < cfg.Q_MAX_GROUP) (l : rx_loop)
    (hq : 64 ≤ l.sock_queue.length) :
    ∃ st1, pfq_receive_frames cfg env gid ((l.s.pfq_groups gid).bp_filter != 0)
        (l.s.pfq_groups gid).vlan_filt this_batch_len 0 pool l.pass = some st1 ∧
      st1.sock_queue.length = l.sock_queue.length ∧
      pfq_receive_group cfg env this_batch_len pool gid l =
        some
          { s := st1.s, loc := st1.loc, monad := st1.monad, sock_queue := st1.sock_queue
            out := pfq_bitwise_foreach st1.socket_mask
              (fun out lb =>
                out ++ [rx_event.copy_to_endpoint_buffs (pfq_ctz lb) st1.refs
                  (st1.sock_queue.getD (pfq_ctz lb) 0) env.cpu gid])
              l.out } := by
  have hv : (0 : Int) ≤ (gid : Int) ∧ (gid : Int) < cfg.Q_MAX_GROUP := by omega
  obtain ⟨st1, h1, hl1⟩ := pfq_receive_frames_total cfg env gid
    ((l.s.pfq_groups gid).bp_filter != 0) (l.s.pfq_groups gid).vlan_filt this_batch_len pool 0
    l.pass hq
  refine ⟨st1, h1, hl1, ?_⟩
  have hvf : __pfq_vlan_filters_enabled cfg l.s gid = (l.s.pfq_groups gid).vlan_filt := by
    unfold __pfq_vlan_filters_enabled
    rw [pfq_get_group_valid cfg l.s hv]
    rfl
  unfold pfq_receive_group
  rw [pfq_get_group_valid cfg l.s hv]
  simp only [hvf]
  have h2 : pfq_receive_frames cfg env gid ((l.s.pfq_groups (gid : Int).toNat).bp_filter != 0)
      (l.s.pfq_groups gid).vlan_filt this_batch_len 0 pool
      { s := l.s, loc := l.loc, monad := l.monad, refs := [], socket_mask := 0,
        sock_queue := l.sock_queue } = some st1 := h1
  rw [h2]

/-- C21 (per-group accounting): the pass of a group `gid` of the table over a
batch, with a `sock_queue` entry for every socket id, returns, and on its return
the cell of this CPU of the `recv` counter of the group has grown by the number
of frames of the batch whose device-map group mask contains `gid`, the cell
of its `drop` counter by the number of those frames that the BPF filter rejects,
that the VLAN filter rejects (`vid_filters[vlan_tci & 0xFFF]` false while VLAN
filtering is enabled) or that the program drops (null result or fanout drop);
every frame of the batch is visited once; the frames of the group are the
dropped ones and the ones that reach `mask_to_sock_queue`; no other group and
no other cell changes. -/
theorem group_accounting (cfg : Config) (env : rx_env) (gid : Nat)
    (hgid : gid < cfg.Q_MAX_GROUP) (s0 : State) (gc : List gc_buff) (l : rx_loop)
    (hq : 64 ≤ l.sock_queue.length) :
    ∃ l1, pfq_receive_group cfg env (gc_size gc) (rx_setup s0 gc) gid l = some l1 ∧
      (rx_pass_steps cfg env gid ((l.s.pfq_groups gid).bp_filter != 0)
        (l.s.pfq_groups gid).vlan_filt (gc_size gc) 0 (rx_setup s0 gc) l.pass).map
          (fun p => p.2.1) = rx_setup s0 gc ∧
      (l1.s.pfq_groups gid).stats.recv =
        __sparse_add (l.s.pfq_groups gid).stats.recv
          (gc.countP fun skb =>
            (__pfq_devmap_get_groups s0 skb.ifindex skb.rx_queue).testBit gid) env.cpu ∧
      (l1.s.pfq_groups gid).stats.drop =
        __sparse_add (l.s.pfq_groups gid).stats.drop
          ((rx_pass_steps cfg env gid ((l.s.pfq_groups gid).bp_filter != 0)
            (l.s.pfq_groups gid).vlan_filt (gc_size gc) 0 (rx_setup s0 gc) l.pass).countP
              fun p => frame_in_group gid p.2.1 && frame_dropped cfg env gid p.2.1 p.2.2)
          env.cpu ∧
      (gc.countP fun skb =>
          (__pfq_devmap_get_groups s0 skb.ifindex skb.rx_queue).testBit gid) =
        (rx_pass_steps cfg env gid ((l.s.pfq_groups gid).bp_filter != 0)
          (l.s.pfq_groups gid).vlan_filt (gc_size gc) 0 (rx_setup s0 gc) l.pass).countP
            (fun p => frame_in_group gid p.2.1 && frame_dropped cfg env gid p.2.1 p.2.2) +
        (rx_pass_steps cfg env gid ((l.s.pfq_groups gid).bp_filter != 0)
          (l.s.pfq_groups gid).vlan_filt (gc_size gc) 0 (rx_setup s0 gc) l.pass).countP
            (fun p => (pfq_receive_route cfg env.sk_run_filter env.pfq_run env.cpu gid
              ((l.s.pfq_groups gid).bp_filter != 0) (l.s.pfq_groups gid).vlan_filt
              p.2.1 p.2.2).2.isSome) ∧
      ∀ g, g ≠ gid → l1.s.pfq_groups g = l.s.pfq_groups g := by
  obtain ⟨st1, h1, -, hgrp⟩ := pfq_receive_group_eq cfg env (gc_size gc) (rx_setup s0 gc) gid
    hgid l hq
  have hlen : 0 + (rx_setup s0 gc).length ≤ gc_size gc := by
    simp [rx_setup, gc_size]
  obtain ⟨hmap, -⟩ := rx_pass_steps_frames cfg env gid ((l.s.pfq_groups gid).bp_filter != 0)
    (l.s.pfq_groups gid).vlan_filt (gc_size gc) (rx_setup s0 gc) 0 l.pass hq hlen
  obtain ⟨-, hrecv, hdrop, hcount⟩ := pfq_receive_frames_account cfg env gid hgid
    ((l.s.pfq_groups gid).bp_filter != 0) (l.s.pfq_groups gid).vlan_filt (gc_size gc)
    (rx_setup s0 gc) 0 l.pass st1 rfl rfl h1
  have hmem : (rx_pass_steps cfg env gid ((l.s.pfq_groups gid).bp_filter != 0)
      (l.s.pfq_groups gid).vlan_filt (gc_size gc) 0 (rx_setup s0 gc) l.pass).countP
        (fun p => frame_in_group gid p.2.1) =
      gc.countP fun skb =>
        (__pfq_devmap_get_groups s0 skb.ifindex skb.rx_queue).testBit gid := by
    have e1 : (rx_pass_steps cfg env gid ((l.s.pfq_groups gid).bp_filter != 0)
        (l.s.pfq_groups gid).vlan_filt (gc_size gc) 0 (rx_setup s0 gc) l.pass).countP
          (fun p => frame_in_group gid p.2.1) =
        ((rx_pass_steps cfg env gid ((l.s.pfq_groups gid).bp_filter != 0)
          (l.s.pfq_groups gid).vlan_filt (gc_size gc) 0 (rx_setup s0 gc) l.pass).map
            (fun p => p.2.1)).countP (frame_in_group gid) := by
      rw [List.countP_map]
      rfl
    rw [e1, hmap]
    unfold rx_setup
    rw [List.countP_map]
    rfl
  rw [hmem] at hrecv hcount
  refine ⟨_, hgrp, hmap, hrecv, hdrop, hcount, ?_⟩
  intro g hne
  exact (pfq_receive_frames_others cfg env gid _ _ (gc_size gc) (rx_setup s0 gc) g hne 0
    l.pass st1 h1).1

theorem group_accounting_witness :
    ((1 : Nat) < wideConfig.Q_MAX_GROUP ∧ 64 ≤ example_rx_loop.sock_queue.length) ∧
      ∃ l1, pfq_receive_group wideConfig example_rx_env 2
          (rx_setup example_two_groups [example_frame_a, example_frame_b]) 1
          example_rx_loop = some l1 ∧
        (l1.s.pfq_groups 1).stats.recv =
          __sparse_add (example_two_groups.pfq_groups 1).stats.recv 1 0 := by
  refine ⟨by decide, ?_⟩
  obtain ⟨l1, h, _, hrecv, _⟩ := group_accounting wideConfig example_rx_env 1 (by decide)
    example_two_groups [example_frame_a, example_frame_b] example_rx_loop (by decide)
  exact ⟨l1, h, hrecv⟩

/-! ### Receive path: bounds of `sock_queue` -/

set_option maxRecDepth 2000 in
/-- C23 (positions in `refs`), evaluated on a batch of two frames of which the
first belongs to no group and the second, of batch index 1, to group 0, whose
only member is socket 0: `pfq_receive` hands `copy_to_endpoint_buffs` the
bitmask 2, in which bit 1 is set, together with a `refs` of one entry, which
holds the frame of batch index 1 at position 0 and has no position 1. -/
theorem pfq_receive_refs_position :
    (pfq_receive wideConfig example_rx_env none false example_rx_gap).map
        (fun r => (r.1, r.2.out)) =
      some (0,
        [rx_event.copy_to_endpoint_buffs 0
           [{ example_frame_a with cb := { example_frame_a.cb with group_mask := 1 } }] 2 0 0,
         rx_event.kfree_skb 12, rx_event.kfree_skb 10]) ∧
    Nat.testBit 2 1 = true ∧
    ([{ example_frame_a with cb := { example_frame_a.cb with group_mask := 1 } }] :
      List gc_buff).length = 1 ∧
    example_rx_gap.gc.indexOf example_frame_a = 1 :=
  ⟨rfl, rfl, rfl, rfl⟩

end PFQ
